import Mathlib

/-! Groth16 trusted setup, Phase 2 (`backend/groth16/setup/phase2`)

A shallow embedding of `contribution.go` and `qap.go`, and of the readers of
`backend/groth16/groth16.go`.

* Group elements of `bn254.G1Affine`, `bn254.G2Affine` and of the pairing target are
  elements of three `Fr`-modules `G₁`, `G₂`, `Gt` (additive notation); the external curve
  library is the record `Curve`, whose pairing `e` is `Fr`-bilinear.
* Go slices are lists; Go `int` is `Int`; a run-time panic is `Except.error`.
* Randomness (`delta.SetRandom()`, the point sampled by `GenPublicKey`) is an explicit
  argument.
* A method with a pointer receiver takes the receiver's state and returns the new state.
* `Contribute` is embedded twice: on two separate objects (`Contribute`), and on a memory of
  objects with the addresses held by the two pointers (`ContributeInPlace`), which covers a
  receiver that is `prev` itself.
-/

set_option linter.unusedSectionVars false
set_option linter.unusedVariables false

namespace Setup

/-! ## Go run-time operations on slices -/

/-- Go `make([]T, k)`: a slice of `k` zero values; panics when `k` is negative. -/
def makeSlice {α : Type} [Zero α] (k : Int) : Except String (List α) :=
  if k < 0 then .error "makeslice: len out of range" else .ok (List.replicate k.toNat 0)

/-- Go `xs[i]` used as a value; panics when `i` is out of range. -/
def readIdx {α : Type} (xs : List α) (i : Int) : Except String α :=
  if i < 0 then .error "index out of range"
  else match xs[i.toNat]? with
    | some x => .ok x
    | none => .error "index out of range"

/-- Go `xs[i] = v`; panics when `i` is out of range. -/
def writeIdx {α : Type} (xs : List α) (i : Int) (v : α) : Except String (List α) :=
  if 0 ≤ i ∧ i < (xs.length : Int) then .ok (xs.set i.toNat v)
  else .error "index out of range"

/-- Go `xs[:k]` for a slice whose capacity equals its length; panics when `k` is out of
range. -/
def sliceTo {α : Type} (xs : List α) (k : Int) : Except String (List α) :=
  if 0 ≤ k ∧ k ≤ (xs.length : Int) then .ok (xs.take k.toNat)
  else .error "slice bounds out of range"

/-- Go `for _, i := range is { s, err = body(i, s) }`: runs `body` on the indices in order,
stops at the first panic and returns the state reached together with the panic, if any. -/
def forRange {σ : Type} (body : Nat → σ → Except String σ) : List Nat → σ → σ × Option String
  | [], s => (s, none)
  | i :: is, s =>
    match body i s with
    | .ok s' => forRange body is s'
    | .error m => (s, some m)

/-! ## The external curve library -/

/-- The operations of the curve library (`gnark-crypto/ecc/bn254`, `crypto/sha256`) and of
the `setup/utils` primitives that the package calls. `e` is the pairing, `g1`, `g2` the
generators returned by `bn254.Generators()`. -/
structure Curve (Fr G₁ G₂ Gt : Type) [Field Fr] [AddCommGroup G₁] [Module Fr G₁]
    [AddCommGroup G₂] [Module Fr G₂] [AddCommGroup Gt] [Module Fr Gt] where
  /-- generator of G1 -/
  g1 : G₁
  /-- generator of G2 -/
  g2 : G₂
  /-- the bilinear pairing -/
  e : G₁ →ₗ[Fr] G₂ →ₗ[Fr] Gt
  /-- encoding `enc.Encode(&p)` of a G1 point -/
  encodeG1 : G₁ → List Nat
  /-- encoding `enc.Encode(&p)` of a G2 point -/
  encodeG2 : G₂ → List Nat
  /-- encoding `enc.Encode(ps)` of a slice of G1 points -/
  encodeG1Slice : List G₁ → List Nat
  /-- SHA-256 of a byte string -/
  sha256 : List Nat → List Nat
  /-- hash-to-curve into G2 -/
  HashToG2 : List Nat → G₂
  /-- the primitive `utils.LagrangeCoeffsG1(powers, size)` -/
  LagrangeCoeffsG1 : List G₁ → Nat → List G₁
  /-- the primitive `utils.LagrangeCoeffsG2(powers, size)` -/
  LagrangeCoeffsG2 : List G₂ → Nat → List G₂

namespace utils

/-- The knowledge-of-exponent proof `utils.PublicKey`. -/
structure PublicKey (G₁ G₂ : Type) where
  SG : G₁
  SXG : G₁
  XR : G₂
deriving DecidableEq

variable {Fr G₁ G₂ Gt : Type} [Field Fr] [AddCommGroup G₁] [Module Fr G₁]
  [AddCommGroup G₂] [Module Fr G₂] [AddCommGroup Gt] [Module Fr Gt]

/-- Modelled from the spec: `utils.GenPublicKey(x, prevHash, index)` is not among the
sources. Spec 4.1: sample `sg` (here the argument `sg`), `sxg = x · sg`,
`r = HashToG2(prevHash ‖ index ‖ encode(sg) ‖ encode(sxg))`, `xr = x · r`. -/
def GenPublicKey (lib : Curve Fr G₁ G₂ Gt) (sg : G₁) (x : Fr) (prevHash : List Nat)
    (index : Nat) : PublicKey G₁ G₂ :=
  let sxg := x • sg
  let r := lib.HashToG2 (prevHash ++ [index] ++ lib.encodeG1 sg ++ lib.encodeG1 sxg)
  { SG := sg, SXG := sxg, XR := x • r }

/-- Modelled from the spec: `utils.EvalG1(scalars, points)` is not among the sources.
Spec 4.6: the dot product `Σⱼ scalars[j] · points[j]`. -/
def EvalG1 (scalars : List Fr) (points : List G₁) : G₁ :=
  (List.zipWith (fun a p => a • p) scalars points).sum

/-- Modelled from the spec: `utils.EvalG2(scalars, points)` is not among the sources.
Spec 4.6: the dot product `Σⱼ scalars[j] · points[j]`. -/
def EvalG2 (scalars : List Fr) (points : List G₂) : G₂ :=
  (List.zipWith (fun a p => a • p) scalars points).sum

end utils

namespace phase1

/-- The G1 part of the Phase-1 parameters, as `PreparePhase2` reads it. -/
structure ParametersG1 (G₁ : Type) where
  Tau : List G₁
  AlphaTau : List G₁
  BetaTau : List G₁

/-- The G2 part of the Phase-1 parameters. -/
structure ParametersG2 (G₂ : Type) where
  Tau : List G₂
  Beta : G₂

/-- The Phase-1 structured reference string. -/
structure Parameters (G₁ G₂ : Type) where
  G1 : ParametersG1 G₁
  G2 : ParametersG2 G₂

/-- The Phase-1 `Contribution`. -/
structure Contribution (G₁ G₂ : Type) where
  Parameters : Parameters G₁ G₂

end phase1

namespace phase2

/-- The struct `QAP` of `qap.go`. -/
structure QAP (Fr : Type) where
  NConstraints : Int
  NWires : Int
  NPublic : Int
  A : List (List Fr)
  B : List (List Fr)
  C : List (List Fr)

/-- The G1 part of `Evaluations`. -/
structure EvaluationsG1 (G₁ : Type) where
  A : List G₁
  B : List G₁
  VKK : List G₁
deriving DecidableEq

/-- The G2 part of `Evaluations`. -/
structure EvaluationsG2 (G₂ : Type) where
  B : List G₂
deriving DecidableEq

/-- The struct `Evaluations`. -/
structure Evaluations (G₁ G₂ : Type) where
  G1 : EvaluationsG1 G₁
  G2 : EvaluationsG2 G₂
deriving DecidableEq

/-- The G1 part of the Phase-2 parameters. -/
structure ParametersG1 (G₁ : Type) where
  Delta : G₁
  L : List G₁
  Z : List G₁
deriving DecidableEq

/-- The G2 part of the Phase-2 parameters. -/
structure ParametersG2 (G₂ : Type) where
  Delta : G₂
deriving DecidableEq

/-- The Phase-2 parameters. -/
structure Parameters (G₁ G₂ : Type) where
  G1 : ParametersG1 G₁
  G2 : ParametersG2 G₂
deriving DecidableEq

/-- The struct `Contribution` of `contribution.go`. -/
structure Contribution (G₁ G₂ : Type) where
  Parameters : Parameters G₁ G₂
  PublicKey : utils.PublicKey G₁ G₂
  Hash : List Nat
deriving DecidableEq

variable {Fr G₁ G₂ Gt : Type} [Field Fr] [AddCommGroup G₁] [Module Fr G₁]
  [AddCommGroup G₂] [Module Fr G₂] [AddCommGroup Gt] [Module Fr Gt]

/-- The Go zero value `var c Contribution`. -/
def Contribution.zero : Contribution G₁ G₂ :=
  { Parameters := { G1 := { Delta := 0, L := [], Z := [] }, G2 := { Delta := 0 } },
    PublicKey := { SG := 0, SXG := 0, XR := 0 },
    Hash := [] }

/-- The function `HashContribution`: SHA-256 of the encodings of the seven fields of `toEncode`, in
order. -/
def HashContribution (lib : Curve Fr G₁ G₂ Gt) (c : Contribution G₁ G₂) : List Nat :=
  let toEncode : List (List Nat) :=
    [ lib.encodeG1 c.PublicKey.SG,
      lib.encodeG1 c.PublicKey.SXG,
      lib.encodeG2 c.PublicKey.XR,
      lib.encodeG1 c.Parameters.G1.Delta,
      lib.encodeG1Slice c.Parameters.G1.L,
      lib.encodeG1Slice c.Parameters.G1.Z,
      lib.encodeG2 c.Parameters.G2.Delta ]
  lib.sha256 (toEncode.foldl (fun written v => written ++ v) [])

/-- The loop `for i := 0; i < len(src); i++ { dst[i].ScalarMultiplication(&src[i], &k) }`
on `dst = make([]bn254.G1Affine, len(src))`. -/
def scaleLoop (k : Fr) (src : List G₁) : List G₁ :=
  (List.range src.length).foldl (fun dst i => dst.set i (k • src.getD i 0))
    (List.replicate src.length 0)

/-- The method `Contribution.Contribute` on two separate objects: `delta` is the value of
`delta.SetRandom()`, `sg` the point sampled inside `GenPublicKey`, `c` the receiver before
the call and `prev` an object other than the receiver; the result is the receiver after the
call. `deltaInv.Inverse(&delta)` is the field inverse, which is `0` at `0`. The call in which
the two pointers may hold the same address is `ContributeInPlace`. -/
def Contribute (lib : Curve Fr G₁ G₂ Gt) (delta : Fr) (sg : G₁)
    (c prev : Contribution G₁ G₂) : Contribution G₁ G₂ :=
  let deltaInv := delta⁻¹
  -- Set δ public key
  let c := { c with PublicKey := utils.GenPublicKey lib sg delta prev.Hash 1 }
  -- Update δ
  let c := { c with Parameters.G1.Delta := delta • prev.Parameters.G1.Delta }
  let c := { c with Parameters.G2.Delta := delta • prev.Parameters.G2.Delta }
  -- Update Z using δ⁻¹
  let c := { c with Parameters.G1.Z := scaleLoop deltaInv prev.Parameters.G1.Z }
  -- Update L using δ⁻¹
  let c := { c with Parameters.G1.L := scaleLoop deltaInv prev.Parameters.G1.L }
  -- Hash contribution
  { c with Hash := HashContribution lib c }

/-- The destination of the write at the end of the body of the `Evaluate L` loop. -/
inductive Slot where
  | VKK (j : Int)
  | L (j : Int)
deriving DecidableEq

/-- The branch `if i < qap.NPublic { evals.G1.VKK[i] ... } else { c2.Parameters.G1.L[i-offset] ... }`
with `offset := qap.NPublic`: where wire `i` is written. -/
def wireSlot (qap : QAP Fr) (i : Nat) : Slot :=
  let offset := qap.NPublic
  if (i : Int) < qap.NPublic then Slot.VKK i else Slot.L ((i : Int) - offset)

/-- The write to the slot, on the pair `(c2.Parameters.G1.L, evals.G1.VKK)`. -/
def writeSlot (s : List G₁ × List G₁) (d : Slot) (res : G₁) :
    Except String (List G₁ × List G₁) :=
  match d with
  | Slot.VKK j =>
    match writeIdx s.2 j res with
    | .ok vkk => .ok (s.1, vkk)
    | .error m => .error m
  | Slot.L j =>
    match writeIdx s.1 j res with
    | .ok l => .ok (l, s.2)
    | .error m => .error m

/-- The value `bA.AddAssign(aB).AddAssign(C)` for wire `i` of the `Evaluate L` loop. -/
def combinedWire (qap : QAP Fr) (coeffBetaTau1 coeffAlphaTau1 coeffTau1 : List G₁)
    (i : Nat) : Except String G₁ := do
  let a ← readIdx qap.A i
  let sb ← sliceTo coeffBetaTau1 qap.NConstraints
  let bA := utils.EvalG1 a sb
  let b ← readIdx qap.B i
  let sa ← sliceTo coeffAlphaTau1 qap.NConstraints
  let aB := utils.EvalG1 b sa
  let c ← readIdx qap.C i
  let st ← sliceTo coeffTau1 qap.NConstraints
  let C := utils.EvalG1 c st
  pure (bA + aB + C)

/-- Body of the `Evaluate L` loop on the pair `(c2.Parameters.G1.L, evals.G1.VKK)`. -/
def evalLBody (qap : QAP Fr) (coeffBetaTau1 coeffAlphaTau1 coeffTau1 : List G₁)
    (i : Nat) (s : List G₁ × List G₁) : Except String (List G₁ × List G₁) := do
  let res ← combinedWire qap coeffBetaTau1 coeffAlphaTau1 coeffTau1 i
  writeSlot s (wireSlot qap i) res

/-- Body of the first loop of `PreparePhase2`, on the local `evals`. -/
def evalABBody (qap : QAP Fr) (coeffTau1 : List G₁) (coeffTau2 : List G₂) (i : Nat)
    (evals : Evaluations G₁ G₂) : Except String (Evaluations G₁ G₂) := do
  let a ← readIdx qap.A i
  let t1 ← sliceTo coeffTau1 qap.NConstraints
  let eA ← writeIdx evals.G1.A i (utils.EvalG1 a t1)
  let b ← readIdx qap.B i
  let t1 ← sliceTo coeffTau1 qap.NConstraints
  let eB ← writeIdx evals.G1.B i (utils.EvalG1 b t1)
  let b ← readIdx qap.B i
  let t2 ← sliceTo coeffTau2 qap.NConstraints
  let eB2 ← writeIdx evals.G2.B i (utils.EvalG2 b t2)
  pure { G1 := { A := eA, B := eB, VKK := evals.G1.VKK }, G2 := { B := eB2 } }

/-- The three `make` calls and the first loop of `PreparePhase2`: the local `evals` before
`VKK` is allocated. -/
def evalAB (qap : QAP Fr) (coeffTau1 : List G₁) (coeffTau2 : List G₂) :
    Except String (Evaluations G₁ G₂) := do
  let eA ← makeSlice qap.NWires
  let eB ← makeSlice qap.NWires
  let eB2 ← makeSlice qap.NWires
  let evals : Evaluations G₁ G₂ := { G1 := { A := eA, B := eB, VKK := [] }, G2 := { B := eB2 } }
  match forRange (evalABBody qap coeffTau1 coeffTau2) (List.range qap.NWires.toNat) evals with
  | (_, some m) => .error m
  | (evals, none) => .ok evals

/-- Body of the `Build Z` loop: `Z[i].Sub(&srs.G1.Tau[i+n], &srs.G1.Tau[i])`. -/
def buildZBody (tau : List G₁) (n : Nat) (i : Nat) (z : List G₁) : Except String (List G₁) := do
  let a ← readIdx tau ((i : Int) + (n : Int))
  let b ← readIdx tau i
  writeIdx z i (a - b)

/-- The construction of `c2.Parameters.G1.Z`: the slice reached and the panic, if any. -/
def buildZ (g1 : G₁) (tau : List G₁) (n : Nat) : List G₁ × Option String :=
  let z : List G₁ := List.replicate n 0
  match forRange (buildZBody tau n) (List.range ((n : Int) - 1).toNat) z with
  | (z, some m) => (z, some m)
  | (z, none) =>
    match writeIdx z ((n : Int) - 1) g1 with
    | .ok z => (z, none)
    | .error m => (z, some m)

/-- The method `Contribution.PreparePhase2`: `c2` is the receiver before the call and `sg` the point
sampled inside `GenPublicKey`. The result is the receiver after the call together with the
returned evaluations, or with the panic that ended the call. -/
def PreparePhase2 (lib : Curve Fr G₁ G₂ Gt) (sg : G₁) (c2 : Contribution G₁ G₂)
    (c1 : phase1.Contribution G₁ G₂) (qap : QAP Fr) :
    Contribution G₁ G₂ × Except String (Evaluations G₁ G₂) :=
  let srs := c1.Parameters
  let size := srs.G1.AlphaTau.length
  if (size : Int) < qap.NConstraints then
    (c2, .error "Number of constraints is larger than expected")
  else
    -- Prepare Lagrange coefficients of [τ...]₁, [τ...]₂, [ατ...]₁, [βτ...]₁
    let coeffTau1 := lib.LagrangeCoeffsG1 srs.G1.Tau size
    let coeffTau2 := lib.LagrangeCoeffsG2 srs.G2.Tau size
    let coeffAlphaTau1 := lib.LagrangeCoeffsG1 srs.G1.AlphaTau size
    let coeffBetaTau1 := lib.LagrangeCoeffsG1 srs.G1.BetaTau size
    match evalAB qap coeffTau1 coeffTau2 with
    | .error m => (c2, .error m)
    | .ok evals =>
      -- Prepare default contribution
      let c2 := { c2 with Parameters.G1.Delta := lib.g1 }
      let c2 := { c2 with Parameters.G2.Delta := lib.g2 }
      -- Build Z
      let n := srs.G1.AlphaTau.length
      match buildZ lib.g1 srs.G1.Tau n with
      | (z, some m) => ({ c2 with Parameters.G1.Z := z }, .error m)
      | (z, none) =>
        let c2 := { c2 with Parameters.G1.Z := z }
        -- Evaluate L
        let nPrivate := qap.NWires - qap.NPublic
        match makeSlice nPrivate with
        | .error m => (c2, .error m)
        | .ok l =>
          let c2 := { c2 with Parameters.G1.L := l }
          match makeSlice qap.NPublic with
          | .error m => (c2, .error m)
          | .ok vkk =>
            match forRange (evalLBody qap coeffBetaTau1 coeffAlphaTau1 coeffTau1)
                (List.range qap.NWires.toNat) (l, vkk) with
            | (s, some m) => ({ c2 with Parameters.G1.L := s.1 }, .error m)
            | (s, none) =>
              let c2 := { c2 with Parameters.G1.L := s.1 }
              let evals : Evaluations G₁ G₂ :=
                { G1 := { A := evals.G1.A, B := evals.G1.B, VKK := s.2 }, G2 := evals.G2 }
              -- Set δ public key
              let c2 := { c2 with PublicKey := utils.GenPublicKey lib sg 1 [] 1 }
              -- Hash initial contribution
              let c2 := { c2 with Hash := HashContribution lib c2 }
              (c2, .ok evals)

/-- The failures of `Verify` (spec 7). -/
inductive VerifyError where
  | ErrInvalidKoE
  | ErrInvalidContribution (check : String)
deriving DecidableEq

/-- Modelled from the spec: the challenge point `r` that `Verify` recomputes (its code is
not among the sources). Spec 4.7 step 1: `r` is derived from
`prev.Hash ‖ 1 ‖ encode(pk.sg) ‖ encode(pk.sxg)`. -/
def challenge (lib : Curve Fr G₁ G₂ Gt) (c prev : Contribution G₁ G₂) : G₂ :=
  lib.HashToG2 (prev.Hash ++ [1] ++ lib.encodeG1 c.PublicKey.SG ++ lib.encodeG1 c.PublicKey.SXG)

/-- Modelled from the spec: step 1 of `Verify` (its code is not among the sources),
`e(pk.sg, pk.xr) = e(pk.sxg, r)`. -/
def checkKoE [DecidableEq Gt] (lib : Curve Fr G₁ G₂ Gt) (c prev : Contribution G₁ G₂) : Bool :=
  decide (lib.e c.PublicKey.SG c.PublicKey.XR = lib.e c.PublicKey.SXG (challenge lib c prev))

/-- Modelled from the spec: step 2 of `Verify` (its code is not among the sources),
`e(c.G1.Delta, [1]₂) = e([1]₁, c.G2.Delta)`. -/
def checkDeltaConsistency [DecidableEq Gt] (lib : Curve Fr G₁ G₂ Gt)
    (c : Contribution G₁ G₂) : Bool :=
  decide (lib.e c.Parameters.G1.Delta lib.g2 = lib.e lib.g1 c.Parameters.G2.Delta)

/-- Modelled from the spec: step 3 of `Verify` (its code is not among the sources), the
ratio check binding the knowledge-of-exponent proof to the `Δ` contribution, in the
multiplicative form: `c.G1.Delta` is to `prev.G1.Delta` as `pk.xr` is to `r`, that is
`e(c.G1.Delta, r) = e(prev.G1.Delta, pk.xr)`, which establishes that the scalar of the
contribution is the one proven by the public key (spec 4.1, 4.4). The equation with
differences that spec 4.7 prints for this step is not the one embedded: it does not hold on
what `Contribute` writes (`printed_ratio_equation_fails`), whereas chain integrity (spec 8,
P1) and the tests of the package require `Verify` to accept it. -/
def checkDeltaRatio [DecidableEq Gt] (lib : Curve Fr G₁ G₂ Gt)
    (c prev : Contribution G₁ G₂) : Bool :=
  decide (lib.e c.Parameters.G1.Delta (challenge lib c prev)
    = lib.e prev.Parameters.G1.Delta c.PublicKey.XR)

/-- Modelled from the spec: step 4 of `Verify` (its code is not among the sources) on one
of the vectors `Z`, `L`, checking every entry:
`e(c.G1.Z[i], c.G2.Delta) = e(prev.G1.Z[i], prev.G2.Delta)`. -/
def checkInverseScaling [DecidableEq Gt] (lib : Curve Fr G₁ G₂ Gt) (xs prevXs : List G₁)
    (c prev : Contribution G₁ G₂) : Bool :=
  (List.zip xs prevXs).all (fun p =>
    decide (lib.e p.1 c.Parameters.G2.Delta = lib.e p.2 prev.Parameters.G2.Delta))

/-- Modelled from the spec: `Contribution.Verify` of Phase 2 is not among the sources (only
its tests are). Spec 4.7, steps 1 to 4 in order: the pairing equalities of steps 1, 2 and 4
as written, step 3 in the multiplicative form (`checkDeltaRatio`); the failures are those of
spec 7. -/
def Verify [DecidableEq Gt] (lib : Curve Fr G₁ G₂ Gt) (c prev : Contribution G₁ G₂) :
    Except VerifyError Unit :=
  if checkKoE lib c prev = false then .error .ErrInvalidKoE
  else if checkDeltaConsistency lib c = false then
    .error (.ErrInvalidContribution "delta-consistency")
  else if checkDeltaRatio lib c prev = false then
    .error (.ErrInvalidContribution "delta-ratio")
  else if checkInverseScaling lib c.Parameters.G1.Z prev.Parameters.G1.Z c prev = false then
    .error (.ErrInvalidContribution "z-inverse")
  else if checkInverseScaling lib c.Parameters.G1.L prev.Parameters.G1.L c prev = false then
    .error (.ErrInvalidContribution "l-inverse")
  else .ok ()

/-- The data model of a QAP (spec 3): the three counts are natural numbers with
`NPublic ≤ NWires`, and `A`, `B`, `C` are dense `NWires × NConstraints` matrices. -/
def QAP.WellFormed (qap : QAP Fr) : Prop :=
  0 ≤ qap.NConstraints ∧ 0 ≤ qap.NPublic ∧ qap.NPublic ≤ qap.NWires ∧
  qap.A.length = qap.NWires.toNat ∧ qap.B.length = qap.NWires.toNat ∧
  qap.C.length = qap.NWires.toNat ∧
  (∀ row ∈ qap.A, row.length = qap.NConstraints.toNat) ∧
  (∀ row ∈ qap.B, row.length = qap.NConstraints.toNat) ∧
  (∀ row ∈ qap.C, row.length = qap.NConstraints.toNat)

instance (qap : QAP Fr) : Decidable qap.WellFormed := by
  unfold QAP.WellFormed; infer_instance

/-- The Lagrange primitive returns `size` coefficients on the four vectors that
`PreparePhase2` passes to it. -/
def LagrangeLengths (lib : Curve Fr G₁ G₂ Gt) (c1 : phase1.Contribution G₁ G₂) : Prop :=
  (lib.LagrangeCoeffsG1 c1.Parameters.G1.Tau c1.Parameters.G1.AlphaTau.length).length
    = c1.Parameters.G1.AlphaTau.length ∧
  (lib.LagrangeCoeffsG2 c1.Parameters.G2.Tau c1.Parameters.G1.AlphaTau.length).length
    = c1.Parameters.G1.AlphaTau.length ∧
  (lib.LagrangeCoeffsG1 c1.Parameters.G1.AlphaTau c1.Parameters.G1.AlphaTau.length).length
    = c1.Parameters.G1.AlphaTau.length ∧
  (lib.LagrangeCoeffsG1 c1.Parameters.G1.BetaTau c1.Parameters.G1.AlphaTau.length).length
    = c1.Parameters.G1.AlphaTau.length

instance (lib : Curve Fr G₁ G₂ Gt) (c1 : phase1.Contribution G₁ G₂) :
    Decidable (LagrangeLengths lib c1) := by
  unfold LagrangeLengths; infer_instance

/-- The sum `Σ_{j<k} row[j] · coeff[j]` as the specification writes it. -/
def specDot {G : Type} [AddCommGroup G] [Module Fr G] (row : List Fr) (coeff : List G)
    (k : Nat) : G :=
  ∑ j in Finset.range k, row.getD j 0 • coeff.getD j 0

/-- A chain of `Contribute` calls from `c₀`: each entry of `rs` holds the sampled `δ`, the
point sampled by `GenPublicKey` and the receiver's state before the call. -/
def contributeChain (lib : Curve Fr G₁ G₂ Gt) (c₀ : Contribution G₁ G₂) :
    List (Fr × G₁ × Contribution G₁ G₂) → Contribution G₁ G₂
  | [] => c₀
  | r :: rs => contributeChain lib (Contribute lib r.1 r.2.1 r.2.2 c₀) rs

end phase2

/-! ## A small instance of the library

The scalar field is `ZMod 17`, the three groups are its additive group and the pairing is
multiplication. `smallLagrange` is the inverse discrete Fourier transform on the subgroup of
order `n` (for `n` dividing 16), with `3` as generator of the multiplicative group. -/

instance fact_prime_seventeen : Fact (Nat.Prime 17) := ⟨by norm_num⟩

/-- Inverse discrete Fourier transform over `ZMod 17`: entry `j` is
`n⁻¹ · Σₖ ω^(-j·k) · v[k]`, with `n⁻¹ = n¹⁵` and `ω⁻¹ = ω^(n-1)`. -/
def smallLagrange (v : List (ZMod 17)) (n : Nat) : List (ZMod 17) :=
  let w : ZMod 17 := 3 ^ (16 / n)
  (List.range n).map (fun j =>
    (n : ZMod 17) ^ 15 *
      ((List.range n).map (fun k => (w ^ (n - 1)) ^ (j * k) * v.getD k 0)).sum)

/-- The small library instance. -/
def smallCurve : Curve (ZMod 17) (ZMod 17) (ZMod 17) (ZMod 17) where
  g1 := 1
  g2 := 1
  e := LinearMap.mul (ZMod 17) (ZMod 17)
  encodeG1 p := [p.val]
  encodeG2 p := [p.val]
  encodeG1Slice ps := ps.length :: ps.map ZMod.val
  sha256 bytes := bytes
  HashToG2 bytes := ((bytes.sum : Nat) : ZMod 17)
  LagrangeCoeffsG1 := smallLagrange
  LagrangeCoeffsG2 := smallLagrange

/-- A Phase-1 string for `τ = 2`, `α = 3`, `β = 5` and `n = 2`. -/
def smallSRS : phase1.Contribution (ZMod 17) (ZMod 17) :=
  { Parameters :=
      { G1 := { Tau := [1, 2, 4], AlphaTau := [3, 6], BetaTau := [5, 10] },
        G2 := { Tau := [1, 2], Beta := 5 } } }

/-- A QAP with two constraints, three wires and one public wire. -/
def smallQAP : phase2.QAP (ZMod 17) :=
  { NConstraints := 2, NWires := 3, NPublic := 1,
    A := [[1, 2], [3, 4], [5, 6]],
    B := [[1, 0], [0, 1], [2, 2]],
    C := [[7, 8], [9, 10], [11, 12]] }

/-- The Phase-2 seed of `smallSRS` and `smallQAP`. -/
def smallSeed : phase2.Contribution (ZMod 17) (ZMod 17) :=
  (phase2.PreparePhase2 smallCurve 3 phase2.Contribution.zero smallSRS smallQAP).1

/-- The root of Phase 1 at `power = 8` (spec 4.2): `2n − 1 = 511` generators in `G1.Tau`
and `n = 256` in the other vectors. -/
def mockSRS : phase1.Contribution (ZMod 17) (ZMod 17) :=
  { Parameters :=
      { G1 := { Tau := List.replicate 511 1, AlphaTau := List.replicate 256 1,
                BetaTau := List.replicate 256 1 },
        G2 := { Tau := List.replicate 256 1, Beta := 1 } } }

/-- A QAP with the sizes of `QAPMock`: 16 constraints, 20 wires, 3 public wires. -/
def mockQAP : phase2.QAP (ZMod 17) :=
  { NConstraints := 16, NWires := 20, NPublic := 3,
    A := List.replicate 20 (List.replicate 16 1),
    B := List.replicate 20 (List.replicate 16 2),
    C := List.replicate 20 (List.replicate 16 3) }

namespace phase2

/-! ## `QAP.Load` (`qap.go`) -/

/-- The bytes of a `uint32` in little-endian order (spec 4.5). -/
def uint32LE (n : Nat) : List Nat :=
  [n % 256, n / 256 % 256, n / 65536 % 256, n / 16777216 % 256]

/-- Go `binary.Read(file, binary.LittleEndian, &x)` for `var x uint32` (still `0`), with the
returned error dropped as `QAP.Load` does: four bytes are consumed and decoded; when fewer
than four bytes are left they are consumed and `x` keeps the value `0`. The result is the
value of `x` and the unread rest of the file. -/
def readUint32 (file : List Nat) : Nat × List Nat :=
  if 4 ≤ file.length then
    (file.getD 0 0 % 256 + 256 * (file.getD 1 0 % 256) + 65536 * (file.getD 2 0 % 256)
      + 16777216 * (file.getD 3 0 % 256), file.drop 4)
  else (0, [])

variable {Fr : Type} [Zero Fr]

/-- The body of the loop of `QAP.Load` for wire `i`, on the receiver and the unread rest of
the file. `Decode dst rest` is `dec.Decode(&dst)` of the curve library's decoder: the
decoded slice and the unread rest, or the error, on which `Load` panics. The three index
writes are in range, the slices having `NWires` entries. -/
def loadWire (Decode : List Fr → List Nat → Except String (List Fr × List Nat)) (i : Nat)
    (qap : QAP Fr) (rest : List Nat) : (QAP Fr × List Nat) × Option String :=
  let qap := { qap with A := qap.A.set i (List.replicate qap.NConstraints.toNat 0) }
  let qap := { qap with B := qap.B.set i (List.replicate qap.NConstraints.toNat 0) }
  let qap := { qap with C := qap.C.set i (List.replicate qap.NConstraints.toNat 0) }
  match Decode (qap.A.getD i []) rest with
  | .error err => ((qap, rest), some err)
  | .ok (row, rest) =>
    let qap := { qap with A := qap.A.set i row }
    match Decode (qap.B.getD i []) rest with
    | .error err => ((qap, rest), some err)
    | .ok (row, rest) =>
      let qap := { qap with B := qap.B.set i row }
      match Decode (qap.C.getD i []) rest with
      | .error err => ((qap, rest), some err)
      | .ok (row, rest) => (({ qap with C := qap.C.set i row }, rest), none)

/-- The loop `for i := 0; i < int(qap.NWires); i++` of `QAP.Load` over the given indices:
it stops at the first panic. -/
def loadLoop (Decode : List Fr → List Nat → Except String (List Fr × List Nat)) :
    List Nat → QAP Fr → List Nat → QAP Fr × Option String
  | [], qap, _ => (qap, none)
  | i :: is, qap, rest =>
    match loadWire Decode i qap rest with
    | ((qap, _), some err) => (qap, some err)
    | ((qap, rest), none) => loadLoop Decode is qap rest

/-- The method `QAP.Load`: `opened` is the outcome of `os.Open(path)`, the content of the
file or the error; the result is the receiver after the call and the panic that ended it,
if any. `int` has 64 bits, so `int(nc)` is the value of `nc`. -/
def QAP.Load (Decode : List Fr → List Nat → Except String (List Fr × List Nat))
    (qap : QAP Fr) (opened : Except String (List Nat)) : QAP Fr × Option String :=
  match opened with
  | .error err => (qap, some err)
  | .ok file =>
    -- Read NConstraints, NWires, NPublic
    let nc := (readUint32 file).1
    let file := (readUint32 file).2
    let nw := (readUint32 file).1
    let file := (readUint32 file).2
    let np := (readUint32 file).1
    let file := (readUint32 file).2
    let qap := { qap with NConstraints := (nc : Int), NWires := (nw : Int), NPublic := (np : Int) }
    -- Initialize A, B, C
    let qap := { qap with A := List.replicate qap.NWires.toNat [] }
    let qap := { qap with B := List.replicate qap.NWires.toNat [] }
    let qap := { qap with C := List.replicate qap.NWires.toNat [] }
    -- Read A, B, C
    loadLoop Decode (List.range qap.NWires.toNat) qap file

/-! ## Serialization (spec 6) -/

variable {G₁ G₂ Gt : Type}

/-- The operations of the curve library's encoder and decoder that serialization uses beyond
those of `Curve`: the encoding of a slice of G2 points, and the decoders, each returning the
decoded value and the unread rest of the input, or nothing on a malformed input. -/
structure Codec (G₁ G₂ : Type) where
  /-- encoding `enc.Encode(ps)` of a slice of G2 points -/
  encodeG2Slice : List G₂ → List Nat
  /-- decoding `dec.Decode(&p)` of a G1 point -/
  decodeG1 : List Nat → Option (G₁ × List Nat)
  /-- decoding `dec.Decode(&p)` of a G2 point -/
  decodeG2 : List Nat → Option (G₂ × List Nat)
  /-- decoding `dec.Decode(&ps)` of a slice of G1 points -/
  decodeG1Slice : List Nat → Option (List G₁ × List Nat)
  /-- decoding `dec.Decode(&ps)` of a slice of G2 points -/
  decodeG2Slice : List Nat → Option (List G₂ × List Nat)

end phase2

namespace phase2

variable {Fr G₁ G₂ Gt : Type} [Field Fr] [AddCommGroup G₁] [Module Fr G₁]
  [AddCommGroup G₂] [Module Fr G₂] [AddCommGroup Gt] [Module Fr Gt]

/-- Modelled from the spec: `Contribution.WriteTo` is not among the sources (only its tests
are). Spec 6 and 4.8: the canonical encodings of `PublicKey.SG`, `PublicKey.SXG`,
`PublicKey.XR`, `G1.Delta`, `G1.L`, `G1.Z`, `G2.Delta`, in this order; the result is the
bytes written. -/
def Contribution.WriteTo (lib : Curve Fr G₁ G₂ Gt) (c : Contribution G₁ G₂) : List Nat :=
  lib.encodeG1 c.PublicKey.SG ++ lib.encodeG1 c.PublicKey.SXG ++ lib.encodeG2 c.PublicKey.XR
    ++ lib.encodeG1 c.Parameters.G1.Delta ++ lib.encodeG1Slice c.Parameters.G1.L
    ++ lib.encodeG1Slice c.Parameters.G1.Z ++ lib.encodeG2 c.Parameters.G2.Delta

/-- Modelled from the spec: `Contribution.ReadFrom` is not among the sources (only its tests
are). Spec 6: the fields are decoded in the order in which `WriteTo` writes them, and a
decoding failure is `ErrMalformedContribution`; the result is the receiver after the call
and the unread rest of the input. -/
def Contribution.ReadFrom (codec : Codec G₁ G₂) (c : Contribution G₁ G₂) (input : List Nat) :
    Except String (Contribution G₁ G₂ × List Nat) :=
  let decoded : Option (Contribution G₁ G₂ × List Nat) := do
    let (sg, input) ← codec.decodeG1 input
    let (sxg, input) ← codec.decodeG1 input
    let (xr, input) ← codec.decodeG2 input
    let (delta1, input) ← codec.decodeG1 input
    let (l, input) ← codec.decodeG1Slice input
    let (z, input) ← codec.decodeG1Slice input
    let (delta2, input) ← codec.decodeG2 input
    pure ({ c with
        PublicKey := { SG := sg, SXG := sxg, XR := xr },
        Parameters := { G1 := { Delta := delta1, L := l, Z := z }, G2 := { Delta := delta2 } } },
      input)
  match decoded with
  | some r => .ok r
  | none => .error "ErrMalformedContribution"

/-- Modelled from the spec: `Evaluations.WriteTo` is not among the sources (only its test
is). Spec 6: the canonical encodings of the four slices, in the order in which spec 3 lists
them (`G1.A`, `G1.B`, `G2.B`, `G1.VKK`). -/
def Evaluations.WriteTo (lib : Curve Fr G₁ G₂ Gt) (codec : Codec G₁ G₂)
    (ev : Evaluations G₁ G₂) : List Nat :=
  lib.encodeG1Slice ev.G1.A ++ lib.encodeG1Slice ev.G1.B ++ codec.encodeG2Slice ev.G2.B
    ++ lib.encodeG1Slice ev.G1.VKK

/-- Modelled from the spec: `Evaluations.ReadFrom` is not among the sources (only its test
is). Spec 6: the slices are decoded in the order in which `WriteTo` writes them. -/
def Evaluations.ReadFrom (codec : Codec G₁ G₂) (ev : Evaluations G₁ G₂) (input : List Nat) :
    Except String (Evaluations G₁ G₂ × List Nat) :=
  let decoded : Option (Evaluations G₁ G₂ × List Nat) := do
    let (a, input) ← codec.decodeG1Slice input
    let (b, input) ← codec.decodeG1Slice input
    let (b2, input) ← codec.decodeG2Slice input
    let (vkk, input) ← codec.decodeG1Slice input
    pure ({ G1 := { A := a, B := b, VKK := vkk }, G2 := { B := b2 } }, input)
  match decoded with
  | some r => .ok r
  | none => .error "ErrMalformedContribution"

/-- The decoder reads back what the encoder wrote, whatever follows it in the input (the
encoding is canonical, spec 4.8). -/
def Codec.Inverts (codec : Codec G₁ G₂) (lib : Curve Fr G₁ G₂ Gt) : Prop :=
  (∀ p rest, codec.decodeG1 (lib.encodeG1 p ++ rest) = some (p, rest)) ∧
  (∀ p rest, codec.decodeG2 (lib.encodeG2 p ++ rest) = some (p, rest)) ∧
  (∀ ps rest, codec.decodeG1Slice (lib.encodeG1Slice ps ++ rest) = some (ps, rest)) ∧
  (∀ ps rest, codec.decodeG2Slice (codec.encodeG2Slice ps ++ rest) = some (ps, rest))

/-! ## `Contribute` on objects in memory -/

/-- The method `Contribution.Contribute` on a memory of `Contribution` objects: `c` and
`prev` are the addresses the two pointers hold, every read of a field of `prev` is a read of
the object at `prev` in the current memory and every write goes to the object at `c`. The
result is the memory after the call. -/
def ContributeInPlace (lib : Curve Fr G₁ G₂ Gt) (delta : Fr) (sg : G₁)
    (mem : Nat → Contribution G₁ G₂) (c prev : Nat) : Nat → Contribution G₁ G₂ :=
  let deltaInv := delta⁻¹
  -- Set δ public key
  let mem := Function.update mem c
    { mem c with PublicKey := utils.GenPublicKey lib sg delta (mem prev).Hash 1 }
  -- Update δ
  let mem := Function.update mem c
    { mem c with Parameters.G1.Delta := delta • (mem prev).Parameters.G1.Delta }
  let mem := Function.update mem c
    { mem c with Parameters.G2.Delta := delta • (mem prev).Parameters.G2.Delta }
  -- Update Z using δ⁻¹
  let mem := Function.update mem c
    { mem c with Parameters.G1.Z := List.replicate (mem prev).Parameters.G1.Z.length 0 }
  let mem := (List.range (mem prev).Parameters.G1.Z.length).foldl (fun mem i =>
    Function.update mem c
      { mem c with Parameters.G1.Z :=
          (mem c).Parameters.G1.Z.set i (deltaInv • (mem prev).Parameters.G1.Z.getD i 0) }) mem
  -- Update L using δ⁻¹
  let mem := Function.update mem c
    { mem c with Parameters.G1.L := List.replicate (mem prev).Parameters.G1.L.length 0 }
  let mem := (List.range (mem prev).Parameters.G1.L.length).foldl (fun mem i =>
    Function.update mem c
      { mem c with Parameters.G1.L :=
          (mem c).Parameters.G1.L.set i (deltaInv • (mem prev).Parameters.G1.L.getD i 0) }) mem
  -- Hash contribution
  Function.update mem c { mem c with Hash := HashContribution lib (mem c) }

/-- A sequence of `Contribute` calls on a memory, as in the loop
`for i := 1; i < nContributions; i++ { contributions[i].Contribute(&contributions[i-1]) }`
of the tests: `last` is the address of the latest contribution (the seed at the start) and
each entry of `calls` holds the sampled `δ`, the point sampled by `GenPublicKey` and the
address of the receiver, whose `prev` is the latest contribution. The result is the memory
after the calls and the address of the latest contribution. -/
def contributeCalls (lib : Curve Fr G₁ G₂ Gt) :
    (Nat → Contribution G₁ G₂) → Nat → List (Fr × G₁ × Nat) → (Nat → Contribution G₁ G₂) × Nat
  | mem, last, [] => (mem, last)
  | mem, last, r :: calls =>
    contributeCalls lib (ContributeInPlace lib r.1 r.2.1 mem r.2.2 last) r.2.2 calls

/-- The contribution reached from the object at `seed` by the calls. -/
def reachedContribution (lib : Curve Fr G₁ G₂ Gt) (mem : Nat → Contribution G₁ G₂)
    (seed : Nat) (calls : List (Fr × G₁ × Nat)) : Contribution G₁ G₂ :=
  (contributeCalls lib mem seed calls).1 (contributeCalls lib mem seed calls).2

/-- Every call of the sequence has a receiver other than its `prev`, the latest
contribution at the time of the call. -/
def DistinctReceivers {α β : Type} : Nat → List (α × β × Nat) → Prop
  | _, [] => True
  | last, r :: calls => r.2.2 ≠ last ∧ DistinctReceivers r.2.2 calls

instance DistinctReceivers.decidable {α β : Type} :
    (last : Nat) → (calls : List (α × β × Nat)) → Decidable (DistinctReceivers last calls)
  | _, [] => isTrue trivial
  | last, r :: calls =>
    match DistinctReceivers.decidable r.2.2 calls with
    | isTrue h => if h' : r.2.2 = last then isFalse (fun hc => hc.1 h') else isTrue ⟨h', h⟩
    | isFalse h => isFalse (fun hc => h hc.2)

end phase2

/-! ## The curve-polymorphic readers (`backend/groth16/groth16.go`) -/

namespace groth16

/-- The curve identifiers `gurvy.ID`; `UNKNOWN` stands for every value other than the four
supported curves. -/
inductive ID where
  | UNKNOWN
  | BN256
  | BLS377
  | BLS381
  | BW761
deriving DecidableEq

variable {Rd Err : Type}

/-- The function `ReadProvingKey`: `PK id` is the curve-specific `ProvingKey` struct,
`zero id` its zero value `&ProvingKey{}`, and `ReadFrom id pk reader` the curve-specific
`pk.ReadFrom(reader)`, which returns the receiver after the call and the error, if any. The
result is the panic, or the returned pair: the object, or `none` for `nil`, and the error,
or `none` for `nil`. -/
def ReadProvingKey {PK : ID → Type} (zero : (id : ID) → PK id)
    (ReadFrom : (id : ID) → PK id → Rd → PK id × Option Err) (reader : Rd) (curveID : ID) :
    Except String (Option ((id : ID) × PK id) × Option Err) :=
  let made : Except String ((id : ID) × PK id) :=
    match curveID with
    | ID.BN256 => .ok ⟨ID.BN256, zero ID.BN256⟩
    | ID.BLS377 => .ok ⟨ID.BLS377, zero ID.BLS377⟩
    | ID.BLS381 => .ok ⟨ID.BLS381, zero ID.BLS381⟩
    | ID.BW761 => .ok ⟨ID.BW761, zero ID.BW761⟩
    | _ => .error "not implemented"
  match made with
  | .error m => .error m
  | .ok pk =>
    match ReadFrom pk.1 pk.2 reader with
    | (_, some err) => .ok (none, some err)
    | (pk', none) => .ok (some ⟨pk.1, pk'⟩, none)

/-- The function `ReadVerifyingKey`, with `VK id` the curve-specific `VerifyingKey` struct;
see `ReadProvingKey`. -/
def ReadVerifyingKey {VK : ID → Type} (zero : (id : ID) → VK id)
    (ReadFrom : (id : ID) → VK id → Rd → VK id × Option Err) (reader : Rd) (curveID : ID) :
    Except String (Option ((id : ID) × VK id) × Option Err) :=
  let made : Except String ((id : ID) × VK id) :=
    match curveID with
    | ID.BN256 => .ok ⟨ID.BN256, zero ID.BN256⟩
    | ID.BLS377 => .ok ⟨ID.BLS377, zero ID.BLS377⟩
    | ID.BLS381 => .ok ⟨ID.BLS381, zero ID.BLS381⟩
    | ID.BW761 => .ok ⟨ID.BW761, zero ID.BW761⟩
    | _ => .error "not implemented"
  match made with
  | .error m => .error m
  | .ok vk =>
    match ReadFrom vk.1 vk.2 reader with
    | (_, some err) => .ok (none, some err)
    | (vk', none) => .ok (some ⟨vk.1, vk'⟩, none)

/-- The function `ReadProof`, with `Pf id` the curve-specific `Proof` struct; see
`ReadProvingKey`. -/
def ReadProof {Pf : ID → Type} (zero : (id : ID) → Pf id)
    (ReadFrom : (id : ID) → Pf id → Rd → Pf id × Option Err) (reader : Rd) (curveID : ID) :
    Except String (Option ((id : ID) × Pf id) × Option Err) :=
  let made : Except String ((id : ID) × Pf id) :=
    match curveID with
    | ID.BN256 => .ok ⟨ID.BN256, zero ID.BN256⟩
    | ID.BLS377 => .ok ⟨ID.BLS377, zero ID.BLS377⟩
    | ID.BLS381 => .ok ⟨ID.BLS381, zero ID.BLS381⟩
    | ID.BW761 => .ok ⟨ID.BW761, zero ID.BW761⟩
    | _ => .error "not implemented"
  match made with
  | .error m => .error m
  | .ok proof =>
    match ReadFrom proof.1 proof.2 reader with
    | (_, some err) => .ok (none, some err)
    | (proof', none) => .ok (some ⟨proof.1, proof'⟩, none)

end groth16

/-! ## Small instances of the decoders -/

/-- Decoding of `count` elements of `ZMod 17`, one byte each; a byte `≥ 17` is malformed. -/
def smallDecodeMany : Nat → List Nat → Option (List (ZMod 17) × List Nat)
  | 0, input => some ([], input)
  | _ + 1, [] => none
  | count + 1, b :: input =>
    if b < 17 then
      match smallDecodeMany count input with
      | some (ps, rest) => some ((b : ZMod 17) :: ps, rest)
      | none => none
    else none

/-- Decoding of a slice of `ZMod 17`: the length, then the elements. -/
def smallDecodeSlice : List Nat → Option (List (ZMod 17) × List Nat)
  | [] => none
  | count :: input => smallDecodeMany count input

/-- The decoder of `smallCurve`. -/
def smallCodec : phase2.Codec (ZMod 17) (ZMod 17) where
  encodeG2Slice ps := ps.length :: ps.map ZMod.val
  decodeG1 input := (smallDecodeMany 1 input).map (fun r => (r.1.getD 0 0, r.2))
  decodeG2 input := (smallDecodeMany 1 input).map (fun r => (r.1.getD 0 0, r.2))
  decodeG1Slice := smallDecodeSlice
  decodeG2Slice := smallDecodeSlice

/-- A decoder of slices of scalars for `QAP.Load`: the length, then the elements; the
destination is replaced. -/
def smallDecodeFr (dst : List (ZMod 17)) (input : List Nat) :
    Except String (List (ZMod 17) × List Nat) :=
  match smallDecodeSlice input with
  | some r => .ok r
  | none => .error "unexpected EOF"

/-- A curve-specific `ReadFrom` on objects that are lists of bytes: it appends the next three
bytes of the reader to the receiver, or what is left of them together with an error. -/
def smallReadFrom (id : groth16.ID) (obj : List Nat) (reader : List Nat) :
    List Nat × Option String :=
  if reader.length < 3 then (obj ++ reader, some "unexpected EOF")
  else (obj ++ reader.take 3, none)

/-- A memory that holds `smallSeed` at address `0` and zero values elsewhere. -/
def smallMemory : Nat → phase2.Contribution (ZMod 17) (ZMod 17) :=
  fun p => if p = 0 then smallSeed else phase2.Contribution.zero

/-! ## Lemmas on loops -/

section Loops
variable {α : Type}

theorem foldl_set_range_aux (f : Nat → α) (init : List α) (m : Nat) (hm : m ≤ init.length) :
    (List.range m).foldl (fun d i => d.set i (f i)) init
      = (List.range m).map f ++ init.drop m := by
  induction m with
  | zero => simp
  | succ m ih =>
    have hlt : m < init.length := hm
    rw [List.range_succ, List.foldl_append, ih (Nat.le_of_lt hlt)]
    simp only [List.foldl_cons, List.foldl_nil, List.map_append, List.map_cons, List.map_nil]
    rw [List.set_append_right _ _ (by simp)]
    simp only [List.length_map, List.length_range, Nat.sub_self, List.append_assoc,
      List.singleton_append]
    rw [List.drop_eq_getElem_cons hlt, List.set_cons_zero]

theorem foldl_set_range (f : Nat → α) (d : α) (n : Nat) :
    (List.range n).foldl (fun l i => l.set i (f i)) (List.replicate n d)
      = (List.range n).map f := by
  rw [foldl_set_range_aux f _ n (by simp)]
  simp

variable {σ ε : Type}

theorem Except.bind_eq_ok' {β : Type} (x : Except ε α) (f : α → Except ε β) (r : β) :
    (x >>= f) = .ok r ↔ ∃ a, x = .ok a ∧ f a = .ok r := by
  cases x <;> simp [bind, Except.bind]

theorem forRange_inv (body : Nat → σ → Except String σ) (P : Nat → σ → Prop)
    (hstep : ∀ i t t', P i t → body i t = .ok t' → P (i + 1) t') :
    ∀ (m a : Nat) (s s' : σ), forRange body (List.range' a m) s = (s', none) → P a s →
      P (a + m) s' := by
  intro m
  induction m with
  | zero =>
    intro a s s' h h0
    simp [forRange] at h
    subst h; simpa using h0
  | succ m ih =>
    intro a s s' h h0
    rw [List.range'_succ] at h
    simp only [forRange] at h
    cases hb : body a s with
    | error e => rw [hb] at h; simp at h
    | ok t =>
      rw [hb] at h
      have := ih (a + 1) t s' h (hstep a s t h0 hb)
      rw [show a + (m + 1) = a + 1 + m by omega]
      exact this

theorem forRange_ok (body : Nat → σ → Except String σ) (Q : σ → Prop) :
    ∀ (is : List Nat) (s : σ), Q s →
      (∀ i ∈ is, ∀ t, Q t → ∃ t', body i t = .ok t' ∧ Q t') →
      ∃ s', forRange body is s = (s', none) ∧ Q s' := by
  intro is
  induction is with
  | nil => intro s h0 _; exact ⟨s, rfl, h0⟩
  | cons i is ih =>
    intro s h0 hstep
    obtain ⟨t, hb, hq⟩ := hstep i (by simp) s h0
    obtain ⟨s', hr, hq'⟩ := ih t hq (fun j hj u hu => hstep j (by simp [hj]) u hu)
    exact ⟨s', by simp [forRange, hb, hr], hq'⟩

theorem readIdx_natCast_eq_ok (xs : List α) (i : Nat) (x : α) :
    readIdx xs (i : Int) = .ok x ↔ xs[i]? = some x := by
  unfold readIdx
  have : ¬ ((i : Int) < 0) := by omega
  simp only [this, if_false, Int.toNat_ofNat]
  cases h : xs[i]? <;> simp

theorem writeIdx_natCast_eq_ok (xs ys : List α) (i : Nat) (v : α) :
    writeIdx xs (i : Int) v = .ok ys ↔ i < xs.length ∧ ys = xs.set i v := by
  unfold writeIdx
  by_cases h : i < xs.length
  · have : 0 ≤ (i : Int) ∧ (i : Int) < (xs.length : Int) := ⟨by omega, by omega⟩
    simp [this, h, eq_comm]
  · have : ¬ (0 ≤ (i : Int) ∧ (i : Int) < (xs.length : Int)) := by omega
    simp [this, h]

theorem sliceTo_eq_ok (xs ys : List α) (k : Int) :
    sliceTo xs k = .ok ys ↔ (0 ≤ k ∧ k ≤ (xs.length : Int)) ∧ ys = xs.take k.toNat := by
  unfold sliceTo
  by_cases h : 0 ≤ k ∧ k ≤ (xs.length : Int)
  · simp [h, eq_comm]
  · simp [h]

theorem makeSlice_eq_ok [Zero α] (l : List α) (k : Int) :
    makeSlice k = .ok l ↔ 0 ≤ k ∧ l = List.replicate k.toNat 0 := by
  unfold makeSlice
  by_cases h : k < 0
  · have : ¬ 0 ≤ k := by omega
    simp [h, this]
  · have : 0 ≤ k := by omega
    simp [h, this, eq_comm]

theorem Except.pure_eq_ok' (a r : α) :
    (pure a : Except ε α) = .ok r ↔ a = r := by
  simp [pure, Except.pure]

end Loops

namespace phase2

variable {Fr G₁ G₂ Gt : Type} [Field Fr] [AddCommGroup G₁] [Module Fr G₁]
  [AddCommGroup G₂] [Module Fr G₂] [AddCommGroup Gt] [Module Fr Gt]

/-! ## `PreparePhase2` -/

theorem buildZBody_eq_ok (tau : List G₁) (n i : Nat) (z z' : List G₁) :
    buildZBody tau n i z = .ok z' ↔
      ∃ a b, tau[i + n]? = some a ∧ tau[i]? = some b ∧ i < z.length ∧ z' = z.set i (a - b) := by
  unfold buildZBody
  simp only [Except.bind_eq_ok']
  constructor
  · rintro ⟨a, ha, b, hb, hw⟩
    rw [show ((i : Int) + (n : Int)) = ((i + n : Nat) : Int) by push_cast; rfl,
      readIdx_natCast_eq_ok] at ha
    rw [readIdx_natCast_eq_ok] at hb
    rw [writeIdx_natCast_eq_ok] at hw
    exact ⟨a, b, ha, hb, hw.1, hw.2⟩
  · rintro ⟨a, b, ha, hb, hi, hz⟩
    refine ⟨a, ?_, b, ?_, ?_⟩
    · rw [show ((i : Int) + (n : Int)) = ((i + n : Nat) : Int) by push_cast; rfl,
        readIdx_natCast_eq_ok]; exact ha
    · rw [readIdx_natCast_eq_ok]; exact hb
    · rw [writeIdx_natCast_eq_ok]; exact ⟨hi, hz⟩

/-- What a completed construction of `Z` has written. -/
theorem buildZ_inv (g1 : G₁) (tau : List G₁) (n : Nat) (z : List G₁)
    (h : buildZ g1 tau n = (z, none)) :
    1 ≤ n ∧ z.length = n ∧ z[n - 1]? = some g1 ∧
      ∀ i, i + 1 < n → ∃ a b, tau[i + n]? = some a ∧ tau[i]? = some b ∧
        z[i]? = some (a - b) := by
  unfold buildZ at h
  simp only at h
  rcases hloop : forRange (buildZBody tau n) (List.range ((n : Int) - 1).toNat)
      (List.replicate n 0) with ⟨z1, r⟩
  rw [hloop] at h
  cases r with
  | some m => simp at h
  | none =>
    simp only at h
    cases hw : writeIdx z1 ((n : Int) - 1) g1 with
    | error m => rw [hw] at h; simp at h
    | ok z2 =>
      rw [hw] at h
      simp only [Prod.mk.injEq, and_true] at h
      subst h
      have hinv := forRange_inv (buildZBody tau n)
        (fun i (t : List G₁) => t.length = n ∧ ∀ j, j < i → ∃ a b, tau[j + n]? = some a ∧
          tau[j]? = some b ∧ t[j]? = some (a - b))
        (by
          intro i t t' ⟨hlen, hP⟩ hb
          rw [buildZBody_eq_ok] at hb
          obtain ⟨a, b, ha, hb', hi, ht'⟩ := hb
          subst ht'
          refine ⟨by simpa using hlen, ?_⟩
          intro j hj
          by_cases hji : j = i
          · subst hji
            exact ⟨a, b, ha, hb', List.getElem?_set_self hi⟩
          · obtain ⟨a', b', h1, h2, h3⟩ := hP j (by omega)
            refine ⟨a', b', h1, h2, ?_⟩
            rw [List.getElem?_set_ne (by omega)]; exact h3)
        ((n : Int) - 1).toNat 0 (List.replicate n 0) z1
        (by rw [← List.range_eq_range']; exact hloop)
        ⟨by simp, by intro j hj; omega⟩
      obtain ⟨hlen, hP⟩ := hinv
      unfold writeIdx at hw
      split at hw
      · rename_i hcond
        simp only [Except.ok.injEq] at hw
        subst hw
        have hn : 1 ≤ n := by omega
        have hcast : ((n : Int) - 1).toNat = n - 1 := by omega
        refine ⟨hn, by simpa using hlen, ?_, ?_⟩
        · rw [hcast]; exact List.getElem?_set_self (by omega)
        · intro i hi
          obtain ⟨a, b, h1, h2, h3⟩ := hP i (by omega)
          refine ⟨a, b, h1, h2, ?_⟩
          rw [hcast, List.getElem?_set_ne (by omega)]; exact h3
      · simp at hw

/-- The construction of `Z` completes when `n ≥ 1` and `Tau` has `2n − 1` entries. -/
theorem buildZ_ok (g1 : G₁) (tau : List G₁) (n : Nat) (hn : 1 ≤ n)
    (htau : 2 * n - 1 ≤ tau.length) : ∃ z, buildZ g1 tau n = (z, none) := by
  obtain ⟨z1, hloop, hlen⟩ := forRange_ok (buildZBody tau n)
    (fun (t : List G₁) => t.length = n) (List.range ((n : Int) - 1).toNat)
    (List.replicate n 0) (by simp)
    (by
      intro i hi t ht
      have hi' : i < n - 1 := by
        have := List.mem_range.mp hi
        omega
      have h1 : i + n < tau.length := by omega
      have h2 : i < tau.length := by omega
      refine ⟨t.set i (tau[i + n] - tau[i]), ?_, by simpa using ht⟩
      rw [buildZBody_eq_ok]
      exact ⟨tau[i + n], tau[i], List.getElem?_eq_getElem h1, List.getElem?_eq_getElem h2,
        by omega, rfl⟩)
  refine ⟨z1.set (n - 1) g1, ?_⟩
  unfold buildZ
  simp only [hloop]
  have hw : writeIdx z1 ((n : Int) - 1) g1 = .ok (z1.set (n - 1) g1) := by
    rw [show ((n : Int) - 1) = ((n - 1 : Nat) : Int) by omega, writeIdx_natCast_eq_ok]
    exact ⟨by omega, rfl⟩
  rw [hw]

theorem evalABBody_eq_ok (qap : QAP Fr) (cT1 : List G₁) (cT2 : List G₂) (i : Nat)
    (ev ev' : Evaluations G₁ G₂) :
    evalABBody qap cT1 cT2 i ev = .ok ev' ↔
      ∃ a b, qap.A[i]? = some a ∧ qap.B[i]? = some b ∧
        (0 ≤ qap.NConstraints ∧ qap.NConstraints ≤ (cT1.length : Int)) ∧
        (0 ≤ qap.NConstraints ∧ qap.NConstraints ≤ (cT2.length : Int)) ∧
        i < ev.G1.A.length ∧ i < ev.G1.B.length ∧ i < ev.G2.B.length ∧
        ev' = { G1 := { A := ev.G1.A.set i (utils.EvalG1 a (cT1.take qap.NConstraints.toNat)),
                        B := ev.G1.B.set i (utils.EvalG1 b (cT1.take qap.NConstraints.toNat)),
                        VKK := ev.G1.VKK },
                G2 := { B := ev.G2.B.set i
                          (utils.EvalG2 b (cT2.take qap.NConstraints.toNat)) } } := by
  unfold evalABBody
  simp only [Except.bind_eq_ok', Except.pure_eq_ok', readIdx_natCast_eq_ok,
    writeIdx_natCast_eq_ok, sliceTo_eq_ok]
  constructor
  · rintro ⟨a, ha, t1, ⟨h1, rfl⟩, eA, ⟨hA, rfl⟩, b, hb, t1', ⟨_, rfl⟩, eB, ⟨hB, rfl⟩, b', hb',
      t2, ⟨h2, rfl⟩, eB2, ⟨hB2, rfl⟩, rfl⟩
    have : b' = b := by rw [hb] at hb'; exact (Option.some.inj hb').symm
    subst this
    exact ⟨a, b', ha, hb, h1, h2, hA, hB, hB2, rfl⟩
  · rintro ⟨a, b, ha, hb, h1, h2, hA, hB, hB2, rfl⟩
    exact ⟨a, ha, _, ⟨h1, rfl⟩, _, ⟨hA, rfl⟩, b, hb, _, ⟨h1, rfl⟩, _, ⟨hB, rfl⟩, b, hb, _,
      ⟨h2, rfl⟩, _, ⟨hB2, rfl⟩, rfl⟩

theorem combinedWire_eq_ok (qap : QAP Fr) (cB cA cT : List G₁) (i : Nat) (res : G₁) :
    combinedWire qap cB cA cT i = .ok res ↔
      ∃ a b c, qap.A[i]? = some a ∧ qap.B[i]? = some b ∧ qap.C[i]? = some c ∧
        (0 ≤ qap.NConstraints ∧ qap.NConstraints ≤ (cB.length : Int)) ∧
        (0 ≤ qap.NConstraints ∧ qap.NConstraints ≤ (cA.length : Int)) ∧
        (0 ≤ qap.NConstraints ∧ qap.NConstraints ≤ (cT.length : Int)) ∧
        res = utils.EvalG1 a (cB.take qap.NConstraints.toNat)
              + utils.EvalG1 b (cA.take qap.NConstraints.toNat)
              + utils.EvalG1 c (cT.take qap.NConstraints.toNat) := by
  unfold combinedWire
  simp only [Except.bind_eq_ok', Except.pure_eq_ok', readIdx_natCast_eq_ok, sliceTo_eq_ok]
  constructor
  · rintro ⟨a, ha, sb, ⟨h1, rfl⟩, b, hb, sa, ⟨h2, rfl⟩, c, hc, st, ⟨h3, rfl⟩, rfl⟩
    exact ⟨a, b, c, ha, hb, hc, h1, h2, h3, rfl⟩
  · rintro ⟨a, b, c, ha, hb, hc, h1, h2, h3, rfl⟩
    exact ⟨a, ha, _, ⟨h1, rfl⟩, b, hb, _, ⟨h2, rfl⟩, c, hc, _, ⟨h3, rfl⟩, rfl⟩

theorem evalLBody_eq_ok (qap : QAP Fr) (hNP : 0 ≤ qap.NPublic) (cB cA cT : List G₁) (i : Nat)
    (s s' : List G₁ × List G₁) :
    evalLBody qap cB cA cT i s = .ok s' ↔
      ∃ res, combinedWire qap cB cA cT i = .ok res ∧
        if (i : Int) < qap.NPublic then i < s.2.length ∧ s' = (s.1, s.2.set i res)
        else i - qap.NPublic.toNat < s.1.length ∧
          s' = (s.1.set (i - qap.NPublic.toNat) res, s.2) := by
  unfold evalLBody
  simp only [Except.bind_eq_ok']
  apply exists_congr
  intro res
  apply and_congr_right
  intro _
  unfold wireSlot
  by_cases h : (i : Int) < qap.NPublic
  · simp only [h, if_true, writeSlot]
    cases hw : writeIdx s.2 (i : Int) res with
    | error m =>
      have := (writeIdx_natCast_eq_ok s.2 (s.2.set i res) i res).not.mp (by rw [hw]; simp)
      simp only [reduceCtorEq, false_iff, not_and]
      intro hi _
      exact this ⟨hi, rfl⟩
    | ok v =>
      have := (writeIdx_natCast_eq_ok s.2 v i res).mp hw
      simp only [Except.ok.injEq]
      constructor
      · rintro rfl; exact ⟨this.1, by rw [this.2]⟩
      · rintro ⟨_, rfl⟩; rw [this.2]
  · simp only [h, if_false, writeSlot]
    have hcast : (i : Int) - qap.NPublic = ((i - qap.NPublic.toNat : Nat) : Int) := by omega
    rw [hcast]
    cases hw : writeIdx s.1 ((i - qap.NPublic.toNat : Nat) : Int) res with
    | error m =>
      have := (writeIdx_natCast_eq_ok s.1 (s.1.set (i - qap.NPublic.toNat) res) _ res).not.mp
        (by rw [hw]; simp)
      simp only [reduceCtorEq, false_iff, not_and]
      intro hi _
      exact this ⟨hi, rfl⟩
    | ok v =>
      have := (writeIdx_natCast_eq_ok s.1 v _ res).mp hw
      simp only [Except.ok.injEq]
      constructor
      · rintro rfl; exact ⟨this.1, by rw [this.2]⟩
      · rintro ⟨_, rfl⟩; rw [this.2]

/-- What a completed first loop of `PreparePhase2` has written. -/
theorem evalAB_inv (qap : QAP Fr) (cT1 : List G₁) (cT2 : List G₂) (ev : Evaluations G₁ G₂)
    (h : evalAB qap cT1 cT2 = .ok ev) :
    0 ≤ qap.NWires ∧ ev.G1.A.length = qap.NWires.toNat ∧ ev.G1.B.length = qap.NWires.toNat ∧
    ev.G2.B.length = qap.NWires.toNat ∧
    ∀ i, i < qap.NWires.toNat → ∃ a b, qap.A[i]? = some a ∧ qap.B[i]? = some b ∧
      (0 ≤ qap.NConstraints ∧ qap.NConstraints ≤ (cT1.length : Int)) ∧
      (0 ≤ qap.NConstraints ∧ qap.NConstraints ≤ (cT2.length : Int)) ∧
      ev.G1.A[i]? = some (utils.EvalG1 a (cT1.take qap.NConstraints.toNat)) ∧
      ev.G1.B[i]? = some (utils.EvalG1 b (cT1.take qap.NConstraints.toNat)) ∧
      ev.G2.B[i]? = some (utils.EvalG2 b (cT2.take qap.NConstraints.toNat)) := by
  unfold evalAB at h
  simp only [Except.bind_eq_ok', makeSlice_eq_ok] at h
  obtain ⟨eA, ⟨hNW, rfl⟩, eB, ⟨_, rfl⟩, eB2, ⟨_, rfl⟩, h⟩ := h
  rcases hloop : forRange (evalABBody qap cT1 cT2) (List.range qap.NWires.toNat)
      ({ G1 := { A := List.replicate qap.NWires.toNat 0, B := List.replicate qap.NWires.toNat 0,
                 VKK := [] },
         G2 := { B := List.replicate qap.NWires.toNat 0 } } : Evaluations G₁ G₂) with ⟨ev1, r⟩
  rw [hloop] at h
  cases r with
  | some m => simp at h
  | none =>
    simp only [Except.ok.injEq] at h
    subst h
    have hinv := forRange_inv (evalABBody qap cT1 cT2)
      (fun k (t : Evaluations G₁ G₂) =>
        (t.G1.A.length = qap.NWires.toNat ∧ t.G1.B.length = qap.NWires.toNat ∧
          t.G2.B.length = qap.NWires.toNat) ∧
        ∀ j, j < k → ∃ a b, qap.A[j]? = some a ∧ qap.B[j]? = some b ∧
          (0 ≤ qap.NConstraints ∧ qap.NConstraints ≤ (cT1.length : Int)) ∧
          (0 ≤ qap.NConstraints ∧ qap.NConstraints ≤ (cT2.length : Int)) ∧
          t.G1.A[j]? = some (utils.EvalG1 a (cT1.take qap.NConstraints.toNat)) ∧
          t.G1.B[j]? = some (utils.EvalG1 b (cT1.take qap.NConstraints.toNat)) ∧
          t.G2.B[j]? = some (utils.EvalG2 b (cT2.take qap.NConstraints.toNat)))
      (by
        intro i t t' ⟨⟨hA, hB, hB2⟩, hP⟩ hb
        rw [evalABBody_eq_ok] at hb
        obtain ⟨a, b, ha, hb', h1, h2, hiA, hiB, hiB2, rfl⟩ := hb
        refine ⟨⟨by simpa using hA, by simpa using hB, by simpa using hB2⟩, ?_⟩
        intro j hj
        by_cases hji : j = i
        · subst hji
          exact ⟨a, b, ha, hb', h1, h2, List.getElem?_set_self hiA, List.getElem?_set_self hiB,
            List.getElem?_set_self hiB2⟩
        · obtain ⟨a', b', g1, g2, g3, g4, g5, g6, g7⟩ := hP j (by omega)
          refine ⟨a', b', g1, g2, g3, g4, ?_, ?_, ?_⟩
          · simp only; rw [List.getElem?_set_ne (by omega)]; exact g5
          · simp only; rw [List.getElem?_set_ne (by omega)]; exact g6
          · simp only; rw [List.getElem?_set_ne (by omega)]; exact g7)
      qap.NWires.toNat 0 _ ev1 (by rw [← List.range_eq_range']; exact hloop)
      ⟨⟨by simp, by simp, by simp⟩, by intro j hj; omega⟩
    obtain ⟨⟨hA, hB, hB2⟩, hP⟩ := hinv
    exact ⟨hNW, hA, hB, hB2, fun i hi => hP i (by omega)⟩

/-- The first loop of `PreparePhase2` completes on a QAP whose `A` and `B` have `NWires`
rows, when the Lagrange vectors have at least `NConstraints` entries. -/
theorem evalAB_ok (qap : QAP Fr) (cT1 : List G₁) (cT2 : List G₂)
    (hNW : 0 ≤ qap.NWires) (hA : qap.NWires.toNat ≤ qap.A.length)
    (hB : qap.NWires.toNat ≤ qap.B.length)
    (h1 : 0 ≤ qap.NConstraints ∧ qap.NConstraints ≤ (cT1.length : Int))
    (h2 : 0 ≤ qap.NConstraints ∧ qap.NConstraints ≤ (cT2.length : Int)) :
    ∃ ev, evalAB qap cT1 cT2 = .ok ev := by
  obtain ⟨ev1, hloop, _⟩ := forRange_ok (evalABBody qap cT1 cT2)
    (fun (t : Evaluations G₁ G₂) => t.G1.A.length = qap.NWires.toNat ∧
      t.G1.B.length = qap.NWires.toNat ∧ t.G2.B.length = qap.NWires.toNat)
    (List.range qap.NWires.toNat)
    ({ G1 := { A := List.replicate qap.NWires.toNat 0, B := List.replicate qap.NWires.toNat 0,
               VKK := [] },
       G2 := { B := List.replicate qap.NWires.toNat 0 } } : Evaluations G₁ G₂)
    ⟨by simp, by simp, by simp⟩
    (by
      intro i hi t ⟨tA, tB, tB2⟩
      have hi' := List.mem_range.mp hi
      have hiA : i < qap.A.length := by omega
      have hiB : i < qap.B.length := by omega
      refine ⟨_, (evalABBody_eq_ok qap cT1 cT2 i t _).mpr
        ⟨qap.A[i], qap.B[i], List.getElem?_eq_getElem hiA, List.getElem?_eq_getElem hiB,
          h1, h2, by omega, by omega, by omega, rfl⟩, ?_⟩
      exact ⟨by simpa using tA, by simpa using tB, by simpa using tB2⟩)
  refine ⟨ev1, ?_⟩
  unfold evalAB
  have hm : ∀ {α : Type} [Zero α], (makeSlice qap.NWires : Except String (List α))
      = .ok (List.replicate qap.NWires.toNat 0) := by
    intro α _
    rw [makeSlice_eq_ok]; exact ⟨hNW, rfl⟩
  simp only [hm, bind, Except.bind, hloop]

/-- What a completed `Evaluate L` loop has written. -/
theorem evalL_inv (qap : QAP Fr) (hNP : 0 ≤ qap.NPublic) (cB cA cT : List G₁)
    (l0 v0 : List G₁) (s : List G₁ × List G₁)
    (h : forRange (evalLBody qap cB cA cT) (List.range qap.NWires.toNat) (l0, v0) = (s, none)) :
    s.1.length = l0.length ∧ s.2.length = v0.length ∧
    ∀ i, i < qap.NWires.toNat → ∃ res, combinedWire qap cB cA cT i = .ok res ∧
      if (i : Int) < qap.NPublic then s.2[i]? = some res
      else s.1[i - qap.NPublic.toNat]? = some res := by
  have hinv := forRange_inv (evalLBody qap cB cA cT)
    (fun k (t : List G₁ × List G₁) =>
      (t.1.length = l0.length ∧ t.2.length = v0.length) ∧
      ∀ j, j < k → ∃ res, combinedWire qap cB cA cT j = .ok res ∧
        if (j : Int) < qap.NPublic then t.2[j]? = some res
        else t.1[j - qap.NPublic.toNat]? = some res)
    (by
      intro i t t' ⟨⟨hl, hv⟩, hP⟩ hb
      rw [evalLBody_eq_ok qap hNP] at hb
      obtain ⟨res, hres, hw⟩ := hb
      by_cases hi : (i : Int) < qap.NPublic
      · rw [if_pos hi] at hw
        obtain ⟨hlt, rfl⟩ := hw
        refine ⟨⟨hl, by simpa using hv⟩, ?_⟩
        intro j hj
        by_cases hji : j = i
        · subst hji
          exact ⟨res, hres, by rw [if_pos hi]; exact List.getElem?_set_self hlt⟩
        · obtain ⟨r, hr, hslot⟩ := hP j (by omega)
          refine ⟨r, hr, ?_⟩
          by_cases hjp : (j : Int) < qap.NPublic
          · rw [if_pos hjp] at hslot ⊢
            simp only; rw [List.getElem?_set_ne (by omega)]; exact hslot
          · rw [if_neg hjp] at hslot ⊢
            exact hslot
      · rw [if_neg hi] at hw
        obtain ⟨hlt, rfl⟩ := hw
        refine ⟨⟨by simpa using hl, hv⟩, ?_⟩
        intro j hj
        by_cases hji : j = i
        · subst hji
          exact ⟨res, hres, by rw [if_neg hi]; exact List.getElem?_set_self hlt⟩
        · obtain ⟨r, hr, hslot⟩ := hP j (by omega)
          refine ⟨r, hr, ?_⟩
          by_cases hjp : (j : Int) < qap.NPublic
          · rw [if_pos hjp] at hslot ⊢
            exact hslot
          · rw [if_neg hjp] at hslot ⊢
            simp only; rw [List.getElem?_set_ne (by omega)]; exact hslot)
    qap.NWires.toNat 0 (l0, v0) s (by rw [← List.range_eq_range']; exact h)
    ⟨⟨rfl, rfl⟩, by intro j hj; omega⟩
  obtain ⟨⟨hl, hv⟩, hP⟩ := hinv
  exact ⟨hl, hv, fun i hi => hP i (by omega)⟩

/-- The `Evaluate L` loop completes on a QAP whose `A`, `B`, `C` have `NWires` rows. -/
theorem evalL_ok (qap : QAP Fr) (hNP : 0 ≤ qap.NPublic) (cB cA cT : List G₁)
    (l0 v0 : List G₁) (hl0 : l0.length = (qap.NWires - qap.NPublic).toNat)
    (hv0 : v0.length = qap.NPublic.toNat)
    (hA : qap.NWires.toNat ≤ qap.A.length) (hB : qap.NWires.toNat ≤ qap.B.length)
    (hC : qap.NWires.toNat ≤ qap.C.length)
    (h1 : 0 ≤ qap.NConstraints ∧ qap.NConstraints ≤ (cB.length : Int))
    (h2 : 0 ≤ qap.NConstraints ∧ qap.NConstraints ≤ (cA.length : Int))
    (h3 : 0 ≤ qap.NConstraints ∧ qap.NConstraints ≤ (cT.length : Int)) :
    ∃ s, forRange (evalLBody qap cB cA cT) (List.range qap.NWires.toNat) (l0, v0)
      = (s, none) := by
  obtain ⟨s, hloop, _⟩ := forRange_ok (evalLBody qap cB cA cT)
    (fun (t : List G₁ × List G₁) => t.1.length = l0.length ∧ t.2.length = v0.length)
    (List.range qap.NWires.toNat) (l0, v0) ⟨rfl, rfl⟩
    (by
      intro i hi t ⟨tl, tv⟩
      have hi' := List.mem_range.mp hi
      have hiA : i < qap.A.length := by omega
      have hiB : i < qap.B.length := by omega
      have hiC : i < qap.C.length := by omega
      have hres := (combinedWire_eq_ok qap cB cA cT i _).mpr
        ⟨qap.A[i], qap.B[i], qap.C[i], List.getElem?_eq_getElem hiA,
          List.getElem?_eq_getElem hiB, List.getElem?_eq_getElem hiC, h1, h2, h3, rfl⟩
      generalize utils.EvalG1 qap.A[i] (cB.take qap.NConstraints.toNat)
        + utils.EvalG1 qap.B[i] (cA.take qap.NConstraints.toNat)
        + utils.EvalG1 qap.C[i] (cT.take qap.NConstraints.toNat) = res at hres
      by_cases hip : (i : Int) < qap.NPublic
      · refine ⟨(t.1, t.2.set i res), ?_, ?_⟩
        · rw [evalLBody_eq_ok qap hNP]
          refine ⟨res, hres, ?_⟩
          rw [if_pos hip]; exact ⟨by omega, rfl⟩
        · show t.1.length = l0.length ∧ (t.2.set i res).length = v0.length
          exact ⟨tl, by simpa using tv⟩
      · refine ⟨(t.1.set (i - qap.NPublic.toNat) res, t.2), ?_, ?_⟩
        · rw [evalLBody_eq_ok qap hNP]
          refine ⟨res, hres, ?_⟩
          rw [if_neg hip]; exact ⟨by omega, rfl⟩
        · show (t.1.set (i - qap.NPublic.toNat) res).length = l0.length ∧ t.2.length = v0.length
          exact ⟨by simpa using tl, tv⟩)
  exact ⟨s, hloop⟩

/-- The stages of an accepted call of `PreparePhase2`. -/
theorem PreparePhase2_inv (lib : Curve Fr G₁ G₂ Gt) (sg : G₁) (c2 : Contribution G₁ G₂)
    (c1 : phase1.Contribution G₁ G₂) (qap : QAP Fr) (c2' : Contribution G₁ G₂)
    (evals : Evaluations G₁ G₂)
    (h : PreparePhase2 lib sg c2 c1 qap = (c2', .ok evals)) :
    qap.NConstraints ≤ (c1.Parameters.G1.AlphaTau.length : Int) ∧
    ∃ ev0 z s,
      evalAB qap
        (lib.LagrangeCoeffsG1 c1.Parameters.G1.Tau c1.Parameters.G1.AlphaTau.length)
        (lib.LagrangeCoeffsG2 c1.Parameters.G2.Tau c1.Parameters.G1.AlphaTau.length)
        = .ok ev0 ∧
      buildZ lib.g1 c1.Parameters.G1.Tau c1.Parameters.G1.AlphaTau.length = (z, none) ∧
      0 ≤ qap.NWires - qap.NPublic ∧ 0 ≤ qap.NPublic ∧
      forRange (evalLBody qap
          (lib.LagrangeCoeffsG1 c1.Parameters.G1.BetaTau c1.Parameters.G1.AlphaTau.length)
          (lib.LagrangeCoeffsG1 c1.Parameters.G1.AlphaTau c1.Parameters.G1.AlphaTau.length)
          (lib.LagrangeCoeffsG1 c1.Parameters.G1.Tau c1.Parameters.G1.AlphaTau.length))
        (List.range qap.NWires.toNat)
        (List.replicate (qap.NWires - qap.NPublic).toNat 0,
          List.replicate qap.NPublic.toNat 0) = (s, none) ∧
      evals = { G1 := { A := ev0.G1.A, B := ev0.G1.B, VKK := s.2 }, G2 := ev0.G2 } ∧
      c2'.Parameters.G1.Delta = lib.g1 ∧ c2'.Parameters.G2.Delta = lib.g2 ∧
      c2'.Parameters.G1.Z = z ∧ c2'.Parameters.G1.L = s.1 ∧
      c2'.PublicKey = utils.GenPublicKey lib sg 1 [] 1 ∧
      c2'.Hash = HashContribution lib c2' := by
  unfold PreparePhase2 at h
  simp only at h
  split at h
  · simp at h
  · rename_i hguard
    split at h
    · simp at h
    · rename_i ev0 hev
      split at h
      · simp at h
      · rename_i z hz
        split at h
        · simp at h
        · rename_i l hl
          split at h
          · simp at h
          · rename_i vkk hvkk
            split at h
            · simp at h
            · rename_i s hs
              rw [makeSlice_eq_ok] at hl hvkk
              obtain ⟨hl0, rfl⟩ := hl
              obtain ⟨hv0, rfl⟩ := hvkk
              simp only [Prod.mk.injEq, Except.ok.injEq] at h
              obtain ⟨rfl, rfl⟩ := h
              exact ⟨by omega, ev0, z, s, hev, hz, hl0, hv0, hs, rfl, rfl, rfl, rfl, rfl, rfl,
                rfl⟩

/-! ## `Contribute` -/

theorem scaleLoop_eq_map (k : Fr) (src : List G₁) :
    scaleLoop k src = src.map (fun p => k • p) := by
  unfold scaleLoop
  rw [foldl_set_range]
  apply List.ext_getElem
  · simp
  · intro i h1 h2
    simp at h1
    simp [List.getD_eq_getElem?_getD, List.getElem?_eq_getElem h1]

theorem Contribute_G1Delta (lib : Curve Fr G₁ G₂ Gt) (delta : Fr) (sg : G₁)
    (c prev : Contribution G₁ G₂) :
    (Contribute lib delta sg c prev).Parameters.G1.Delta
      = delta • prev.Parameters.G1.Delta := rfl

theorem Contribute_G2Delta (lib : Curve Fr G₁ G₂ Gt) (delta : Fr) (sg : G₁)
    (c prev : Contribution G₁ G₂) :
    (Contribute lib delta sg c prev).Parameters.G2.Delta
      = delta • prev.Parameters.G2.Delta := rfl

theorem Contribute_Z (lib : Curve Fr G₁ G₂ Gt) (delta : Fr) (sg : G₁)
    (c prev : Contribution G₁ G₂) :
    (Contribute lib delta sg c prev).Parameters.G1.Z
      = prev.Parameters.G1.Z.map (fun p => delta⁻¹ • p) := by
  rw [← scaleLoop_eq_map]; rfl

theorem Contribute_L (lib : Curve Fr G₁ G₂ Gt) (delta : Fr) (sg : G₁)
    (c prev : Contribution G₁ G₂) :
    (Contribute lib delta sg c prev).Parameters.G1.L
      = prev.Parameters.G1.L.map (fun p => delta⁻¹ • p) := by
  rw [← scaleLoop_eq_map]; rfl

theorem Contribute_PublicKey (lib : Curve Fr G₁ G₂ Gt) (delta : Fr) (sg : G₁)
    (c prev : Contribution G₁ G₂) :
    (Contribute lib delta sg c prev).PublicKey
      = utils.GenPublicKey lib sg delta prev.Hash 1 := rfl

/-- Pairing of an entry scaled by `δ⁻¹` with a `Delta` scaled by `δ`, for `δ ≠ 0`. -/
theorem pairing_inv_smul (lib : Curve Fr G₁ G₂ Gt) (delta : Fr) (hd : delta ≠ 0)
    (p : G₁) (q : G₂) : lib.e (delta⁻¹ • p) (delta • q) = lib.e p q := by
  rw [map_smul, LinearMap.map_smul₂, smul_smul, mul_inv_cancel₀ hd, one_smul]

/-- On two separate objects `Contribute` uses one scalar `δ` throughout: both `Delta`s are
multiplied by `δ`, `Z` and `L` keep their lengths and every entry is multiplied by `δ⁻¹` (the
field inverse computed by `Inverse`), and the public key is `GenPublicKey(δ, prev.Hash, 1)`. -/
theorem Contribute_fields (lib : Curve Fr G₁ G₂ Gt) (delta : Fr) (sg : G₁)
    (c prev : Contribution G₁ G₂) :
    (Contribute lib delta sg c prev).Parameters.G1.Delta = delta • prev.Parameters.G1.Delta ∧
    (Contribute lib delta sg c prev).Parameters.G2.Delta = delta • prev.Parameters.G2.Delta ∧
    (Contribute lib delta sg c prev).Parameters.G1.Z.length = prev.Parameters.G1.Z.length ∧
    (Contribute lib delta sg c prev).Parameters.G1.L.length = prev.Parameters.G1.L.length ∧
    (∀ (i : Nat) (h : i < prev.Parameters.G1.Z.length),
      (Contribute lib delta sg c prev).Parameters.G1.Z[i]?
        = some (delta⁻¹ • prev.Parameters.G1.Z[i])) ∧
    (∀ (i : Nat) (h : i < prev.Parameters.G1.L.length),
      (Contribute lib delta sg c prev).Parameters.G1.L[i]?
        = some (delta⁻¹ • prev.Parameters.G1.L[i])) ∧
    (Contribute lib delta sg c prev).PublicKey
      = utils.GenPublicKey lib sg delta prev.Hash 1 := by
  refine ⟨rfl, rfl, ?_, ?_, ?_, ?_, rfl⟩
  · rw [Contribute_Z]; simp
  · rw [Contribute_L]; simp
  · intro i h
    rw [Contribute_Z]; simp [List.getElem?_eq_getElem h]
  · intro i h
    rw [Contribute_L]; simp [List.getElem?_eq_getElem h]

/-- On two separate objects and for every sampled `δ ≠ 0`, every entry of `Z` and of `L`
written by `Contribute` pairs with the new `G2.Delta` as the previous entry pairs with the
previous `G2.Delta`. -/
theorem Contribute_inverse_scaling (lib : Curve Fr G₁ G₂ Gt) (delta : Fr) (hd : delta ≠ 0)
    (sg : G₁) (c prev : Contribution G₁ G₂) :
    (∀ (i : Nat) (h : i < prev.Parameters.G1.Z.length),
      ∃ z, (Contribute lib delta sg c prev).Parameters.G1.Z[i]? = some z ∧
        lib.e z (Contribute lib delta sg c prev).Parameters.G2.Delta
          = lib.e prev.Parameters.G1.Z[i] prev.Parameters.G2.Delta) ∧
    (∀ (i : Nat) (h : i < prev.Parameters.G1.L.length),
      ∃ l, (Contribute lib delta sg c prev).Parameters.G1.L[i]? = some l ∧
        lib.e l (Contribute lib delta sg c prev).Parameters.G2.Delta
          = lib.e prev.Parameters.G1.L[i] prev.Parameters.G2.Delta) := by
  constructor
  · intro i h
    refine ⟨delta⁻¹ • prev.Parameters.G1.Z[i], ?_, ?_⟩
    · rw [Contribute_Z]; simp [List.getElem?_eq_getElem h]
    · rw [Contribute_G2Delta, pairing_inv_smul lib delta hd]
  · intro i h
    refine ⟨delta⁻¹ • prev.Parameters.G1.L[i], ?_, ?_⟩
    · rw [Contribute_L]; simp [List.getElem?_eq_getElem h]
    · rw [Contribute_G2Delta, pairing_inv_smul lib delta hd]

/-- The call of `PreparePhase2` returns on every well-formed QAP within the guard, when `n ≥ 1`, `Tau`
has `2n − 1` entries and the Lagrange vectors have `n` entries. -/
theorem PreparePhase2_ok (lib : Curve Fr G₁ G₂ Gt) (sg : G₁) (c2 : Contribution G₁ G₂)
    (c1 : phase1.Contribution G₁ G₂) (qap : QAP Fr)
    (hn : 1 ≤ c1.Parameters.G1.AlphaTau.length)
    (htau : 2 * c1.Parameters.G1.AlphaTau.length - 1 ≤ c1.Parameters.G1.Tau.length)
    (hNC : qap.NConstraints ≤ (c1.Parameters.G1.AlphaTau.length : Int))
    (hwf : qap.WellFormed) (hlag : LagrangeLengths lib c1) :
    ∃ c2' evals, PreparePhase2 lib sg c2 c1 qap = (c2', .ok evals) := by
  obtain ⟨hNC0, hNP0, hNPW, hA, hB, hC, _, _, _⟩ := hwf
  obtain ⟨hl1, hl2, hl3, hl4⟩ := hlag
  have hNW : 0 ≤ qap.NWires := by omega
  obtain ⟨ev0, hev⟩ := evalAB_ok qap
    (lib.LagrangeCoeffsG1 c1.Parameters.G1.Tau c1.Parameters.G1.AlphaTau.length)
    (lib.LagrangeCoeffsG2 c1.Parameters.G2.Tau c1.Parameters.G1.AlphaTau.length)
    hNW (by omega) (by omega) ⟨hNC0, by omega⟩ ⟨hNC0, by omega⟩
  obtain ⟨z, hz⟩ := buildZ_ok lib.g1 c1.Parameters.G1.Tau c1.Parameters.G1.AlphaTau.length
    hn htau
  obtain ⟨s, hs⟩ := evalL_ok qap hNP0
    (lib.LagrangeCoeffsG1 c1.Parameters.G1.BetaTau c1.Parameters.G1.AlphaTau.length)
    (lib.LagrangeCoeffsG1 c1.Parameters.G1.AlphaTau c1.Parameters.G1.AlphaTau.length)
    (lib.LagrangeCoeffsG1 c1.Parameters.G1.Tau c1.Parameters.G1.AlphaTau.length)
    (List.replicate (qap.NWires - qap.NPublic).toNat 0) (List.replicate qap.NPublic.toNat 0)
    (by simp) (by simp) (by omega) (by omega) (by omega)
    ⟨hNC0, by omega⟩ ⟨hNC0, by omega⟩ ⟨hNC0, by omega⟩
  have hm1 : (makeSlice (qap.NWires - qap.NPublic) : Except String (List G₁))
      = .ok (List.replicate (qap.NWires - qap.NPublic).toNat 0) := by
    rw [makeSlice_eq_ok]; exact ⟨by omega, rfl⟩
  have hm2 : (makeSlice qap.NPublic : Except String (List G₁))
      = .ok (List.replicate qap.NPublic.toNat 0) := by
    rw [makeSlice_eq_ok]; exact ⟨hNP0, rfl⟩
  have hg : ¬ ((c1.Parameters.G1.AlphaTau.length : Int) < qap.NConstraints) := by omega
  unfold PreparePhase2
  simp only [hg, if_false, hev, hz, hm1, hm2, hs]
  exact ⟨_, _, rfl⟩

theorem zipWith_smul_sum {G : Type} [AddCommGroup G] [Module Fr G] (row : List Fr) :
    ∀ (pts : List G), (List.zipWith (fun a p => a • p) row pts).sum
      = ∑ j in Finset.range (min row.length pts.length), row.getD j 0 • pts.getD j 0 := by
  induction row with
  | nil => intro pts; simp
  | cons x row ih =>
    intro pts
    cases pts with
    | nil => simp
    | cons y pts =>
      simp only [List.zipWith_cons_cons, List.sum_cons, List.length_cons]
      rw [ih pts, Nat.succ_min_succ, Finset.sum_range_succ']
      simp [add_comm]

theorem dot_take_eq_specDot {G : Type} [AddCommGroup G] [Module Fr G] (row : List Fr)
    (coeff : List G) (k : Nat) (hrow : row.length = k) (hk : k ≤ coeff.length) :
    (List.zipWith (fun a p => a • p) row (coeff.take k)).sum = specDot row coeff k := by
  rw [zipWith_smul_sum, specDot]
  have hmin : min row.length (coeff.take k).length = k := by
    simp [hrow, hk]
  rw [hmin]
  apply Finset.sum_congr rfl
  intro j hj
  have hj' : j < k := Finset.mem_range.mp hj
  congr 1
  simp [List.getD_eq_getElem?_getD, List.getElem?_take, hj']

theorem EvalG1_take (row : List Fr) (coeff : List G₁) (k : Nat) (hrow : row.length = k)
    (hk : k ≤ coeff.length) : utils.EvalG1 row (coeff.take k) = specDot row coeff k :=
  dot_take_eq_specDot row coeff k hrow hk

theorem EvalG2_take (row : List Fr) (coeff : List G₂) (k : Nat) (hrow : row.length = k)
    (hk : k ≤ coeff.length) : utils.EvalG2 row (coeff.take k) = specDot row coeff k :=
  dot_take_eq_specDot row coeff k hrow hk

theorem getD_of_getElem? {α : Type} (xs : List α) (i : Nat) (x d : α) (h : xs[i]? = some x) :
    xs.getD i d = x := by
  simp [List.getD_eq_getElem?_getD, h]

theorem row_length_of_getElem? {α : Type} (xs : List (List α)) (k i : Nat) (r : List α)
    (hall : ∀ row ∈ xs, row.length = k) (h : xs[i]? = some r) : r.length = k :=
  hall r (List.getElem?_mem h)

/-- On an accepted call with rows of `NConstraints` entries, `evals.G1.A`, `evals.G1.B` and
`evals.G2.B` hold the dot products over the first `NConstraints` coefficients. -/
theorem PreparePhase2_evals_AB (lib : Curve Fr G₁ G₂ Gt) (sg : G₁) (c2 : Contribution G₁ G₂)
    (c1 : phase1.Contribution G₁ G₂) (qap : QAP Fr) (c2' : Contribution G₁ G₂)
    (evals : Evaluations G₁ G₂)
    (h : PreparePhase2 lib sg c2 c1 qap = (c2', .ok evals))
    (hA : ∀ row ∈ qap.A, row.length = qap.NConstraints.toNat)
    (hB : ∀ row ∈ qap.B, row.length = qap.NConstraints.toNat) :
    ∀ i, i < qap.NWires.toNat →
      evals.G1.A[i]? = some (specDot (qap.A.getD i [])
        (lib.LagrangeCoeffsG1 c1.Parameters.G1.Tau c1.Parameters.G1.AlphaTau.length)
        qap.NConstraints.toNat) ∧
      evals.G1.B[i]? = some (specDot (qap.B.getD i [])
        (lib.LagrangeCoeffsG1 c1.Parameters.G1.Tau c1.Parameters.G1.AlphaTau.length)
        qap.NConstraints.toNat) ∧
      evals.G2.B[i]? = some (specDot (qap.B.getD i [])
        (lib.LagrangeCoeffsG2 c1.Parameters.G2.Tau c1.Parameters.G1.AlphaTau.length)
        qap.NConstraints.toNat) := by
  obtain ⟨_, ev0, z, s, hev, _, _, _, _, rfl, _⟩ := PreparePhase2_inv lib sg c2 c1 qap c2' evals h
  obtain ⟨_, _, _, _, hP⟩ := evalAB_inv qap _ _ ev0 hev
  intro i hi
  obtain ⟨a, b, ha, hb, h1, h2, eA, eB, eB2⟩ := hP i hi
  have hla := row_length_of_getElem? qap.A _ i a hA ha
  have hlb := row_length_of_getElem? qap.B _ i b hB hb
  rw [getD_of_getElem? qap.A i a [] ha, getD_of_getElem? qap.B i b [] hb]
  refine ⟨?_, ?_, ?_⟩
  · rw [← EvalG1_take a _ _ hla (by omega)]; exact eA
  · rw [← EvalG1_take b _ _ hlb (by omega)]; exact eB
  · rw [← EvalG2_take b _ _ hlb (by omega)]; exact eB2

/-- On an accepted call with rows of `NConstraints` entries, wire `i` is stored in `VKK[i]`
when `i < NPublic` and in `L[i − NPublic]` otherwise. -/
theorem PreparePhase2_L_VKK (lib : Curve Fr G₁ G₂ Gt) (sg : G₁) (c2 : Contribution G₁ G₂)
    (c1 : phase1.Contribution G₁ G₂) (qap : QAP Fr) (c2' : Contribution G₁ G₂)
    (evals : Evaluations G₁ G₂)
    (h : PreparePhase2 lib sg c2 c1 qap = (c2', .ok evals))
    (hA : ∀ row ∈ qap.A, row.length = qap.NConstraints.toNat)
    (hB : ∀ row ∈ qap.B, row.length = qap.NConstraints.toNat)
    (hC : ∀ row ∈ qap.C, row.length = qap.NConstraints.toNat) :
    ∀ i, i < qap.NWires.toNat →
      (if (i : Int) < qap.NPublic then evals.G1.VKK[i]?
        else c2'.Parameters.G1.L[i - qap.NPublic.toNat]?) =
      some (specDot (qap.A.getD i [])
          (lib.LagrangeCoeffsG1 c1.Parameters.G1.BetaTau c1.Parameters.G1.AlphaTau.length)
          qap.NConstraints.toNat
        + specDot (qap.B.getD i [])
          (lib.LagrangeCoeffsG1 c1.Parameters.G1.AlphaTau c1.Parameters.G1.AlphaTau.length)
          qap.NConstraints.toNat
        + specDot (qap.C.getD i [])
          (lib.LagrangeCoeffsG1 c1.Parameters.G1.Tau c1.Parameters.G1.AlphaTau.length)
          qap.NConstraints.toNat) := by
  obtain ⟨_, ev0, z, s, _, _, _, hNP, hs, rfl, _, _, _, hL, _⟩ :=
    PreparePhase2_inv lib sg c2 c1 qap c2' evals h
  obtain ⟨_, _, hP⟩ := evalL_inv qap hNP _ _ _ _ _ s hs
  intro i hi
  obtain ⟨res, hres, hslot⟩ := hP i hi
  rw [combinedWire_eq_ok] at hres
  obtain ⟨a, b, c, ha, hb, hc, h1, h2, h3, rfl⟩ := hres
  have hla := row_length_of_getElem? qap.A _ i a hA ha
  have hlb := row_length_of_getElem? qap.B _ i b hB hb
  have hlc := row_length_of_getElem? qap.C _ i c hC hc
  rw [getD_of_getElem? qap.A i a [] ha, getD_of_getElem? qap.B i b [] hb,
    getD_of_getElem? qap.C i c [] hc,
    ← EvalG1_take a _ _ hla (by omega), ← EvalG1_take b _ _ hlb (by omega),
    ← EvalG1_take c _ _ hlc (by omega), hL]
  by_cases hip : (i : Int) < qap.NPublic
  · rw [if_pos hip] at hslot ⊢; exact hslot
  · rw [if_neg hip] at hslot ⊢; exact hslot

/-- The lengths of the slices of an accepted call. -/
theorem PreparePhase2_lengths (lib : Curve Fr G₁ G₂ Gt) (sg : G₁) (c2 : Contribution G₁ G₂)
    (c1 : phase1.Contribution G₁ G₂) (qap : QAP Fr) (c2' : Contribution G₁ G₂)
    (evals : Evaluations G₁ G₂)
    (h : PreparePhase2 lib sg c2 c1 qap = (c2', .ok evals)) :
    (0 ≤ qap.NPublic ∧ qap.NPublic ≤ qap.NWires) ∧
    (evals.G1.A.length : Int) = qap.NWires ∧ (evals.G1.B.length : Int) = qap.NWires ∧
    (evals.G2.B.length : Int) = qap.NWires ∧ (evals.G1.VKK.length : Int) = qap.NPublic ∧
    (c2'.Parameters.G1.L.length : Int) = qap.NWires - qap.NPublic ∧
    c2'.Parameters.G1.Z.length = c1.Parameters.G1.AlphaTau.length := by
  obtain ⟨_, ev0, z, s, hev, hz, hNWP, hNP, hs, rfl, _, _, hZ, hL, _⟩ :=
    PreparePhase2_inv lib sg c2 c1 qap c2' evals h
  obtain ⟨hNW, lA, lB, lB2, _⟩ := evalAB_inv qap _ _ ev0 hev
  obtain ⟨_, lz, _⟩ := buildZ_inv _ _ _ z hz
  obtain ⟨ll, lv, _⟩ := evalL_inv qap hNP _ _ _ _ _ s hs
  simp only [List.length_replicate] at ll lv
  refine ⟨⟨hNP, by omega⟩, ?_, ?_, ?_, ?_, ?_, ?_⟩
  · rw [lA]; omega
  · rw [lB]; omega
  · rw [lB2]; omega
  · show (s.2.length : Int) = _
    rw [lv]; omega
  · rw [hL, ll]; omega
  · rw [hZ, lz]

/-- The wires are sent to pairwise distinct slots. -/
theorem wireSlot_injective (qap : QAP Fr) (i j : Nat) (h : wireSlot qap i = wireSlot qap j) :
    i = j := by
  unfold wireSlot at h
  by_cases hi : (i : Int) < qap.NPublic <;> by_cases hj : (j : Int) < qap.NPublic
  · simp only [hi, hj, if_true, Slot.VKK.injEq] at h; omega
  · simp [hi, hj] at h
  · simp [hi, hj] at h
  · simp only [hi, hj, if_false, Slot.L.injEq] at h; omega

theorem wireSlot_nodup (qap : QAP Fr) (m : Nat) :
    ((List.range m).map (wireSlot qap)).Nodup :=
  (List.nodup_range m).map (fun i j h => wireSlot_injective qap i j h)

theorem wireSlot_VKK_mem (qap : QAP Fr) (j : Nat) (hj : (j : Int) < qap.NPublic)
    (hNW : qap.NPublic ≤ qap.NWires) :
    Slot.VKK (j : Int) ∈ (List.range qap.NWires.toNat).map (wireSlot qap) := by
  rw [List.mem_map]
  refine ⟨j, List.mem_range.mpr (by omega), ?_⟩
  simp [wireSlot, hj]

theorem wireSlot_L_mem (qap : QAP Fr) (j : Nat) (hNP : 0 ≤ qap.NPublic)
    (hj : (j : Int) < qap.NWires - qap.NPublic) :
    Slot.L (j : Int) ∈ (List.range qap.NWires.toNat).map (wireSlot qap) := by
  rw [List.mem_map]
  refine ⟨j + qap.NPublic.toNat, List.mem_range.mpr (by omega), ?_⟩
  have h1 : ¬ (((j + qap.NPublic.toNat : Nat) : Int) < qap.NPublic) := by omega
  simp only [wireSlot, h1, if_false, Slot.L.injEq]
  omega

/-- C6. For `n = len(c1.G1.AlphaTau) ≥ 1`, `len(c1.G1.Tau) ≥ 2n − 1` and a (well-formed) QAP
with `NConstraints ≤ n`, `PreparePhase2` returns and leaves `c2.G1.Z` of length `n` with
`Z[i] = Tau[i+n] − Tau[i]` for every `i < n − 1` and `Z[n−1] = [1]₁`. -/
theorem preparePhase2_builds_Z (lib : Curve Fr G₁ G₂ Gt) (sg : G₁) (c2 : Contribution G₁ G₂)
    (c1 : phase1.Contribution G₁ G₂) (qap : QAP Fr)
    (hn : 1 ≤ c1.Parameters.G1.AlphaTau.length)
    (htau : 2 * c1.Parameters.G1.AlphaTau.length - 1 ≤ c1.Parameters.G1.Tau.length)
    (hNC : qap.NConstraints ≤ (c1.Parameters.G1.AlphaTau.length : Int))
    (hwf : qap.WellFormed) (hlag : LagrangeLengths lib c1) :
    ∃ c2' evals, PreparePhase2 lib sg c2 c1 qap = (c2', .ok evals) ∧
      c2'.Parameters.G1.Z.length = c1.Parameters.G1.AlphaTau.length ∧
      (∀ i, i + 1 < c1.Parameters.G1.AlphaTau.length →
        ∃ a b, c1.Parameters.G1.Tau[i + c1.Parameters.G1.AlphaTau.length]? = some a ∧
          c1.Parameters.G1.Tau[i]? = some b ∧ c2'.Parameters.G1.Z[i]? = some (a - b)) ∧
      c2'.Parameters.G1.Z[c1.Parameters.G1.AlphaTau.length - 1]? = some lib.g1 := by
  obtain ⟨c2', evals, h⟩ := PreparePhase2_ok lib sg c2 c1 qap hn htau hNC hwf hlag
  obtain ⟨_, ev0, z, s, _, hz, _, _, _, _, _, _, hZ, _⟩ :=
    PreparePhase2_inv lib sg c2 c1 qap c2' evals h
  obtain ⟨_, lz, hlast, hP⟩ := buildZ_inv _ _ _ z hz
  exact ⟨c2', evals, h, by rw [hZ, lz], by rw [hZ]; exact hP, by rw [hZ]; exact hlast⟩

/-- C6 at `smallSRS` and `smallQAP` (`n = 2`). -/
theorem preparePhase2_builds_Z_witness :
    (1 ≤ smallSRS.Parameters.G1.AlphaTau.length ∧
      2 * smallSRS.Parameters.G1.AlphaTau.length - 1 ≤ smallSRS.Parameters.G1.Tau.length ∧
      smallQAP.NConstraints ≤ (smallSRS.Parameters.G1.AlphaTau.length : Int) ∧
      smallQAP.WellFormed ∧ LagrangeLengths smallCurve smallSRS) ∧
    ∃ c2' evals, PreparePhase2 smallCurve 3 Contribution.zero smallSRS smallQAP
        = (c2', .ok evals) ∧
      c2'.Parameters.G1.Z.length = smallSRS.Parameters.G1.AlphaTau.length ∧
      (∀ i, i + 1 < smallSRS.Parameters.G1.AlphaTau.length →
        ∃ a b, smallSRS.Parameters.G1.Tau[i + smallSRS.Parameters.G1.AlphaTau.length]? = some a ∧
          smallSRS.Parameters.G1.Tau[i]? = some b ∧ c2'.Parameters.G1.Z[i]? = some (a - b)) ∧
      c2'.Parameters.G1.Z[smallSRS.Parameters.G1.AlphaTau.length - 1]? = some smallCurve.g1 :=
  ⟨⟨by decide, by decide, by decide, by decide, by decide⟩,
    preparePhase2_builds_Z smallCurve 3 Contribution.zero smallSRS smallQAP (by decide)
      (by decide) (by decide) (by decide) (by decide)⟩

/-- C9. For every wire `i < NWires`, `evals.G1.A[i]`, `evals.G1.B[i]` and `evals.G2.B[i]` are
the sums `Σ_{j<NConstraints} A[i][j]·coeffTau1[j]`, `Σ_{j<NConstraints} B[i][j]·coeffTau1[j]`
and `Σ_{j<NConstraints} B[i][j]·coeffTau2[j]`: only the first `NConstraints` of the `n`
Lagrange coefficients are used. -/
theorem preparePhase2_evals_dot (lib : Curve Fr G₁ G₂ Gt) (sg : G₁) (c2 : Contribution G₁ G₂)
    (c1 : phase1.Contribution G₁ G₂) (qap : QAP Fr)
    (hn : 1 ≤ c1.Parameters.G1.AlphaTau.length)
    (htau : 2 * c1.Parameters.G1.AlphaTau.length - 1 ≤ c1.Parameters.G1.Tau.length)
    (hNC : qap.NConstraints ≤ (c1.Parameters.G1.AlphaTau.length : Int))
    (hwf : qap.WellFormed) (hlag : LagrangeLengths lib c1) :
    ∃ c2' evals, PreparePhase2 lib sg c2 c1 qap = (c2', .ok evals) ∧
      ∀ i, i < qap.NWires.toNat →
        evals.G1.A[i]? = some (specDot (qap.A.getD i [])
          (lib.LagrangeCoeffsG1 c1.Parameters.G1.Tau c1.Parameters.G1.AlphaTau.length)
          qap.NConstraints.toNat) ∧
        evals.G1.B[i]? = some (specDot (qap.B.getD i [])
          (lib.LagrangeCoeffsG1 c1.Parameters.G1.Tau c1.Parameters.G1.AlphaTau.length)
          qap.NConstraints.toNat) ∧
        evals.G2.B[i]? = some (specDot (qap.B.getD i [])
          (lib.LagrangeCoeffsG2 c1.Parameters.G2.Tau c1.Parameters.G1.AlphaTau.length)
          qap.NConstraints.toNat) := by
  obtain ⟨c2', evals, h⟩ := PreparePhase2_ok lib sg c2 c1 qap hn htau hNC hwf hlag
  exact ⟨c2', evals, h,
    PreparePhase2_evals_AB lib sg c2 c1 qap c2' evals h hwf.2.2.2.2.2.2.1 hwf.2.2.2.2.2.2.2.1⟩

/-- C9 at `smallSRS` and `smallQAP`. -/
theorem preparePhase2_evals_dot_witness :
    (1 ≤ smallSRS.Parameters.G1.AlphaTau.length ∧
      2 * smallSRS.Parameters.G1.AlphaTau.length - 1 ≤ smallSRS.Parameters.G1.Tau.length ∧
      smallQAP.NConstraints ≤ (smallSRS.Parameters.G1.AlphaTau.length : Int) ∧
      smallQAP.WellFormed ∧ LagrangeLengths smallCurve smallSRS) ∧
    ∃ c2' evals, PreparePhase2 smallCurve 3 Contribution.zero smallSRS smallQAP
        = (c2', .ok evals) ∧
      ∀ i, i < smallQAP.NWires.toNat →
        evals.G1.A[i]? = some (specDot (smallQAP.A.getD i [])
          (smallCurve.LagrangeCoeffsG1 smallSRS.Parameters.G1.Tau
            smallSRS.Parameters.G1.AlphaTau.length) smallQAP.NConstraints.toNat) ∧
        evals.G1.B[i]? = some (specDot (smallQAP.B.getD i [])
          (smallCurve.LagrangeCoeffsG1 smallSRS.Parameters.G1.Tau
            smallSRS.Parameters.G1.AlphaTau.length) smallQAP.NConstraints.toNat) ∧
        evals.G2.B[i]? = some (specDot (smallQAP.B.getD i [])
          (smallCurve.LagrangeCoeffsG2 smallSRS.Parameters.G2.Tau
            smallSRS.Parameters.G1.AlphaTau.length) smallQAP.NConstraints.toNat) :=
  ⟨⟨by decide, by decide, by decide, by decide, by decide⟩,
    preparePhase2_evals_dot smallCurve 3 Contribution.zero smallSRS smallQAP (by decide)
      (by decide) (by decide) (by decide) (by decide)⟩

/-- C7. For every wire `i < NWires`, with
`combined_i = Σ_{j<NConstraints} A[i][j]·coeffBetaTau1[j] + Σ_{j<NConstraints}
B[i][j]·coeffAlphaTau1[j] + Σ_{j<NConstraints} C[i][j]·coeffTau1[j]`, the call stores
`combined_i` in `evals.G1.VKK[i]` when `i < NPublic` and in `c2.G1.L[i − NPublic]` otherwise;
the loop writes one slot per wire, no slot twice, and every entry of `VKK` and of `L` is the
slot of some wire. -/
theorem preparePhase2_L_and_VKK (lib : Curve Fr G₁ G₂ Gt) (sg : G₁) (c2 : Contribution G₁ G₂)
    (c1 : phase1.Contribution G₁ G₂) (qap : QAP Fr)
    (hn : 1 ≤ c1.Parameters.G1.AlphaTau.length)
    (htau : 2 * c1.Parameters.G1.AlphaTau.length - 1 ≤ c1.Parameters.G1.Tau.length)
    (hNC : qap.NConstraints ≤ (c1.Parameters.G1.AlphaTau.length : Int))
    (hwf : qap.WellFormed) (hlag : LagrangeLengths lib c1) :
    ∃ c2' evals, PreparePhase2 lib sg c2 c1 qap = (c2', .ok evals) ∧
      (∀ i, i < qap.NWires.toNat →
        (if (i : Int) < qap.NPublic then evals.G1.VKK[i]?
          else c2'.Parameters.G1.L[i - qap.NPublic.toNat]?) =
        some (specDot (qap.A.getD i [])
            (lib.LagrangeCoeffsG1 c1.Parameters.G1.BetaTau c1.Parameters.G1.AlphaTau.length)
            qap.NConstraints.toNat
          + specDot (qap.B.getD i [])
            (lib.LagrangeCoeffsG1 c1.Parameters.G1.AlphaTau c1.Parameters.G1.AlphaTau.length)
            qap.NConstraints.toNat
          + specDot (qap.C.getD i [])
            (lib.LagrangeCoeffsG1 c1.Parameters.G1.Tau c1.Parameters.G1.AlphaTau.length)
            qap.NConstraints.toNat)) ∧
      ((List.range qap.NWires.toNat).map (wireSlot qap)).Nodup ∧
      (∀ j, j < evals.G1.VKK.length →
        Slot.VKK (j : Int) ∈ (List.range qap.NWires.toNat).map (wireSlot qap)) ∧
      (∀ j, j < c2'.Parameters.G1.L.length →
        Slot.L (j : Int) ∈ (List.range qap.NWires.toNat).map (wireSlot qap)) := by
  obtain ⟨c2', evals, h⟩ := PreparePhase2_ok lib sg c2 c1 qap hn htau hNC hwf hlag
  obtain ⟨⟨hNP, hNPW⟩, _, _, _, lv, ll, _⟩ := PreparePhase2_lengths lib sg c2 c1 qap c2' evals h
  refine ⟨c2', evals, h,
    PreparePhase2_L_VKK lib sg c2 c1 qap c2' evals h hwf.2.2.2.2.2.2.1 hwf.2.2.2.2.2.2.2.1
      hwf.2.2.2.2.2.2.2.2, wireSlot_nodup qap _, ?_, ?_⟩
  · intro j hj
    exact wireSlot_VKK_mem qap j (by omega) hNPW
  · intro j hj
    exact wireSlot_L_mem qap j hNP (by omega)

/-- C10. On every accepted input, `evals.G1.A`, `evals.G1.B` and `evals.G2.B` have `NWires`
entries, `evals.G1.VKK` has `NPublic`, `c2.G1.L` has `NWires − NPublic` and `c2.G1.Z` has
`n = len(c1.G1.AlphaTau)`. -/
theorem preparePhase2_output_lengths (lib : Curve Fr G₁ G₂ Gt) (sg : G₁)
    (c2 : Contribution G₁ G₂) (c1 : phase1.Contribution G₁ G₂) (qap : QAP Fr)
    (c2' : Contribution G₁ G₂) (evals : Evaluations G₁ G₂)
    (h : PreparePhase2 lib sg c2 c1 qap = (c2', .ok evals)) :
    (evals.G1.A.length : Int) = qap.NWires ∧ (evals.G1.B.length : Int) = qap.NWires ∧
    (evals.G2.B.length : Int) = qap.NWires ∧ (evals.G1.VKK.length : Int) = qap.NPublic ∧
    (c2'.Parameters.G1.L.length : Int) = qap.NWires - qap.NPublic ∧
    c2'.Parameters.G1.Z.length = c1.Parameters.G1.AlphaTau.length :=
  (PreparePhase2_lengths lib sg c2 c1 qap c2' evals h).2

/-- C10 at power 8 with 16 constraints, 20 wires and 3 public wires: the call is accepted
and the lengths are 20, 20, 20, 3, 17 and 256. -/
theorem preparePhase2_output_lengths_witness :
    ∃ c2' evals, PreparePhase2 smallCurve 3 Contribution.zero mockSRS mockQAP
        = (c2', .ok evals) ∧
      evals.G1.A.length = 20 ∧ evals.G1.B.length = 20 ∧ evals.G2.B.length = 20 ∧
      evals.G1.VKK.length = 3 ∧ c2'.Parameters.G1.L.length = 17 ∧
      c2'.Parameters.G1.Z.length = 256 := by
  obtain ⟨c2', evals, h⟩ := PreparePhase2_ok smallCurve 3 Contribution.zero mockSRS mockQAP
    (by simp only [mockSRS, List.length_replicate]; omega)
    (by simp only [mockSRS, List.length_replicate]; omega)
    (by simp only [mockSRS, mockQAP, List.length_replicate]; omega)
    (by
      simp only [QAP.WellFormed, mockQAP, List.length_replicate, List.mem_replicate]
      refine ⟨by omega, by omega, by omega, rfl, rfl, rfl, ?_, ?_, ?_⟩ <;>
      · rintro row ⟨_, rfl⟩
        rw [List.length_replicate]; rfl)
    (by
      simp only [LagrangeLengths, smallCurve, smallLagrange, List.length_map,
        List.length_range, and_self])
  have hl := preparePhase2_output_lengths smallCurve 3 Contribution.zero mockSRS mockQAP
    c2' evals h
  simp only [mockSRS, mockQAP, List.length_replicate] at hl
  exact ⟨c2', evals, h, by omega, by omega, by omega, by omega, by omega, hl.2.2.2.2.2⟩

/-! ## Chains of contributions -/

theorem chain_G1Delta (lib : Curve Fr G₁ G₂ Gt) (rs : List (Fr × G₁ × Contribution G₁ G₂)) :
    ∀ c₀ : Contribution G₁ G₂, (contributeChain lib c₀ rs).Parameters.G1.Delta
      = (rs.map (fun r => r.1)).prod • c₀.Parameters.G1.Delta := by
  induction rs with
  | nil => intro c₀; simp [contributeChain]
  | cons r rs ih =>
    intro c₀
    rw [contributeChain, ih, Contribute_G1Delta, smul_smul, List.map_cons, List.prod_cons,
      mul_comm]

theorem chain_G2Delta (lib : Curve Fr G₁ G₂ Gt) (rs : List (Fr × G₁ × Contribution G₁ G₂)) :
    ∀ c₀ : Contribution G₁ G₂, (contributeChain lib c₀ rs).Parameters.G2.Delta
      = (rs.map (fun r => r.1)).prod • c₀.Parameters.G2.Delta := by
  induction rs with
  | nil => intro c₀; simp [contributeChain]
  | cons r rs ih =>
    intro c₀
    rw [contributeChain, ih, Contribute_G2Delta, smul_smul, List.map_cons, List.prod_cons,
      mul_comm]

/-- Along a chain of nonzero scalars the pairing of `Z[i]` with `G2.Delta` does not change. -/
theorem chain_Z_pairing (lib : Curve Fr G₁ G₂ Gt) (rs : List (Fr × G₁ × Contribution G₁ G₂))
    (hrs : ∀ r ∈ rs, r.1 ≠ 0) (i : Nat) :
    ∀ (c₀ : Contribution G₁ G₂) (z₀ : G₁), c₀.Parameters.G1.Z[i]? = some z₀ →
      ∃ z, (contributeChain lib c₀ rs).Parameters.G1.Z[i]? = some z ∧
        lib.e z (contributeChain lib c₀ rs).Parameters.G2.Delta
          = lib.e z₀ c₀.Parameters.G2.Delta := by
  induction rs with
  | nil => intro c₀ z₀ h; exact ⟨z₀, h, rfl⟩
  | cons r rs ih =>
    intro c₀ z₀ h
    have hr : r.1 ≠ 0 := hrs r (by simp)
    have hstep : (Contribute lib r.1 r.2.1 r.2.2 c₀).Parameters.G1.Z[i]?
        = some (r.1⁻¹ • z₀) := by
      rw [Contribute_Z, List.getElem?_map, h]; rfl
    obtain ⟨z, hz, he⟩ := ih (fun q hq => hrs q (by simp [hq])) _ _ hstep
    refine ⟨z, hz, ?_⟩
    rw [contributeChain, he, Contribute_G2Delta, pairing_inv_smul lib r.1 hr]

theorem chain_delta_consistent (lib : Curve Fr G₁ G₂ Gt)
    (rs : List (Fr × G₁ × Contribution G₁ G₂)) (c₀ : Contribution G₁ G₂)
    (h1 : c₀.Parameters.G1.Delta = lib.g1) (h2 : c₀.Parameters.G2.Delta = lib.g2) :
    lib.e (contributeChain lib c₀ rs).Parameters.G1.Delta lib.g2
      = lib.e lib.g1 (contributeChain lib c₀ rs).Parameters.G2.Delta := by
  rw [chain_G1Delta, chain_G2Delta, h1, h2]
  simp only [map_smul, LinearMap.smul_apply]

theorem PreparePhase2_Delta (lib : Curve Fr G₁ G₂ Gt) (sg : G₁) (c2 : Contribution G₁ G₂)
    (c1 : phase1.Contribution G₁ G₂) (qap : QAP Fr) (c2' : Contribution G₁ G₂)
    (evals : Evaluations G₁ G₂) (h : PreparePhase2 lib sg c2 c1 qap = (c2', .ok evals)) :
    c2'.Parameters.G1.Delta = lib.g1 ∧ c2'.Parameters.G2.Delta = lib.g2 := by
  obtain ⟨_, ev0, z, s, _, _, _, _, _, _, h1, h2, _⟩ :=
    PreparePhase2_inv lib sg c2 c1 qap c2' evals h
  exact ⟨h1, h2⟩

theorem PreparePhase2_Z (lib : Curve Fr G₁ G₂ Gt) (sg : G₁) (c2 : Contribution G₁ G₂)
    (c1 : phase1.Contribution G₁ G₂) (qap : QAP Fr) (c2' : Contribution G₁ G₂)
    (evals : Evaluations G₁ G₂) (h : PreparePhase2 lib sg c2 c1 qap = (c2', .ok evals)) :
    ∀ i, i + 1 < c1.Parameters.G1.AlphaTau.length →
      ∃ a b, c1.Parameters.G1.Tau[i + c1.Parameters.G1.AlphaTau.length]? = some a ∧
        c1.Parameters.G1.Tau[i]? = some b ∧ c2'.Parameters.G1.Z[i]? = some (a - b) := by
  obtain ⟨_, ev0, z, s, _, hz, _, _, _, _, _, _, hZ, _⟩ :=
    PreparePhase2_inv lib sg c2 c1 qap c2' evals h
  obtain ⟨_, _, _, hP⟩ := buildZ_inv _ _ _ z hz
  rw [hZ]; exact hP

/-- C5. An accepted `PreparePhase2` leaves `G1.Delta = [1]₁` and `G2.Delta = [1]₂`; after
`Contribute` calls with sampled scalars `δ₁, …, δₖ` the two `Delta`s are `(δ₁·…·δₖ)·[1]₁` and
`(δ₁·…·δₖ)·[1]₂`, hence `e(c.G1.Delta, [1]₂) = e([1]₁, c.G2.Delta)`. -/
theorem delta_is_product_of_contributions (lib : Curve Fr G₁ G₂ Gt) (sg : G₁)
    (c2 : Contribution G₁ G₂) (c1 : phase1.Contribution G₁ G₂) (qap : QAP Fr)
    (seed : Contribution G₁ G₂) (evals : Evaluations G₁ G₂)
    (h : PreparePhase2 lib sg c2 c1 qap = (seed, .ok evals))
    (rs : List (Fr × G₁ × Contribution G₁ G₂)) :
    seed.Parameters.G1.Delta = lib.g1 ∧ seed.Parameters.G2.Delta = lib.g2 ∧
    (contributeChain lib seed rs).Parameters.G1.Delta
      = (rs.map (fun r => r.1)).prod • lib.g1 ∧
    (contributeChain lib seed rs).Parameters.G2.Delta
      = (rs.map (fun r => r.1)).prod • lib.g2 ∧
    lib.e (contributeChain lib seed rs).Parameters.G1.Delta lib.g2
      = lib.e lib.g1 (contributeChain lib seed rs).Parameters.G2.Delta := by
  obtain ⟨h1, h2⟩ := PreparePhase2_Delta lib sg c2 c1 qap seed evals h
  refine ⟨h1, h2, ?_, ?_, chain_delta_consistent lib rs seed h1 h2⟩
  · rw [chain_G1Delta, h1]
  · rw [chain_G2Delta, h2]

/-- C5 at `smallSeed` with the scalars `2` and `0`. -/
theorem delta_is_product_of_contributions_witness :
    PreparePhase2 smallCurve 3 Contribution.zero smallSRS smallQAP
      = (smallSeed,
          .ok { G1 := { A := [9, 11, 13], B := [10, 8, 2], VKK := [5] },
                G2 := { B := [10, 8, 2] } }) ∧
    (smallSeed.Parameters.G1.Delta = smallCurve.g1 ∧
      smallSeed.Parameters.G2.Delta = smallCurve.g2 ∧
      (contributeChain smallCurve smallSeed
          [(2, 3, Contribution.zero), (0, 5, Contribution.zero)]).Parameters.G1.Delta
        = (([(2, 3, Contribution.zero), (0, 5, Contribution.zero)] :
            List (ZMod 17 × ZMod 17 × Contribution (ZMod 17) (ZMod 17))).map
              (fun r => r.1)).prod • smallCurve.g1 ∧
      (contributeChain smallCurve smallSeed
          [(2, 3, Contribution.zero), (0, 5, Contribution.zero)]).Parameters.G2.Delta
        = (([(2, 3, Contribution.zero), (0, 5, Contribution.zero)] :
            List (ZMod 17 × ZMod 17 × Contribution (ZMod 17) (ZMod 17))).map
              (fun r => r.1)).prod • smallCurve.g2 ∧
      smallCurve.e (contributeChain smallCurve smallSeed
          [(2, 3, Contribution.zero), (0, 5, Contribution.zero)]).Parameters.G1.Delta
          smallCurve.g2
        = smallCurve.e smallCurve.g1 (contributeChain smallCurve smallSeed
          [(2, 3, Contribution.zero), (0, 5, Contribution.zero)]).Parameters.G2.Delta) :=
  ⟨rfl,
    delta_is_product_of_contributions smallCurve 3 Contribution.zero smallSRS smallQAP
      smallSeed _ rfl _⟩

/-- C7 at `smallSRS` and `smallQAP`. -/
theorem preparePhase2_L_and_VKK_witness :
    (1 ≤ smallSRS.Parameters.G1.AlphaTau.length ∧
      2 * smallSRS.Parameters.G1.AlphaTau.length - 1 ≤ smallSRS.Parameters.G1.Tau.length ∧
      smallQAP.NConstraints ≤ (smallSRS.Parameters.G1.AlphaTau.length : Int) ∧
      smallQAP.WellFormed ∧ LagrangeLengths smallCurve smallSRS) ∧
    ∃ c2' evals, PreparePhase2 smallCurve 3 Contribution.zero smallSRS smallQAP
        = (c2', .ok evals) ∧
      (∀ i, i < smallQAP.NWires.toNat →
        (if (i : Int) < smallQAP.NPublic then evals.G1.VKK[i]?
          else c2'.Parameters.G1.L[i - smallQAP.NPublic.toNat]?) =
        some (specDot (smallQAP.A.getD i [])
            (smallCurve.LagrangeCoeffsG1 smallSRS.Parameters.G1.BetaTau
              smallSRS.Parameters.G1.AlphaTau.length) smallQAP.NConstraints.toNat
          + specDot (smallQAP.B.getD i [])
            (smallCurve.LagrangeCoeffsG1 smallSRS.Parameters.G1.AlphaTau
              smallSRS.Parameters.G1.AlphaTau.length) smallQAP.NConstraints.toNat
          + specDot (smallQAP.C.getD i [])
            (smallCurve.LagrangeCoeffsG1 smallSRS.Parameters.G1.Tau
              smallSRS.Parameters.G1.AlphaTau.length) smallQAP.NConstraints.toNat)) ∧
      ((List.range smallQAP.NWires.toNat).map (wireSlot smallQAP)).Nodup ∧
      (∀ j, j < evals.G1.VKK.length →
        Slot.VKK (j : Int) ∈ (List.range smallQAP.NWires.toNat).map (wireSlot smallQAP)) ∧
      (∀ j, j < c2'.Parameters.G1.L.length →
        Slot.L (j : Int) ∈ (List.range smallQAP.NWires.toNat).map (wireSlot smallQAP)) :=
  ⟨⟨by decide, by decide, by decide, by decide, by decide⟩,
    preparePhase2_L_and_VKK smallCurve 3 Contribution.zero smallSRS smallQAP (by decide)
      (by decide) (by decide) (by decide) (by decide)⟩

/-! ## `Verify` on the result of `Contribute` -/

theorem challenge_Contribute (lib : Curve Fr G₁ G₂ Gt) (delta : Fr) (sg : G₁)
    (c prev : Contribution G₁ G₂) :
    challenge lib (Contribute lib delta sg c prev) prev
      = lib.HashToG2 (prev.Hash ++ [1] ++ lib.encodeG1 sg ++ lib.encodeG1 (delta • sg)) := rfl

theorem checkKoE_Contribute [DecidableEq Gt] (lib : Curve Fr G₁ G₂ Gt) (delta : Fr) (sg : G₁)
    (c prev : Contribution G₁ G₂) :
    checkKoE lib (Contribute lib delta sg c prev) prev = true := by
  unfold checkKoE
  rw [decide_eq_true_eq, challenge_Contribute, Contribute_PublicKey]
  simp only [utils.GenPublicKey, map_smul, LinearMap.smul_apply]

theorem checkDeltaConsistency_Contribute [DecidableEq Gt] (lib : Curve Fr G₁ G₂ Gt)
    (delta : Fr) (sg : G₁) (c prev : Contribution G₁ G₂)
    (hprev : lib.e prev.Parameters.G1.Delta lib.g2 = lib.e lib.g1 prev.Parameters.G2.Delta) :
    checkDeltaConsistency lib (Contribute lib delta sg c prev) = true := by
  unfold checkDeltaConsistency
  rw [decide_eq_true_eq, Contribute_G1Delta, Contribute_G2Delta]
  simp only [map_smul, LinearMap.smul_apply, hprev]

theorem zip_map_all {α : Type} (f : α → α) (P : α × α → Bool) (h : ∀ x, P (f x, x) = true) :
    ∀ l : List α, (List.zip (l.map f) l).all P = true := by
  intro l
  induction l with
  | nil => rfl
  | cons x l ih => simp [List.all_cons, h x, ih]

theorem checkInverseScaling_Contribute [DecidableEq Gt] (lib : Curve Fr G₁ G₂ Gt)
    (delta : Fr) (hd : delta ≠ 0) (sg : G₁) (c prev : Contribution G₁ G₂)
    (xs : List G₁) :
    checkInverseScaling lib (xs.map (fun p => delta⁻¹ • p)) xs
      (Contribute lib delta sg c prev) prev = true := by
  unfold checkInverseScaling
  apply zip_map_all
  intro x
  rw [decide_eq_true_eq, Contribute_G2Delta]
  exact pairing_inv_smul lib delta hd x _

theorem checkDeltaRatio_Contribute [DecidableEq Gt] (lib : Curve Fr G₁ G₂ Gt) (delta : Fr)
    (sg : G₁) (c prev : Contribution G₁ G₂) :
    checkDeltaRatio lib (Contribute lib delta sg c prev) prev = true := by
  unfold checkDeltaRatio
  rw [decide_eq_true_eq, challenge_Contribute, Contribute_G1Delta, Contribute_PublicKey]
  simp only [utils.GenPublicKey, map_smul, LinearMap.smul_apply]

/-- On two separate objects, with `δ ≠ 0` and a `prev` whose two `Delta`s are consistent,
`Verify` accepts what `Contribute` writes. -/
theorem Verify_Contribute [DecidableEq Gt] (lib : Curve Fr G₁ G₂ Gt) (delta : Fr)
    (hd : delta ≠ 0) (sg : G₁) (c prev : Contribution G₁ G₂)
    (hprev : lib.e prev.Parameters.G1.Delta lib.g2 = lib.e lib.g1 prev.Parameters.G2.Delta) :
    Verify lib (Contribute lib delta sg c prev) prev = .ok () := by
  have hZ : checkInverseScaling lib (Contribute lib delta sg c prev).Parameters.G1.Z
      prev.Parameters.G1.Z (Contribute lib delta sg c prev) prev = true := by
    rw [Contribute_Z]; exact checkInverseScaling_Contribute lib delta hd sg c _ _
  have hL : checkInverseScaling lib (Contribute lib delta sg c prev).Parameters.G1.L
      prev.Parameters.G1.L (Contribute lib delta sg c prev) prev = true := by
    rw [Contribute_L]; exact checkInverseScaling_Contribute lib delta hd sg c _ _
  unfold Verify
  rw [checkKoE_Contribute, checkDeltaConsistency_Contribute lib delta sg c prev hprev,
    checkDeltaRatio_Contribute, hZ, hL]
  rfl

/-- The equation that spec 4.7 prints for step 3,
`e(c.G1.Delta − prev.G1.Delta, r) = e(pk.sxg − pk.sg, c.G2.Delta)`, on the contribution made
from `smallSeed` with `δ = 2` by a receiver other than `prev`: the two sides are `15` and
`6`. -/
theorem printed_ratio_equation_fails :
    smallCurve.e
        ((Contribute smallCurve 2 3 Contribution.zero smallSeed).Parameters.G1.Delta
          - smallSeed.Parameters.G1.Delta)
        (challenge smallCurve (Contribute smallCurve 2 3 Contribution.zero smallSeed) smallSeed)
      ≠ smallCurve.e
        ((Contribute smallCurve 2 3 Contribution.zero smallSeed).PublicKey.SXG
          - (Contribute smallCurve 2 3 Contribution.zero smallSeed).PublicKey.SG)
        (Contribute smallCurve 2 3 Contribution.zero smallSeed).Parameters.G2.Delta := by
  decide

/-! ## Evaluation at `τ` -/

theorem eval_wire_polynomial (Lb : ℕ → Polynomial Fr) (row : List Fr) (k : Nat) (τ : Fr) :
    (∑ j in Finset.range k, Polynomial.C (row.getD j 0) * Lb j).eval τ
      = ∑ j in Finset.range k, row.getD j 0 * (Lb j).eval τ := by
  simp [Polynomial.eval_finset_sum]

theorem specDot_scaled_basis {G : Type} [AddCommGroup G] [Module Fr G] (row : List Fr)
    (f : Nat → Fr) (base : G) (n k : Nat) (hk : k ≤ n) :
    specDot row ((List.range n).map (fun j => f j • base)) k
      = (∑ j in Finset.range k, row.getD j 0 * f j) • base := by
  unfold specDot
  rw [Finset.sum_smul]
  apply Finset.sum_congr rfl
  intro j hj
  have hj' : j < n := lt_of_lt_of_le (Finset.mem_range.mp hj) hk
  have : ((List.range n).map (fun j => f j • base)).getD j 0 = f j • base := by
    simp [List.getD_eq_getElem?_getD, List.getElem?_map, List.getElem?_range hj']
  rw [this, smul_smul]

/-- C8. Let `c1` hold `[τʲ]₁`, `[τʲ]₂`, `[ατʲ]₁`, `[βτʲ]₁` for `j < n`, and let the Lagrange
primitive send the first `n` powers of `τ` times a base point to the values `Lⱼ(τ)` times
that base. With `A_i(X) = Σ_{j<NConstraints} A[i][j]·Lⱼ(X)`, and likewise `B_i`, `C_i`,
`PreparePhase2` returns `evals.G1.A[i] = [A_i(τ)]₁`, `evals.G1.B[i] = [B_i(τ)]₁`,
`evals.G2.B[i] = [B_i(τ)]₂`, and stores `[β·A_i(τ) + α·B_i(τ) + C_i(τ)]₁` in
`evals.G1.VKK[i]` for `i < NPublic` and in `c2.G1.L[i − NPublic]` otherwise. -/
theorem preparePhase2_evaluates_at_tau (lib : Curve Fr G₁ G₂ Gt) (sg : G₁)
    (c2 : Contribution G₁ G₂) (c1 : phase1.Contribution G₁ G₂) (qap : QAP Fr)
    (τ α β : Fr) (Lb : ℕ → Polynomial Fr)
    (hn : 1 ≤ c1.Parameters.G1.AlphaTau.length)
    (htau : 2 * c1.Parameters.G1.AlphaTau.length - 1 ≤ c1.Parameters.G1.Tau.length)
    (hNC : qap.NConstraints ≤ (c1.Parameters.G1.AlphaTau.length : Int))
    (hwf : qap.WellFormed)
    (hT1 : ∀ j, j < c1.Parameters.G1.AlphaTau.length →
      c1.Parameters.G1.Tau[j]? = some (τ ^ j • lib.g1))
    (hT2 : ∀ j, j < c1.Parameters.G1.AlphaTau.length →
      c1.Parameters.G2.Tau[j]? = some (τ ^ j • lib.g2))
    (hAT : ∀ j, j < c1.Parameters.G1.AlphaTau.length →
      c1.Parameters.G1.AlphaTau[j]? = some ((α * τ ^ j) • lib.g1))
    (hBT : ∀ j, j < c1.Parameters.G1.AlphaTau.length →
      c1.Parameters.G1.BetaTau[j]? = some ((β * τ ^ j) • lib.g1))
    (hL1 : ∀ (base : G₁) (v : List G₁),
      (∀ j, j < c1.Parameters.G1.AlphaTau.length → v[j]? = some (τ ^ j • base)) →
      lib.LagrangeCoeffsG1 v c1.Parameters.G1.AlphaTau.length
        = (List.range c1.Parameters.G1.AlphaTau.length).map (fun j => (Lb j).eval τ • base))
    (hL2 : ∀ (base : G₂) (v : List G₂),
      (∀ j, j < c1.Parameters.G1.AlphaTau.length → v[j]? = some (τ ^ j • base)) →
      lib.LagrangeCoeffsG2 v c1.Parameters.G1.AlphaTau.length
        = (List.range c1.Parameters.G1.AlphaTau.length).map (fun j => (Lb j).eval τ • base)) :
    ∃ c2' evals, PreparePhase2 lib sg c2 c1 qap = (c2', .ok evals) ∧
      ∀ i, i < qap.NWires.toNat →
        evals.G1.A[i]? = some
          ((∑ j in Finset.range qap.NConstraints.toNat,
              Polynomial.C ((qap.A.getD i []).getD j 0) * Lb j).eval τ • lib.g1) ∧
        evals.G1.B[i]? = some
          ((∑ j in Finset.range qap.NConstraints.toNat,
              Polynomial.C ((qap.B.getD i []).getD j 0) * Lb j).eval τ • lib.g1) ∧
        evals.G2.B[i]? = some
          ((∑ j in Finset.range qap.NConstraints.toNat,
              Polynomial.C ((qap.B.getD i []).getD j 0) * Lb j).eval τ • lib.g2) ∧
        (if (i : Int) < qap.NPublic then evals.G1.VKK[i]?
          else c2'.Parameters.G1.L[i - qap.NPublic.toNat]?) = some
          ((β * (∑ j in Finset.range qap.NConstraints.toNat,
                  Polynomial.C ((qap.A.getD i []).getD j 0) * Lb j).eval τ
            + α * (∑ j in Finset.range qap.NConstraints.toNat,
                  Polynomial.C ((qap.B.getD i []).getD j 0) * Lb j).eval τ
            + (∑ j in Finset.range qap.NConstraints.toNat,
                  Polynomial.C ((qap.C.getD i []).getD j 0) * Lb j).eval τ) • lib.g1) := by
  have e1 := hL1 lib.g1 c1.Parameters.G1.Tau hT1
  have e2 := hL2 lib.g2 c1.Parameters.G2.Tau hT2
  have e3 := hL1 (α • lib.g1) c1.Parameters.G1.AlphaTau
    (fun j hj => by rw [hAT j hj, smul_smul, mul_comm])
  have e4 := hL1 (β • lib.g1) c1.Parameters.G1.BetaTau
    (fun j hj => by rw [hBT j hj, smul_smul, mul_comm])
  have hlag : LagrangeLengths lib c1 := by
    unfold LagrangeLengths
    rw [e1, e2, e3, e4]
    simp
  have hk : qap.NConstraints.toNat ≤ c1.Parameters.G1.AlphaTau.length := by
    have := hwf.1
    omega
  obtain ⟨c2', evals, h⟩ := PreparePhase2_ok lib sg c2 c1 qap hn htau hNC hwf hlag
  refine ⟨c2', evals, h, ?_⟩
  intro i hi
  obtain ⟨hA, hB, hB2⟩ := PreparePhase2_evals_AB lib sg c2 c1 qap c2' evals h
    hwf.2.2.2.2.2.2.1 hwf.2.2.2.2.2.2.2.1 i hi
  have hV := PreparePhase2_L_VKK lib sg c2 c1 qap c2' evals h
    hwf.2.2.2.2.2.2.1 hwf.2.2.2.2.2.2.2.1 hwf.2.2.2.2.2.2.2.2 i hi
  rw [e1, specDot_scaled_basis _ _ _ _ _ hk] at hA hB
  rw [e2, specDot_scaled_basis _ _ _ _ _ hk] at hB2
  rw [e1, e3, e4, specDot_scaled_basis _ _ _ _ _ hk, specDot_scaled_basis _ _ _ _ _ hk,
    specDot_scaled_basis _ _ _ _ _ hk] at hV
  simp only [eval_wire_polynomial]
  refine ⟨hA, hB, hB2, ?_⟩
  rw [hV]
  congr 1
  simp only [smul_smul, add_smul]
  congr 2 <;> rw [mul_comm]

/-- The transform `smallLagrange` at `n = 2` sends `[base, 2·base, …]` to the values at `τ = 2` of the
Lagrange basis `9·(X + 1)`, `9·(1 − X)` of the subgroup `{1, −1}` of `ZMod 17`, times
`base`. -/
theorem smallLagrange_basis (base : ZMod 17) (v : List (ZMod 17))
    (hv : ∀ j, j < 2 → v[j]? = some ((2 : ZMod 17) ^ j • base)) :
    smallLagrange v 2 = (List.range 2).map (fun j =>
      ((fun j : ℕ => if j = 0 then (Polynomial.C 9 * (Polynomial.X + 1) : Polynomial (ZMod 17))
          else Polynomial.C 9 * (1 - Polynomial.X)) j).eval 2 • base) := by
  have h0 := hv 0 (by decide)
  have h1 := hv 1 (by decide)
  have g0 : v.getD 0 0 = base := by
    simp [List.getD_eq_getElem?_getD, h0]
  have g1 : v.getD 1 0 = 2 * base := by
    simp [List.getD_eq_getElem?_getD, h1]
  unfold smallLagrange
  simp only [List.range_succ, List.range_zero, List.nil_append, List.map_cons, List.map_nil,
    List.cons_append, List.sum_cons, List.sum_nil, g0, g1, if_true, one_ne_zero, if_false,
    Polynomial.eval_mul, Polynomial.eval_C, Polynomial.eval_add, Polynomial.eval_sub,
    Polynomial.eval_X, Polynomial.eval_one, smul_eq_mul]
  clear hv h0 h1 g0 g1
  revert base
  decide

/-- C8 at `smallSRS` (`τ = 2`, `α = 3`, `β = 5`, `n = 2`) and `smallQAP`, with the Lagrange
basis `9·(X + 1)`, `9·(1 − X)` of the subgroup `{1, −1}`. -/
theorem preparePhase2_evaluates_at_tau_witness :
    (1 ≤ smallSRS.Parameters.G1.AlphaTau.length ∧
      2 * smallSRS.Parameters.G1.AlphaTau.length - 1 ≤ smallSRS.Parameters.G1.Tau.length ∧
      smallQAP.NConstraints ≤ (smallSRS.Parameters.G1.AlphaTau.length : Int) ∧
      smallQAP.WellFormed ∧
      (∀ j, j < 2 → smallSRS.Parameters.G1.Tau[j]? = some ((2 : ZMod 17) ^ j • smallCurve.g1)) ∧
      (∀ j, j < 2 → smallSRS.Parameters.G2.Tau[j]? = some ((2 : ZMod 17) ^ j • smallCurve.g2)) ∧
      (∀ j, j < 2 →
        smallSRS.Parameters.G1.AlphaTau[j]? = some (((3 : ZMod 17) * 2 ^ j) • smallCurve.g1)) ∧
      (∀ j, j < 2 →
        smallSRS.Parameters.G1.BetaTau[j]? = some (((5 : ZMod 17) * 2 ^ j) • smallCurve.g1)) ∧
      (∀ (base : ZMod 17) (v : List (ZMod 17)),
        (∀ j, j < 2 → v[j]? = some ((2 : ZMod 17) ^ j • base)) →
        smallCurve.LagrangeCoeffsG1 v 2 = (List.range 2).map (fun j =>
          ((fun j : ℕ => if j = 0 then (Polynomial.C 9 * (Polynomial.X + 1) : Polynomial (ZMod 17))
              else Polynomial.C 9 * (1 - Polynomial.X)) j).eval 2 • base)) ∧
      (∀ (base : ZMod 17) (v : List (ZMod 17)),
        (∀ j, j < 2 → v[j]? = some ((2 : ZMod 17) ^ j • base)) →
        smallCurve.LagrangeCoeffsG2 v 2 = (List.range 2).map (fun j =>
          ((fun j : ℕ => if j = 0 then (Polynomial.C 9 * (Polynomial.X + 1) : Polynomial (ZMod 17))
              else Polynomial.C 9 * (1 - Polynomial.X)) j).eval 2 • base))) ∧
    ∃ c2' evals, PreparePhase2 smallCurve 3 Contribution.zero smallSRS smallQAP
        = (c2', .ok evals) ∧
      ∀ i, i < smallQAP.NWires.toNat →
        evals.G1.A[i]? = some
          ((∑ j in Finset.range smallQAP.NConstraints.toNat,
              Polynomial.C ((smallQAP.A.getD i []).getD j 0) *
                (fun j : ℕ => if j = 0 then (Polynomial.C 9 * (Polynomial.X + 1) : Polynomial (ZMod 17))
                  else Polynomial.C 9 * (1 - Polynomial.X)) j).eval 2 • smallCurve.g1) ∧
        evals.G1.B[i]? = some
          ((∑ j in Finset.range smallQAP.NConstraints.toNat,
              Polynomial.C ((smallQAP.B.getD i []).getD j 0) *
                (fun j : ℕ => if j = 0 then (Polynomial.C 9 * (Polynomial.X + 1) : Polynomial (ZMod 17))
                  else Polynomial.C 9 * (1 - Polynomial.X)) j).eval 2 • smallCurve.g1) ∧
        evals.G2.B[i]? = some
          ((∑ j in Finset.range smallQAP.NConstraints.toNat,
              Polynomial.C ((smallQAP.B.getD i []).getD j 0) *
                (fun j : ℕ => if j = 0 then (Polynomial.C 9 * (Polynomial.X + 1) : Polynomial (ZMod 17))
                  else Polynomial.C 9 * (1 - Polynomial.X)) j).eval 2 • smallCurve.g2) ∧
        (if (i : Int) < smallQAP.NPublic then evals.G1.VKK[i]?
          else c2'.Parameters.G1.L[i - smallQAP.NPublic.toNat]?) = some
          (((5 : ZMod 17) * (∑ j in Finset.range smallQAP.NConstraints.toNat,
                  Polynomial.C ((smallQAP.A.getD i []).getD j 0) *
                    (fun j : ℕ => if j = 0 then (Polynomial.C 9 * (Polynomial.X + 1) : Polynomial (ZMod 17))
                      else Polynomial.C 9 * (1 - Polynomial.X)) j).eval 2
            + (3 : ZMod 17) * (∑ j in Finset.range smallQAP.NConstraints.toNat,
                  Polynomial.C ((smallQAP.B.getD i []).getD j 0) *
                    (fun j : ℕ => if j = 0 then (Polynomial.C 9 * (Polynomial.X + 1) : Polynomial (ZMod 17))
                      else Polynomial.C 9 * (1 - Polynomial.X)) j).eval 2
            + (∑ j in Finset.range smallQAP.NConstraints.toNat,
                  Polynomial.C ((smallQAP.C.getD i []).getD j 0) *
                    (fun j : ℕ => if j = 0 then (Polynomial.C 9 * (Polynomial.X + 1) : Polynomial (ZMod 17))
                      else Polynomial.C 9 * (1 - Polynomial.X)) j).eval 2) • smallCurve.g1) :=
  ⟨⟨by decide, by decide, by decide, by decide, by decide, by decide, by decide, by decide,
      smallLagrange_basis, smallLagrange_basis⟩,
    preparePhase2_evaluates_at_tau smallCurve 3 Contribution.zero smallSRS smallQAP 2 3 5
      (fun j : ℕ => if j = 0 then (Polynomial.C 9 * (Polynomial.X + 1) : Polynomial (ZMod 17)) else Polynomial.C 9 * (1 - Polynomial.X))
      (by decide) (by decide) (by decide) (by decide) (by decide) (by decide) (by decide)
      (by decide) smallLagrange_basis smallLagrange_basis⟩

end phase2

namespace phase2
variable {Fr G₁ G₂ Gt : Type} [Field Fr] [AddCommGroup G₁] [Module Fr G₁]
  [AddCommGroup G₂] [Module Fr G₂] [AddCommGroup Gt] [Module Fr Gt]

/-! ## Transcript hashing -/

/-- C11. The digest `HashContribution(c)` is SHA-256 of the concatenation, in this order, of
the encodings of `PublicKey.SG`, `PublicKey.SXG`, `PublicKey.XR`, `G1.Delta`, the slice
`G1.L`, the slice `G1.Z` and `G2.Delta`; the field `Hash` is not fed to the hash: replacing
it by any other value leaves the digest as it is. -/
theorem hashContribution_input (lib : Curve Fr G₁ G₂ Gt) (c : Contribution G₁ G₂) :
    HashContribution lib c
      = lib.sha256 (lib.encodeG1 c.PublicKey.SG ++ lib.encodeG1 c.PublicKey.SXG
          ++ lib.encodeG2 c.PublicKey.XR ++ lib.encodeG1 c.Parameters.G1.Delta
          ++ lib.encodeG1Slice c.Parameters.G1.L ++ lib.encodeG1Slice c.Parameters.G1.Z
          ++ lib.encodeG2 c.Parameters.G2.Delta) ∧
    ∀ h : List Nat, HashContribution lib { c with Hash := h } = HashContribution lib c := by
  constructor
  · simp [HashContribution]
  · intro h; rfl

theorem Contribute_Hash (lib : Curve Fr G₁ G₂ Gt) (delta : Fr) (sg : G₁)
    (c prev : Contribution G₁ G₂) :
    (Contribute lib delta sg c prev).Hash
      = HashContribution lib (Contribute lib delta sg c prev) := rfl

theorem PreparePhase2_Hash (lib : Curve Fr G₁ G₂ Gt) (sg : G₁) (c2 : Contribution G₁ G₂)
    (c1 : phase1.Contribution G₁ G₂) (qap : QAP Fr) (c2' : Contribution G₁ G₂)
    (evals : Evaluations G₁ G₂) (h : PreparePhase2 lib sg c2 c1 qap = (c2', .ok evals)) :
    c2'.Hash = HashContribution lib c2' ∧
    c2'.PublicKey = utils.GenPublicKey lib sg 1 [] 1 := by
  obtain ⟨_, ev0, z, s, _, _, _, _, _, _, _, _, _, _, hpk, hh⟩ :=
    PreparePhase2_inv lib sg c2 c1 qap c2' evals h
  exact ⟨hh, hpk⟩

/-- C12. Both Phase-2 constructors seal their result: the `Hash` stored by an accepted
`PreparePhase2` and the `Hash` stored by `Contribute` equal `HashContribution` of the
contribution as it is after the call. -/
theorem constructors_seal_hash (lib : Curve Fr G₁ G₂ Gt) (sg₀ : G₁) (c2 : Contribution G₁ G₂)
    (c1 : phase1.Contribution G₁ G₂) (qap : QAP Fr) (seed : Contribution G₁ G₂)
    (evals : Evaluations G₁ G₂) (h : PreparePhase2 lib sg₀ c2 c1 qap = (seed, .ok evals))
    (delta : Fr) (sg : G₁) (c prev : Contribution G₁ G₂) :
    seed.Hash = HashContribution lib seed ∧
    (Contribute lib delta sg c prev).Hash
      = HashContribution lib (Contribute lib delta sg c prev) :=
  ⟨(PreparePhase2_Hash lib sg₀ c2 c1 qap seed evals h).1, Contribute_Hash lib delta sg c prev⟩

/-- C12 at `smallSeed` and at the contribution made from it with `δ = 2`. -/
theorem constructors_seal_hash_witness :
    PreparePhase2 smallCurve 3 Contribution.zero smallSRS smallQAP
      = (smallSeed,
          .ok { G1 := { A := [9, 11, 13], B := [10, 8, 2], VKK := [5] },
                G2 := { B := [10, 8, 2] } }) ∧
    smallSeed.Hash = HashContribution smallCurve smallSeed ∧
    (Contribute smallCurve 2 3 Contribution.zero smallSeed).Hash
      = HashContribution smallCurve (Contribute smallCurve 2 3 Contribution.zero smallSeed) :=
  ⟨rfl, constructors_seal_hash smallCurve 3 Contribution.zero smallSRS smallQAP smallSeed _
    rfl 2 3 Contribution.zero smallSeed⟩

end phase2

section Panics
variable {α β σ : Type}

theorem Except.bind_error_of (P : String → Prop) (x : Except String α)
    (f : α → Except String β) (hx : ∀ m, x = .error m → P m)
    (hf : ∀ a m, f a = .error m → P m) : ∀ m, (x >>= f) = .error m → P m := by
  intro m h
  cases x with
  | error e =>
    simp only [bind, Except.bind, Except.error.injEq] at h
    subst h
    exact hx e rfl
  | ok a => exact hf a m h

theorem forRange_error_of (P : String → Prop) (body : Nat → σ → Except String σ)
    (hbody : ∀ i s m, body i s = .error m → P m) :
    ∀ (is : List Nat) (s s' : σ) (m : String), forRange body is s = (s', some m) → P m := by
  intro is
  induction is with
  | nil => intro s s' m h; simp [forRange] at h
  | cons i is ih =>
    intro s s' m h
    simp only [forRange] at h
    cases hb : body i s with
    | error e =>
      rw [hb] at h
      simp only [Prod.mk.injEq, Option.some.injEq] at h
      rw [← h.2]; exact hbody i s e hb
    | ok t =>
      rw [hb] at h
      exact ih t s' m h

/-- The run-time panics of the slice operations differ from the panic of the guard of
`PreparePhase2`. -/
theorem readIdx_error_ne (xs : List α) (i : Int) :
    ∀ m, readIdx xs i = .error m → m ≠ "Number of constraints is larger than expected" := by
  intro m h
  unfold readIdx at h
  split at h
  · cases h; decide
  · split at h
    · cases h
    · cases h; decide

theorem writeIdx_error_ne (xs : List α) (i : Int) (v : α) :
    ∀ m, writeIdx xs i v = .error m →
      m ≠ "Number of constraints is larger than expected" := by
  intro m h
  unfold writeIdx at h
  split at h
  · cases h
  · cases h; decide

theorem sliceTo_error_ne (xs : List α) (k : Int) :
    ∀ m, sliceTo xs k = .error m → m ≠ "Number of constraints is larger than expected" := by
  intro m h
  unfold sliceTo at h
  split at h
  · cases h
  · cases h; decide

theorem makeSlice_error_ne [Zero α] (k : Int) :
    ∀ m, (makeSlice k : Except String (List α)) = .error m →
      m ≠ "Number of constraints is larger than expected" := by
  intro m h
  unfold makeSlice at h
  split at h
  · cases h; decide
  · cases h

end Panics

namespace phase2
variable {Fr G₁ G₂ Gt : Type} [Field Fr] [AddCommGroup G₁] [Module Fr G₁]
  [AddCommGroup G₂] [Module Fr G₂] [AddCommGroup Gt] [Module Fr Gt]

/-! ## The guard of `PreparePhase2` -/

theorem pure_error_ne {α : Type} (a : α) :
    ∀ m, (pure a : Except String α) = .error m →
      m ≠ "Number of constraints is larger than expected" := by
  intro m h
  simp [pure, Except.pure] at h

theorem evalABBody_error_ne (qap : QAP Fr) (cT1 : List G₁) (cT2 : List G₂) (i : Nat)
    (ev : Evaluations G₁ G₂) :
    ∀ m, evalABBody qap cT1 cT2 i ev = .error m →
      m ≠ "Number of constraints is larger than expected" := by
  unfold evalABBody
  refine Except.bind_error_of _ _ _ (readIdx_error_ne _ _) (fun a => ?_)
  refine Except.bind_error_of _ _ _ (sliceTo_error_ne _ _) (fun t1 => ?_)
  refine Except.bind_error_of _ _ _ (writeIdx_error_ne _ _ _) (fun eA => ?_)
  refine Except.bind_error_of _ _ _ (readIdx_error_ne _ _) (fun b => ?_)
  refine Except.bind_error_of _ _ _ (sliceTo_error_ne _ _) (fun t1' => ?_)
  refine Except.bind_error_of _ _ _ (writeIdx_error_ne _ _ _) (fun eB => ?_)
  refine Except.bind_error_of _ _ _ (readIdx_error_ne _ _) (fun b' => ?_)
  refine Except.bind_error_of _ _ _ (sliceTo_error_ne _ _) (fun t2 => ?_)
  refine Except.bind_error_of _ _ _ (writeIdx_error_ne _ _ _) (fun eB2 => ?_)
  exact pure_error_ne _

theorem combinedWire_error_ne (qap : QAP Fr) (cB cA cT : List G₁) (i : Nat) :
    ∀ m, combinedWire qap cB cA cT i = .error m →
      m ≠ "Number of constraints is larger than expected" := by
  unfold combinedWire
  refine Except.bind_error_of _ _ _ (readIdx_error_ne _ _) (fun a => ?_)
  refine Except.bind_error_of _ _ _ (sliceTo_error_ne _ _) (fun sb => ?_)
  refine Except.bind_error_of _ _ _ (readIdx_error_ne _ _) (fun b => ?_)
  refine Except.bind_error_of _ _ _ (sliceTo_error_ne _ _) (fun sa => ?_)
  refine Except.bind_error_of _ _ _ (readIdx_error_ne _ _) (fun c => ?_)
  refine Except.bind_error_of _ _ _ (sliceTo_error_ne _ _) (fun st => ?_)
  exact pure_error_ne _

theorem writeSlot_error_ne (s : List G₁ × List G₁) (d : Slot) (res : G₁) :
    ∀ m, writeSlot s d res = .error m →
      m ≠ "Number of constraints is larger than expected" := by
  intro m h
  unfold writeSlot at h
  cases d with
  | VKK j =>
    simp only at h
    cases hw : writeIdx s.2 j res with
    | error e => rw [hw] at h; cases h; exact writeIdx_error_ne _ _ _ _ hw
    | ok v => rw [hw] at h; cases h
  | L j =>
    simp only at h
    cases hw : writeIdx s.1 j res with
    | error e => rw [hw] at h; cases h; exact writeIdx_error_ne _ _ _ _ hw
    | ok v => rw [hw] at h; cases h

theorem evalLBody_error_ne (qap : QAP Fr) (cB cA cT : List G₁) (i : Nat)
    (s : List G₁ × List G₁) :
    ∀ m, evalLBody qap cB cA cT i s = .error m →
      m ≠ "Number of constraints is larger than expected" := by
  unfold evalLBody
  exact Except.bind_error_of _ _ _ (combinedWire_error_ne _ _ _ _ _)
    (fun res => writeSlot_error_ne _ _ _)

theorem buildZBody_error_ne (tau : List G₁) (n i : Nat) (z : List G₁) :
    ∀ m, buildZBody tau n i z = .error m →
      m ≠ "Number of constraints is larger than expected" := by
  unfold buildZBody
  refine Except.bind_error_of _ _ _ (readIdx_error_ne _ _) (fun a => ?_)
  refine Except.bind_error_of _ _ _ (readIdx_error_ne _ _) (fun b => ?_)
  exact writeIdx_error_ne _ _ _

theorem evalAB_error_ne (qap : QAP Fr) (cT1 : List G₁) (cT2 : List G₂) :
    ∀ m, evalAB qap cT1 cT2 = .error m →
      m ≠ "Number of constraints is larger than expected" := by
  unfold evalAB
  refine Except.bind_error_of _ _ _ (makeSlice_error_ne _) (fun eA => ?_)
  refine Except.bind_error_of _ _ _ (makeSlice_error_ne _) (fun eB => ?_)
  refine Except.bind_error_of _ _ _ (makeSlice_error_ne _) (fun eB2 => ?_)
  intro m h
  simp only at h
  split at h
  · rename_i s' m' hloop
    cases h
    exact forRange_error_of _ _ (fun i s m => evalABBody_error_ne qap cT1 cT2 i s m) _ _ _ _
      hloop
  · cases h

theorem buildZ_error_ne (g1 : G₁) (tau : List G₁) (n : Nat) (z : List G₁) (m : String)
    (h : buildZ g1 tau n = (z, some m)) :
    m ≠ "Number of constraints is larger than expected" := by
  unfold buildZ at h
  simp only at h
  split at h
  · rename_i z' m' hloop
    simp only [Prod.mk.injEq, Option.some.injEq] at h
    rw [← h.2]
    exact forRange_error_of _ _ (fun i s m => buildZBody_error_ne tau n i s m) _ _ _ _ hloop
  · split at h
    · simp at h
    · rename_i e hw
      simp only [Prod.mk.injEq, Option.some.injEq] at h
      rw [← h.2]
      exact writeIdx_error_ne _ _ _ _ hw

/-- Within the guard, `PreparePhase2` does not end with the panic of the guard. -/
theorem PreparePhase2_guard_passed (lib : Curve Fr G₁ G₂ Gt) (sg : G₁)
    (c2 : Contribution G₁ G₂) (c1 : phase1.Contribution G₁ G₂) (qap : QAP Fr)
    (hle : qap.NConstraints ≤ (c1.Parameters.G1.AlphaTau.length : Int)) :
    (PreparePhase2 lib sg c2 c1 qap).2
      ≠ .error "Number of constraints is larger than expected" := by
  have hg : ¬ ((c1.Parameters.G1.AlphaTau.length : Int) < qap.NConstraints) := by omega
  intro h
  unfold PreparePhase2 at h
  simp only [hg, if_false] at h
  split at h
  · rename_i m hev
    simp only [Except.error.injEq] at h
    exact evalAB_error_ne _ _ _ _ hev h
  · split at h
    · rename_i z m hz
      simp only [Except.error.injEq] at h
      exact buildZ_error_ne _ _ _ _ _ hz h
    · split at h
      · rename_i m hm
        simp only [Except.error.injEq] at h
        exact makeSlice_error_ne _ _ hm h
      · split at h
        · rename_i m hm
          simp only [Except.error.injEq] at h
          exact makeSlice_error_ne _ _ hm h
        · split at h
          · rename_i s m hs
            simp only [Except.error.injEq] at h
            exact forRange_error_of _ _ (fun i s m => evalLBody_error_ne qap _ _ _ i s m)
              _ _ _ _ hs h
          · simp at h

theorem PreparePhase2_guard_failed (lib : Curve Fr G₁ G₂ Gt) (sg : G₁)
    (c2 : Contribution G₁ G₂) (c1 : phase1.Contribution G₁ G₂) (qap : QAP Fr)
    (hgt : (c1.Parameters.G1.AlphaTau.length : Int) < qap.NConstraints) :
    PreparePhase2 lib sg c2 c1 qap
      = (c2, .error "Number of constraints is larger than expected") := by
  unfold PreparePhase2
  simp only [hgt, if_true]

/-- C16. When `qap.NConstraints > len(c1.G1.AlphaTau)`, `PreparePhase2` panics with
"Number of constraints is larger than expected", the receiver `c2` is as it was before the
call and no evaluations are returned; when `qap.NConstraints ≤ len(c1.G1.AlphaTau)` the
call does not end with this panic. -/
theorem preparePhase2_guard (lib : Curve Fr G₁ G₂ Gt) (sg : G₁)
    (c2 : Contribution G₁ G₂) (c1 : phase1.Contribution G₁ G₂) (qap : QAP Fr) :
    ((c1.Parameters.G1.AlphaTau.length : Int) < qap.NConstraints →
      PreparePhase2 lib sg c2 c1 qap
        = (c2, .error "Number of constraints is larger than expected")) ∧
    (qap.NConstraints ≤ (c1.Parameters.G1.AlphaTau.length : Int) →
      (PreparePhase2 lib sg c2 c1 qap).2
        ≠ .error "Number of constraints is larger than expected") :=
  ⟨PreparePhase2_guard_failed lib sg c2 c1 qap, PreparePhase2_guard_passed lib sg c2 c1 qap⟩

/-- C16 at `smallSRS` (`n = 2`): with three constraints the call panics and leaves
`smallSeed` as the receiver, with two constraints it does not end with this panic. -/
theorem preparePhase2_guard_witness :
    PreparePhase2 smallCurve 3 smallSeed smallSRS { smallQAP with NConstraints := 3 }
      = (smallSeed, .error "Number of constraints is larger than expected") ∧
    (PreparePhase2 smallCurve 3 smallSeed smallSRS smallQAP).2
      ≠ .error "Number of constraints is larger than expected" :=
  ⟨(preparePhase2_guard smallCurve 3 smallSeed smallSRS
      { smallQAP with NConstraints := 3 }).1 (by decide),
    (preparePhase2_guard smallCurve 3 smallSeed smallSRS smallQAP).2 (by decide)⟩

end phase2

namespace phase2
variable {Fr G₁ G₂ Gt : Type} [Field Fr] [AddCommGroup G₁] [Module Fr G₁]
  [AddCommGroup G₂] [Module Fr G₂] [AddCommGroup Gt] [Module Fr Gt]

/-! ## Independence of the evaluations -/

/-- The outcome of `PreparePhase2`, evaluations or panic, does not depend on the sampled
point nor on the receiver. -/
theorem PreparePhase2_outcome_indep (lib : Curve Fr G₁ G₂ Gt) (sg sg' : G₁)
    (c2 c2' : Contribution G₁ G₂) (c1 : phase1.Contribution G₁ G₂) (qap : QAP Fr) :
    (PreparePhase2 lib sg c2 c1 qap).2 = (PreparePhase2 lib sg' c2' c1 qap).2 := by
  unfold PreparePhase2
  simp only
  split
  · rfl
  · split
    · rfl
    · split
      · rfl
      · split
        · rfl
        · split
          · rfl
          · split
            · rfl
            · rfl

/-- The parameters of the seed of an accepted call do not depend on the sampled point nor
on the receiver. -/
theorem PreparePhase2_Parameters_indep (lib : Curve Fr G₁ G₂ Gt) (sg sg' : G₁)
    (c2 c2' : Contribution G₁ G₂) (c1 : phase1.Contribution G₁ G₂) (qap : QAP Fr)
    (s1 s2 : Contribution G₁ G₂) (e1 e2 : Evaluations G₁ G₂)
    (h1 : PreparePhase2 lib sg c2 c1 qap = (s1, .ok e1))
    (h2 : PreparePhase2 lib sg' c2' c1 qap = (s2, .ok e2)) :
    s1.Parameters = s2.Parameters := by
  obtain ⟨_, ev, z, s, hev, hz, _, _, hs, _, a1, a2, a3, a4, _⟩ :=
    PreparePhase2_inv lib sg c2 c1 qap s1 e1 h1
  obtain ⟨_, ev', z', s', hev', hz', _, _, hs', _, b1, b2, b3, b4, _⟩ :=
    PreparePhase2_inv lib sg' c2' c1 qap s2 e2 h2
  have hzz : z = z' := by
    have := hz.symm.trans hz'
    simpa using this
  have hss : s = s' := by
    have := hs.symm.trans hs'
    simpa using this
  rcases s1 with ⟨⟨⟨d1, l1, z1⟩, ⟨d2⟩⟩, pk1, hash1⟩
  rcases s2 with ⟨⟨⟨d1', l1', z1'⟩, ⟨d2'⟩⟩, pk2, hash2⟩
  simp only at a1 a2 a3 a4 b1 b2 b3 b4
  subst a1 a2 a3 a4 b1 b2 b3 b4
  rw [hzz, hss]

/-- C17. Two runs of `PreparePhase2` on the same `c1` and QAP return the same evaluations
(or the same panic) whatever point the public-key generation samples and whatever the
receiver holds, and the seeds of two accepted runs have the same `Delta`, `Z` and `L`. -/
theorem evaluations_independent_of_randomness (lib : Curve Fr G₁ G₂ Gt) (sg sg' : G₁)
    (c2 c2' : Contribution G₁ G₂) (c1 : phase1.Contribution G₁ G₂) (qap : QAP Fr) :
    (PreparePhase2 lib sg c2 c1 qap).2 = (PreparePhase2 lib sg' c2' c1 qap).2 ∧
    ∀ (s1 : Contribution G₁ G₂) (e1 : Evaluations G₁ G₂),
      PreparePhase2 lib sg c2 c1 qap = (s1, .ok e1) →
      ∃ s2, PreparePhase2 lib sg' c2' c1 qap = (s2, .ok e1) ∧
        s2.Parameters = s1.Parameters := by
  refine ⟨PreparePhase2_outcome_indep lib sg sg' c2 c2' c1 qap, ?_⟩
  intro s1 e1 h1
  have h2 : (PreparePhase2 lib sg' c2' c1 qap).2 = .ok e1 := by
    rw [← PreparePhase2_outcome_indep lib sg sg' c2 c2' c1 qap, h1]
  refine ⟨(PreparePhase2 lib sg' c2' c1 qap).1, Prod.ext rfl h2, ?_⟩
  exact (PreparePhase2_Parameters_indep lib sg sg' c2 c2' c1 qap s1 _ e1 e1 h1
    (Prod.ext rfl h2)).symm

/-- C17 at `smallSRS` and `smallQAP`: the sampled points `3` and `7` and the receivers
`Contribution.zero` and `smallSeed` give the same evaluations and the same parameters. -/
theorem evaluations_independent_of_randomness_witness :
    (PreparePhase2 smallCurve 3 Contribution.zero smallSRS smallQAP).2
      = (PreparePhase2 smallCurve 7 smallSeed smallSRS smallQAP).2 ∧
    ∃ s2, PreparePhase2 smallCurve 7 smallSeed smallSRS smallQAP
        = (s2, .ok { G1 := { A := [9, 11, 13], B := [10, 8, 2], VKK := [5] },
                     G2 := { B := [10, 8, 2] } }) ∧
      s2.Parameters = smallSeed.Parameters :=
  ⟨(evaluations_independent_of_randomness smallCurve 3 7 Contribution.zero smallSeed
      smallSRS smallQAP).1,
    (evaluations_independent_of_randomness smallCurve 3 7 Contribution.zero smallSeed
      smallSRS smallQAP).2 smallSeed _ rfl⟩

/-! ## Absence of run-time panics -/

/-- The call of `PreparePhase2` returns when `n ≥ 1`, `Tau` has `2n − 1` entries,
`0 ≤ NConstraints ≤ n`, `0 ≤ NPublic ≤ NWires`, `A`, `B`, `C` have `NWires` rows and the
Lagrange vectors have `n` entries. -/
theorem PreparePhase2_returns (lib : Curve Fr G₁ G₂ Gt) (sg : G₁) (c2 : Contribution G₁ G₂)
    (c1 : phase1.Contribution G₁ G₂) (qap : QAP Fr)
    (hn : 1 ≤ c1.Parameters.G1.AlphaTau.length)
    (htau : 2 * c1.Parameters.G1.AlphaTau.length - 1 ≤ c1.Parameters.G1.Tau.length)
    (hNC0 : 0 ≤ qap.NConstraints)
    (hNC : qap.NConstraints ≤ (c1.Parameters.G1.AlphaTau.length : Int))
    (hNP0 : 0 ≤ qap.NPublic) (hNPW : qap.NPublic ≤ qap.NWires)
    (hA : (qap.A.length : Int) = qap.NWires) (hB : (qap.B.length : Int) = qap.NWires)
    (hC : (qap.C.length : Int) = qap.NWires) (hlag : LagrangeLengths lib c1) :
    ∃ c2' evals, PreparePhase2 lib sg c2 c1 qap = (c2', .ok evals) := by
  obtain ⟨hl1, hl2, hl3, hl4⟩ := hlag
  have hNW : 0 ≤ qap.NWires := by omega
  obtain ⟨ev0, hev⟩ := evalAB_ok qap
    (lib.LagrangeCoeffsG1 c1.Parameters.G1.Tau c1.Parameters.G1.AlphaTau.length)
    (lib.LagrangeCoeffsG2 c1.Parameters.G2.Tau c1.Parameters.G1.AlphaTau.length)
    hNW (by omega) (by omega) ⟨hNC0, by omega⟩ ⟨hNC0, by omega⟩
  obtain ⟨z, hz⟩ := buildZ_ok lib.g1 c1.Parameters.G1.Tau c1.Parameters.G1.AlphaTau.length
    hn htau
  obtain ⟨s, hs⟩ := evalL_ok qap hNP0
    (lib.LagrangeCoeffsG1 c1.Parameters.G1.BetaTau c1.Parameters.G1.AlphaTau.length)
    (lib.LagrangeCoeffsG1 c1.Parameters.G1.AlphaTau c1.Parameters.G1.AlphaTau.length)
    (lib.LagrangeCoeffsG1 c1.Parameters.G1.Tau c1.Parameters.G1.AlphaTau.length)
    (List.replicate (qap.NWires - qap.NPublic).toNat 0) (List.replicate qap.NPublic.toNat 0)
    (by simp) (by simp) (by omega) (by omega) (by omega)
    ⟨hNC0, by omega⟩ ⟨hNC0, by omega⟩ ⟨hNC0, by omega⟩
  have hm1 : (makeSlice (qap.NWires - qap.NPublic) : Except String (List G₁))
      = .ok (List.replicate (qap.NWires - qap.NPublic).toNat 0) := by
    rw [makeSlice_eq_ok]; exact ⟨by omega, rfl⟩
  have hm2 : (makeSlice qap.NPublic : Except String (List G₁))
      = .ok (List.replicate qap.NPublic.toNat 0) := by
    rw [makeSlice_eq_ok]; exact ⟨hNP0, rfl⟩
  have hg : ¬ ((c1.Parameters.G1.AlphaTau.length : Int) < qap.NConstraints) := by omega
  unfold PreparePhase2
  simp only [hg, if_false, hev, hz, hm1, hm2, hs]
  exact ⟨_, _, rfl⟩

/-- C20. For `n = len(c1.G1.AlphaTau) ≥ 1`, `len(c1.G1.Tau) ≥ 2n − 1`,
`0 ≤ NConstraints ≤ n`, `0 ≤ NPublic ≤ NWires`, `A`, `B`, `C` of `NWires` rows and Lagrange
vectors of length `n`, `PreparePhase2` runs to its `return`: no index `i+n`, `i`, `n−1`,
`i−NPublic`, no slice bound `[:NConstraints]` is out of range and no `make` has a negative
length. -/
theorem preparePhase2_no_panic (lib : Curve Fr G₁ G₂ Gt) (sg : G₁) (c2 : Contribution G₁ G₂)
    (c1 : phase1.Contribution G₁ G₂) (qap : QAP Fr)
    (hn : 1 ≤ c1.Parameters.G1.AlphaTau.length)
    (htau : 2 * c1.Parameters.G1.AlphaTau.length - 1 ≤ c1.Parameters.G1.Tau.length)
    (hNC0 : 0 ≤ qap.NConstraints)
    (hNC : qap.NConstraints ≤ (c1.Parameters.G1.AlphaTau.length : Int))
    (hNP0 : 0 ≤ qap.NPublic) (hNPW : qap.NPublic ≤ qap.NWires)
    (hA : (qap.A.length : Int) = qap.NWires) (hB : (qap.B.length : Int) = qap.NWires)
    (hC : (qap.C.length : Int) = qap.NWires) (hlag : LagrangeLengths lib c1) :
    ∃ c2' evals, PreparePhase2 lib sg c2 c1 qap = (c2', .ok evals) :=
  PreparePhase2_returns lib sg c2 c1 qap hn htau hNC0 hNC hNP0 hNPW hA hB hC hlag

/-- C20 at `smallSRS` and a QAP whose rows do not all have `NConstraints` entries. -/
theorem preparePhase2_no_panic_witness :
    (1 ≤ smallSRS.Parameters.G1.AlphaTau.length ∧
      2 * smallSRS.Parameters.G1.AlphaTau.length - 1 ≤ smallSRS.Parameters.G1.Tau.length ∧
      (0 : Int) ≤ 2 ∧ (2 : Int) ≤ (smallSRS.Parameters.G1.AlphaTau.length : Int) ∧
      (0 : Int) ≤ 1 ∧ (1 : Int) ≤ 2 ∧ LagrangeLengths smallCurve smallSRS) ∧
    ∃ c2' evals, PreparePhase2 smallCurve 3 Contribution.zero smallSRS
      { NConstraints := 2, NWires := 2, NPublic := 1,
        A := [[1, 2], [3]], B := [[], [4, 5, 6]], C := [[7, 8], [9, 10]] }
      = (c2', .ok evals) :=
  ⟨⟨by decide, by decide, by decide, by decide, by decide, by decide, by decide⟩,
    preparePhase2_no_panic smallCurve 3 Contribution.zero smallSRS
      { NConstraints := 2, NWires := 2, NPublic := 1,
        A := [[1, 2], [3]], B := [[], [4, 5, 6]], C := [[7, 8], [9, 10]] }
      (by decide) (by decide) (by decide) (by decide) (by decide) (by decide) (by decide)
      (by decide) (by decide) (by decide)⟩

end phase2

namespace phase2
variable {Fr G₁ G₂ Gt : Type} [Field Fr] [AddCommGroup G₁] [Module Fr G₁]
  [AddCommGroup G₂] [Module Fr G₂] [AddCommGroup Gt] [Module Fr Gt]

/-! ## `Contribute` on objects in memory -/

/-- A loop whose every iteration writes the object at `c` leaves the other objects as they
are. -/
theorem foldl_update_other {O : Type} (c p : Nat) (hp : p ≠ c)
    (step : (Nat → O) → Nat → O) (is : List Nat) :
    ∀ mem : Nat → O,
      (is.foldl (fun mem i => Function.update mem c (step mem i)) mem) p = mem p := by
  induction is with
  | nil => intro mem; rfl
  | cons i is ih =>
    intro mem
    rw [List.foldl_cons, ih, Function.update_noteq hp]

/-- The scaling loop on the object at `c`, reading the object at `prev ≠ c`: the slice
written is the one that the loop on slices writes. -/
theorem foldl_update_self {O : Type} (c prev : Nat) (hne : prev ≠ c) (get : O → List G₁)
    (put : O → List G₁ → O) (hget : ∀ o z, get (put o z) = z)
    (hput : ∀ o z z', put (put o z) z' = put o z') (hputget : ∀ o, put o (get o) = o)
    (src : O → List G₁) (k : Fr) (is : List Nat) :
    ∀ mem : Nat → O,
      (is.foldl (fun mem i => Function.update mem c
          (put (mem c) ((get (mem c)).set i (k • (src (mem prev)).getD i 0)))) mem) c
        = put (mem c) (is.foldl (fun z i => z.set i (k • (src (mem prev)).getD i 0))
            (get (mem c))) := by
  induction is with
  | nil => intro mem; simp [hputget]
  | cons i is ih =>
    intro mem
    rw [List.foldl_cons, ih]
    simp only [Function.update_same, Function.update_noteq hne, hget, hput, List.foldl_cons]

/-- The method `ContributeInPlace` writes only the object at `c`. -/
theorem ContributeInPlace_other (lib : Curve Fr G₁ G₂ Gt) (delta : Fr) (sg : G₁)
    (mem : Nat → Contribution G₁ G₂) (c prev p : Nat) (hp : p ≠ c) :
    ContributeInPlace lib delta sg mem c prev p = mem p := by
  unfold ContributeInPlace
  simp only [Function.update_noteq hp, foldl_update_other c p hp]

theorem foldl_update_Z (c prev : Nat) (hne : prev ≠ c) (k : Fr) (js : List Nat)
    (mem : Nat → Contribution G₁ G₂) :
    (js.foldl (fun mem i => Function.update mem c
        { mem c with Parameters.G1.Z :=
            (mem c).Parameters.G1.Z.set i (k • (mem prev).Parameters.G1.Z.getD i 0) }) mem) c
      = { mem c with Parameters.G1.Z :=
            (List.foldl (fun z i => z.set i (k • (mem prev).Parameters.G1.Z.getD i 0))
              (mem c).Parameters.G1.Z js) } :=
  foldl_update_self c prev hne (fun o => o.Parameters.G1.Z)
    (fun o z => { o with Parameters.G1.Z := z }) (fun _ _ => rfl) (fun _ _ _ => rfl)
    (fun _ => rfl) (fun o => o.Parameters.G1.Z) k js mem

theorem foldl_update_L (c prev : Nat) (hne : prev ≠ c) (k : Fr) (js : List Nat)
    (mem : Nat → Contribution G₁ G₂) :
    (js.foldl (fun mem i => Function.update mem c
        { mem c with Parameters.G1.L :=
            (mem c).Parameters.G1.L.set i (k • (mem prev).Parameters.G1.L.getD i 0) }) mem) c
      = { mem c with Parameters.G1.L :=
            (List.foldl (fun z i => z.set i (k • (mem prev).Parameters.G1.L.getD i 0))
              (mem c).Parameters.G1.L js) } :=
  foldl_update_self c prev hne (fun o => o.Parameters.G1.L)
    (fun o z => { o with Parameters.G1.L := z }) (fun _ _ => rfl) (fun _ _ _ => rfl)
    (fun _ => rfl) (fun o => o.Parameters.G1.L) k js mem

/-- For `c ≠ prev`, the object at `c` after `ContributeInPlace` is the result of
`Contribute` on the two objects. -/
theorem ContributeInPlace_self (lib : Curve Fr G₁ G₂ Gt) (delta : Fr) (sg : G₁)
    (mem : Nat → Contribution G₁ G₂) (c prev : Nat) (hne : c ≠ prev) :
    ContributeInPlace lib delta sg mem c prev c
      = Contribute lib delta sg (mem c) (mem prev) := by
  have hne' : prev ≠ c := fun h => hne h.symm
  unfold ContributeInPlace Contribute scaleLoop
  simp only [Function.update_same, Function.update_noteq hne', foldl_update_other c prev hne',
    Function.update_idem, foldl_update_Z c prev hne', foldl_update_L c prev hne']

end phase2

namespace phase2
variable {Fr G₁ G₂ Gt : Type} [Field Fr] [AddCommGroup G₁] [Module Fr G₁]
  [AddCommGroup G₂] [Module Fr G₂] [AddCommGroup Gt] [Module Fr Gt]

/-- C19. For `c` distinct from `prev`, `c.Contribute(prev)` leaves the object `prev` as it
was: its `G1.Delta`, `G2.Delta`, every entry of `G1.Z` and `G1.L`, its `PublicKey` and its
`Hash`; so is every object other than `c`, and the object `c` receives the result of
`Contribute`. -/
theorem contribute_leaves_prev (lib : Curve Fr G₁ G₂ Gt) (delta : Fr) (sg : G₁)
    (mem : Nat → Contribution G₁ G₂) (c prev : Nat) (hne : c ≠ prev) :
    ContributeInPlace lib delta sg mem c prev prev = mem prev ∧
    (∀ p, p ≠ c → ContributeInPlace lib delta sg mem c prev p = mem p) ∧
    ContributeInPlace lib delta sg mem c prev c
      = Contribute lib delta sg (mem c) (mem prev) :=
  ⟨ContributeInPlace_other lib delta sg mem c prev prev (fun h => hne h.symm),
    fun p hp => ContributeInPlace_other lib delta sg mem c prev p hp,
    ContributeInPlace_self lib delta sg mem c prev hne⟩

/-- C19 on the memory that holds `smallSeed` at address `1` and zero values elsewhere, with
`c = 0`, `prev = 1` and `δ = 2`. -/
theorem contribute_leaves_prev_witness :
    (0 : Nat) ≠ 1 ∧
    ContributeInPlace smallCurve 2 3
      (fun p => if p = 1 then smallSeed else Contribution.zero) 0 1 1 = smallSeed :=
  ⟨by decide,
    (contribute_leaves_prev smallCurve 2 3
      (fun p => if p = 1 then smallSeed else Contribution.zero) 0 1 (by decide)).1⟩

end phase2

namespace groth16
variable {Rd Err : Type}

/-! ## The curve-polymorphic readers -/

/-- C18. For each of `ReadProvingKey`, `ReadVerifyingKey`, `ReadProof` and each supported
curve: when the curve-specific `ReadFrom` returns an error, the function returns that error
with a `nil` object; otherwise it returns the object of that curve as `ReadFrom` left it,
with a `nil` error. -/
theorem readers_return_error_or_object {PK VK Pf : ID → Type}
    (zeroPK : (id : ID) → PK id) (readPK : (id : ID) → PK id → Rd → PK id × Option Err)
    (zeroVK : (id : ID) → VK id) (readVK : (id : ID) → VK id → Rd → VK id × Option Err)
    (zeroPf : (id : ID) → Pf id) (readPf : (id : ID) → Pf id → Rd → Pf id × Option Err)
    (reader : Rd) (curveID : ID) (hid : curveID ≠ ID.UNKNOWN) :
    ReadProvingKey zeroPK readPK reader curveID
      = .ok (match (readPK curveID (zeroPK curveID) reader).2 with
          | some err => (none, some err)
          | none => (some ⟨curveID, (readPK curveID (zeroPK curveID) reader).1⟩, none)) ∧
    ReadVerifyingKey zeroVK readVK reader curveID
      = .ok (match (readVK curveID (zeroVK curveID) reader).2 with
          | some err => (none, some err)
          | none => (some ⟨curveID, (readVK curveID (zeroVK curveID) reader).1⟩, none)) ∧
    ReadProof zeroPf readPf reader curveID
      = .ok (match (readPf curveID (zeroPf curveID) reader).2 with
          | some err => (none, some err)
          | none => (some ⟨curveID, (readPf curveID (zeroPf curveID) reader).1⟩, none)) := by
  refine ⟨?_, ?_, ?_⟩
  · cases curveID with
    | UNKNOWN => exact absurd rfl hid
    | BN256 =>
      simp only [ReadProvingKey]
      rcases readPK ID.BN256 (zeroPK ID.BN256) reader with ⟨o, _ | e⟩ <;> rfl
    | BLS377 =>
      simp only [ReadProvingKey]
      rcases readPK ID.BLS377 (zeroPK ID.BLS377) reader with ⟨o, _ | e⟩ <;> rfl
    | BLS381 =>
      simp only [ReadProvingKey]
      rcases readPK ID.BLS381 (zeroPK ID.BLS381) reader with ⟨o, _ | e⟩ <;> rfl
    | BW761 =>
      simp only [ReadProvingKey]
      rcases readPK ID.BW761 (zeroPK ID.BW761) reader with ⟨o, _ | e⟩ <;> rfl
  · cases curveID with
    | UNKNOWN => exact absurd rfl hid
    | BN256 =>
      simp only [ReadVerifyingKey]
      rcases readVK ID.BN256 (zeroVK ID.BN256) reader with ⟨o, _ | e⟩ <;> rfl
    | BLS377 =>
      simp only [ReadVerifyingKey]
      rcases readVK ID.BLS377 (zeroVK ID.BLS377) reader with ⟨o, _ | e⟩ <;> rfl
    | BLS381 =>
      simp only [ReadVerifyingKey]
      rcases readVK ID.BLS381 (zeroVK ID.BLS381) reader with ⟨o, _ | e⟩ <;> rfl
    | BW761 =>
      simp only [ReadVerifyingKey]
      rcases readVK ID.BW761 (zeroVK ID.BW761) reader with ⟨o, _ | e⟩ <;> rfl
  · cases curveID with
    | UNKNOWN => exact absurd rfl hid
    | BN256 =>
      simp only [ReadProof]
      rcases readPf ID.BN256 (zeroPf ID.BN256) reader with ⟨o, _ | e⟩ <;> rfl
    | BLS377 =>
      simp only [ReadProof]
      rcases readPf ID.BLS377 (zeroPf ID.BLS377) reader with ⟨o, _ | e⟩ <;> rfl
    | BLS381 =>
      simp only [ReadProof]
      rcases readPf ID.BLS381 (zeroPf ID.BLS381) reader with ⟨o, _ | e⟩ <;> rfl
    | BW761 =>
      simp only [ReadProof]
      rcases readPf ID.BW761 (zeroPf ID.BW761) reader with ⟨o, _ | e⟩ <;> rfl

end groth16

/-! ## Serialization round trip -/

theorem smallDecodeMany_encode (ps : List (ZMod 17)) (rest : List Nat) :
    smallDecodeMany ps.length (ps.map ZMod.val ++ rest) = some (ps, rest) := by
  induction ps with
  | nil => rfl
  | cons p ps ih =>
    have hlt : p.val < 17 := ZMod.val_lt p
    have ih' : smallDecodeMany ps.length ((ps.map ZMod.val).append rest) = some (ps, rest) := ih
    simp only [List.length_cons, List.map_cons, List.cons_append, smallDecodeMany, hlt, if_true,
      ih', ZMod.natCast_zmod_val]

theorem smallCodec_inverts : smallCodec.Inverts smallCurve := by
  refine ⟨?_, ?_, ?_, ?_⟩
  · intro p rest
    have := smallDecodeMany_encode [p] rest
    simp only [List.length_singleton, List.map_cons, List.map_nil, List.singleton_append] at this
    simp [smallCodec, smallCurve, this]
  · intro p rest
    have := smallDecodeMany_encode [p] rest
    simp only [List.length_singleton, List.map_cons, List.map_nil, List.singleton_append] at this
    simp [smallCodec, smallCurve, this]
  · intro ps rest
    exact smallDecodeMany_encode ps rest
  · intro ps rest
    exact smallDecodeMany_encode ps rest

namespace phase2
variable {Fr G₁ G₂ Gt : Type} [Field Fr] [AddCommGroup G₁] [Module Fr G₁]
  [AddCommGroup G₂] [Module Fr G₂] [AddCommGroup Gt] [Module Fr Gt]

theorem Contribution_ReadFrom_WriteTo (lib : Curve Fr G₁ G₂ Gt) (codec : Codec G₁ G₂)
    (hinv : codec.Inverts lib) (c fresh : Contribution G₁ G₂) (rest : List Nat) :
    Contribution.ReadFrom codec fresh (Contribution.WriteTo lib c ++ rest)
      = .ok ({ fresh with PublicKey := c.PublicKey, Parameters := c.Parameters }, rest) := by
  obtain ⟨h1, h2, h3, _⟩ := hinv
  unfold Contribution.ReadFrom Contribution.WriteTo
  simp only [List.append_assoc, h1, h2, h3, Option.bind_eq_bind, Option.some_bind,
    Option.pure_def, bind, pure]

theorem Evaluations_ReadFrom_WriteTo (lib : Curve Fr G₁ G₂ Gt) (codec : Codec G₁ G₂)
    (hinv : codec.Inverts lib) (ev fresh : Evaluations G₁ G₂) (rest : List Nat) :
    Evaluations.ReadFrom codec fresh (Evaluations.WriteTo lib codec ev ++ rest)
      = .ok (ev, rest) := by
  obtain ⟨_, _, h3, h4⟩ := hinv
  unfold Evaluations.ReadFrom Evaluations.WriteTo
  simp only [List.append_assoc, h3, h4, Option.bind_eq_bind, Option.some_bind,
    Option.pure_def, bind, pure]

/-- C13. When the decoder reads back what the encoder wrote, reading the bytes of
`c.WriteTo` into a fresh `Contribution` succeeds and gives a value with the `PublicKey` and
the `Parameters` of `c`, hence with the same `HashContribution`; and reading the bytes of
`WriteTo` of an `Evaluations` value gives that value. -/
theorem serialization_round_trip (lib : Curve Fr G₁ G₂ Gt) (codec : Codec G₁ G₂)
    (hinv : codec.Inverts lib) (c fresh : Contribution G₁ G₂)
    (ev freshEv : Evaluations G₁ G₂) :
    (∃ c', Contribution.ReadFrom codec fresh (Contribution.WriteTo lib c) = .ok (c', []) ∧
      c'.PublicKey = c.PublicKey ∧ c'.Parameters = c.Parameters ∧
      HashContribution lib c' = HashContribution lib c) ∧
    Evaluations.ReadFrom codec freshEv (Evaluations.WriteTo lib codec ev) = .ok (ev, []) := by
  constructor
  · refine ⟨{ fresh with PublicKey := c.PublicKey, Parameters := c.Parameters }, ?_, rfl, rfl,
      rfl⟩
    have := Contribution_ReadFrom_WriteTo lib codec hinv c fresh []
    rwa [List.append_nil] at this
  · have := Evaluations_ReadFrom_WriteTo lib codec hinv ev freshEv []
    rwa [List.append_nil] at this

/-- C13 at the contribution made from `smallSeed` with `δ = 2` and at the evaluations of
`smallQAP`, read into zero values. -/
theorem serialization_round_trip_witness :
    smallCodec.Inverts smallCurve ∧
    (∃ c', Contribution.ReadFrom smallCodec Contribution.zero
        (Contribution.WriteTo smallCurve (Contribute smallCurve 2 3 Contribution.zero smallSeed))
        = .ok (c', []) ∧
      c'.PublicKey = (Contribute smallCurve 2 3 Contribution.zero smallSeed).PublicKey ∧
      c'.Parameters = (Contribute smallCurve 2 3 Contribution.zero smallSeed).Parameters ∧
      HashContribution smallCurve c'
        = HashContribution smallCurve (Contribute smallCurve 2 3 Contribution.zero smallSeed)) ∧
    Evaluations.ReadFrom smallCodec { G1 := { A := [], B := [], VKK := [] }, G2 := { B := [] } }
      (Evaluations.WriteTo smallCurve smallCodec
        { G1 := { A := [9, 11, 13], B := [10, 8, 2], VKK := [5] }, G2 := { B := [10, 8, 2] } })
      = .ok ({ G1 := { A := [9, 11, 13], B := [10, 8, 2], VKK := [5] },
               G2 := { B := [10, 8, 2] } }, []) :=
  ⟨smallCodec_inverts,
    serialization_round_trip smallCurve smallCodec smallCodec_inverts _ _ _ _⟩

end phase2

namespace phase2

/-! ## `QAP.Load` -/

theorem readUint32_uint32LE (n : Nat) (rest : List Nat) :
    readUint32 (uint32LE n ++ rest) = (n % 4294967296, rest) := by
  unfold readUint32 uint32LE
  simp only [List.cons_append, List.nil_append, List.length_cons, List.getD_cons_zero,
    List.getD_cons_succ, List.drop_succ_cons, List.drop_zero, Nat.mod_mod]
  have h4 : 4 ≤ rest.length + 1 + 1 + 1 + 1 := by omega
  simp only [h4, if_true, Prod.mk.injEq, and_true]
  omega

theorem readUint32_short (file : List Nat) (h : file.length < 4) :
    readUint32 file = (0, []) := by
  unfold readUint32
  have : ¬ 4 ≤ file.length := by omega
  simp only [this, if_false]

variable {Fr : Type} [Zero Fr]

/-- One iteration of the loop of `QAP.Load` neither reads nor writes `NPublic`. -/
theorem loadWire_NPublic (Decode : List Fr → List Nat → Except String (List Fr × List Nat))
    (i : Nat) (qap : QAP Fr) (rest : List Nat) (x : Int) :
    loadWire Decode i { qap with NPublic := x } rest
      = (({ (loadWire Decode i qap rest).1.1 with NPublic := x },
          (loadWire Decode i qap rest).1.2), (loadWire Decode i qap rest).2) := by
  unfold loadWire
  simp only
  split
  · rfl
  · split
    · rfl
    · split
      · rfl
      · rfl

theorem loadLoop_NPublic (Decode : List Fr → List Nat → Except String (List Fr × List Nat))
    (js : List Nat) :
    ∀ (qap : QAP Fr) (rest : List Nat) (x : Int),
      loadLoop Decode js { qap with NPublic := x } rest
        = ({ (loadLoop Decode js qap rest).1 with NPublic := x },
            (loadLoop Decode js qap rest).2) := by
  induction js with
  | nil => intro qap rest x; rfl
  | cons i js ih =>
    intro qap rest x
    simp only [loadLoop]
    rw [loadWire_NPublic]
    rcases hw : loadWire Decode i qap rest with ⟨⟨q, r⟩, _ | e⟩
    · simp only
      exact ih q r x
    · rfl

theorem loadWire_counts (Decode : List Fr → List Nat → Except String (List Fr × List Nat))
    (i : Nat) (qap : QAP Fr) (rest : List Nat) :
    (loadWire Decode i qap rest).1.1.NWires = qap.NWires ∧
    (loadWire Decode i qap rest).1.1.NPublic = qap.NPublic ∧
    (loadWire Decode i qap rest).1.1.NConstraints = qap.NConstraints := by
  unfold loadWire
  simp only
  split
  · exact ⟨rfl, rfl, rfl⟩
  · split
    · exact ⟨rfl, rfl, rfl⟩
    · split
      · exact ⟨rfl, rfl, rfl⟩
      · exact ⟨rfl, rfl, rfl⟩

theorem loadLoop_counts (Decode : List Fr → List Nat → Except String (List Fr × List Nat))
    (js : List Nat) :
    ∀ (qap : QAP Fr) (rest : List Nat),
      (loadLoop Decode js qap rest).1.NWires = qap.NWires ∧
      (loadLoop Decode js qap rest).1.NPublic = qap.NPublic ∧
      (loadLoop Decode js qap rest).1.NConstraints = qap.NConstraints := by
  induction js with
  | nil => intro qap rest; exact ⟨rfl, rfl, rfl⟩
  | cons i js ih =>
    intro qap rest
    have hc := loadWire_counts Decode i qap rest
    simp only [loadLoop]
    rcases hw : loadWire Decode i qap rest with ⟨⟨q, r⟩, _ | e⟩
    · rw [hw] at hc
      simp only at hc ⊢
      obtain ⟨h1, h2, h3⟩ := ih q r
      exact ⟨h1.trans hc.1, h2.trans hc.2.1, h3.trans hc.2.2⟩
    · rw [hw] at hc
      exact hc

/-- C14, as stated, fails: on a file whose header declares one constraint, one wire and two
public wires, followed by three vectors of one scalar, `QAP.Load` returns without a panic
and leaves a QAP with `NPublic = 2 > NWires = 1`. -/
theorem load_accepts_NPublic_above_NWires :
    QAP.Load smallDecodeFr
        { NConstraints := 0, NWires := 0, NPublic := 0, A := [], B := [], C := [] }
        (.ok [1, 0, 0, 0, 1, 0, 0, 0, 2, 0, 0, 0, 1, 5, 1, 6, 1, 7])
      = ({ NConstraints := 1, NWires := 1, NPublic := 2, A := [[5]], B := [[6]], C := [[7]] },
          none) := by
  rfl

/-- C14, amended. `QAP.Load` stores the declared `NPublic` and `NWires` without comparing
them: on a file that starts with the three header words, whether the call panics does not
depend on the declared `NPublic`, and the receiver holds the declared counts after the
call. -/
theorem load_does_not_check_NPublic
    (Decode : List Fr → List Nat → Except String (List Fr × List Nat)) (qap : QAP Fr)
    (nc nw np np' : Nat) (body : List Nat) :
    (QAP.Load Decode qap (.ok (uint32LE nc ++ uint32LE nw ++ uint32LE np ++ body))).2
      = (QAP.Load Decode qap (.ok (uint32LE nc ++ uint32LE nw ++ uint32LE np' ++ body))).2 ∧
    (QAP.Load Decode qap (.ok (uint32LE nc ++ uint32LE nw ++ uint32LE np ++ body))).1.NPublic
      = ((np % 4294967296 : Nat) : Int) ∧
    (QAP.Load Decode qap (.ok (uint32LE nc ++ uint32LE nw ++ uint32LE np ++ body))).1.NWires
      = ((nw % 4294967296 : Nat) : Int) := by
  have key : ∀ p : Nat,
      QAP.Load Decode qap (.ok (uint32LE nc ++ uint32LE nw ++ uint32LE p ++ body))
        = loadLoop Decode (List.range (nw % 4294967296))
            { NConstraints := ((nc % 4294967296 : Nat) : Int),
              NWires := ((nw % 4294967296 : Nat) : Int),
              NPublic := ((p % 4294967296 : Nat) : Int),
              A := List.replicate (nw % 4294967296) [],
              B := List.replicate (nw % 4294967296) [],
              C := List.replicate (nw % 4294967296) [] } body := by
    intro p
    unfold QAP.Load
    simp only [List.append_assoc, readUint32_uint32LE, Int.toNat_ofNat]
  have hnp := loadLoop_NPublic Decode (List.range (nw % 4294967296))
    ({ NConstraints := ((nc % 4294967296 : Nat) : Int),
       NWires := ((nw % 4294967296 : Nat) : Int),
       NPublic := 0,
       A := List.replicate (nw % 4294967296) [],
       B := List.replicate (nw % 4294967296) [],
       C := List.replicate (nw % 4294967296) [] } : QAP Fr) body
  have hc := loadLoop_counts Decode (List.range (nw % 4294967296))
    ({ NConstraints := ((nc % 4294967296 : Nat) : Int),
       NWires := ((nw % 4294967296 : Nat) : Int),
       NPublic := ((np % 4294967296 : Nat) : Int),
       A := List.replicate (nw % 4294967296) [],
       B := List.replicate (nw % 4294967296) [],
       C := List.replicate (nw % 4294967296) [] } : QAP Fr) body
  refine ⟨?_, ?_, ?_⟩
  · rw [key np, key np']
    have e1 := hnp ((np % 4294967296 : Nat) : Int)
    have e2 := hnp ((np' % 4294967296 : Nat) : Int)
    simp only at e1 e2
    rw [e1, e2]
  · rw [key np]; exact hc.2.1
  · rw [key np]; exact hc.1

/-- C15: `QAP.Load` on a file that ends inside the header. On the empty file, and on a file
of the four bytes of `NConstraints = 7`, the call returns without a panic, and the receiver
is a QAP without wires. -/
theorem load_returns_on_truncated_header
    (Decode : List Fr → List Nat → Except String (List Fr × List Nat)) (qap : QAP Fr) :
    QAP.Load Decode qap (.ok [])
      = ({ NConstraints := 0, NWires := 0, NPublic := 0, A := [], B := [], C := [] }, none) ∧
    QAP.Load Decode qap (.ok [7, 0, 0, 0])
      = ({ NConstraints := 7, NWires := 0, NPublic := 0, A := [], B := [], C := [] }, none) :=
  ⟨rfl, rfl⟩

/-- Every file shorter than eight bytes is loaded without a panic. -/
theorem load_returns_below_eight_bytes
    (Decode : List Fr → List Nat → Except String (List Fr × List Nat)) (qap : QAP Fr)
    (file : List Nat) (h : file.length < 8) :
    (QAP.Load Decode qap (.ok file)).2 = none ∧
    (QAP.Load Decode qap (.ok file)).1.NWires = 0 := by
  have h2 : (readUint32 (readUint32 file).2) = (0, []) := by
    apply readUint32_short
    unfold readUint32
    split
    · simp only [List.length_drop]; omega
    · simp
  unfold QAP.Load
  simp only [h2, readUint32_short [] (by simp)]
  exact ⟨rfl, rfl⟩

/-- A file that ends inside the vectors makes `QAP.Load` panic when the decoder reports the
end of the input: here after the first of the three vectors of the only wire. -/
theorem load_panics_on_truncated_vectors :
    (QAP.Load smallDecodeFr
        { NConstraints := 0, NWires := 0, NPublic := 0, A := [], B := [], C := [] }
        (.ok [1, 0, 0, 0, 1, 0, 0, 0, 0, 0, 0, 0, 1, 5])).2 = some "unexpected EOF" := by
  rfl

end phase2

namespace groth16

/-- C18 at the curve `BN256` with `smallReadFrom`: a reader of two bytes gives the error and
no object, a reader of four bytes gives the object of three bytes and no error. -/
theorem readers_return_error_or_object_witness :
    ID.BN256 ≠ ID.UNKNOWN ∧
    ReadProvingKey (fun _ => ([] : List Nat)) smallReadFrom [1, 2] ID.BN256
      = .ok (none, some "unexpected EOF") ∧
    ReadVerifyingKey (fun _ => ([] : List Nat)) smallReadFrom [1, 2, 3, 4] ID.BN256
      = .ok (some ⟨ID.BN256, [1, 2, 3]⟩, none) ∧
    ReadProof (fun _ => ([] : List Nat)) smallReadFrom [1, 2] ID.BN256
      = .ok (none, some "unexpected EOF") :=
  ⟨by decide,
    (readers_return_error_or_object (fun _ => ([] : List Nat)) smallReadFrom
      (fun _ => ([] : List Nat)) smallReadFrom (fun _ => ([] : List Nat)) smallReadFrom
      [1, 2] ID.BN256 (by decide)).1,
    (readers_return_error_or_object (fun _ => ([] : List Nat)) smallReadFrom
      (fun _ => ([] : List Nat)) smallReadFrom (fun _ => ([] : List Nat)) smallReadFrom
      [1, 2, 3, 4] ID.BN256 (by decide)).2.1,
    (readers_return_error_or_object (fun _ => ([] : List Nat)) smallReadFrom
      (fun _ => ([] : List Nat)) smallReadFrom (fun _ => ([] : List Nat)) smallReadFrom
      [1, 2] ID.BN256 (by decide)).2.2⟩

end groth16

namespace phase2
variable {Fr G₁ G₂ Gt : Type} [Field Fr] [AddCommGroup G₁] [Module Fr G₁]
  [AddCommGroup G₂] [Module Fr G₂] [AddCommGroup Gt] [Module Fr Gt]

/-! ## `Contribute` with the receiver as `prev` -/

theorem set_replicate_zero (n i : Nat) (k : Fr) :
    (List.replicate n (0 : G₁)).set i (k • (List.replicate n (0 : G₁)).getD i 0)
      = List.replicate n 0 := by
  apply List.ext_getElem
  · simp
  · intro j h1 h2
    simp only [List.length_replicate] at h2
    by_cases hij : i = j
    · subst hij
      simp [List.getD_eq_getElem?_getD, List.getElem?_replicate, h2]
    · simp [List.getElem_set_ne hij]

/-- The scaling loop of `Z` when the object read is the object written, on a slice of
zeros: every iteration writes `k • 0`, and the memory stays as it is. -/
theorem foldl_alias_Z (c : Nat) (k : Fr) (n : Nat) (js : List Nat)
    (mem : Nat → Contribution G₁ G₂) (hz : (mem c).Parameters.G1.Z = List.replicate n 0) :
    (js.foldl (fun mem i => Function.update mem c
        { mem c with Parameters.G1.Z :=
            (mem c).Parameters.G1.Z.set i (k • (mem c).Parameters.G1.Z.getD i 0) }) mem)
      = mem := by
  induction js with
  | nil => rfl
  | cons i js ih =>
    rw [List.foldl_cons]
    have : Function.update mem c
        { mem c with Parameters.G1.Z :=
            (mem c).Parameters.G1.Z.set i (k • (mem c).Parameters.G1.Z.getD i 0) } = mem := by
      rw [hz, set_replicate_zero, ← hz]
      exact Function.update_eq_self c mem
    rw [this]; exact ih

theorem foldl_alias_L (c : Nat) (k : Fr) (n : Nat) (js : List Nat)
    (mem : Nat → Contribution G₁ G₂) (hz : (mem c).Parameters.G1.L = List.replicate n 0) :
    (js.foldl (fun mem i => Function.update mem c
        { mem c with Parameters.G1.L :=
            (mem c).Parameters.G1.L.set i (k • (mem c).Parameters.G1.L.getD i 0) }) mem)
      = mem := by
  induction js with
  | nil => rfl
  | cons i js ih =>
    rw [List.foldl_cons]
    have : Function.update mem c
        { mem c with Parameters.G1.L :=
            (mem c).Parameters.G1.L.set i (k • (mem c).Parameters.G1.L.getD i 0) } = mem := by
      rw [hz, set_replicate_zero, ← hz]
      exact Function.update_eq_self c mem
    rw [this]; exact ih

/-- The call `c.Contribute(c)`: the two `Delta`s are multiplied by `δ` and the public key is
generated on the hash before the call, but `make` replaces `Z` and `L` by zeros before the
loops read them, so both slices end as zeros of the former lengths. -/
theorem ContributeInPlace_alias (lib : Curve Fr G₁ G₂ Gt) (delta : Fr) (sg : G₁)
    (mem : Nat → Contribution G₁ G₂) (c : Nat) :
    ContributeInPlace lib delta sg mem c c c
      = { Parameters :=
            { G1 := { Delta := delta • (mem c).Parameters.G1.Delta,
                      L := List.replicate (mem c).Parameters.G1.L.length 0,
                      Z := List.replicate (mem c).Parameters.G1.Z.length 0 },
              G2 := { Delta := delta • (mem c).Parameters.G2.Delta } },
          PublicKey := utils.GenPublicKey lib sg delta (mem c).Hash 1,
          Hash := HashContribution lib
            { Parameters :=
                { G1 := { Delta := delta • (mem c).Parameters.G1.Delta,
                          L := List.replicate (mem c).Parameters.G1.L.length 0,
                          Z := List.replicate (mem c).Parameters.G1.Z.length 0 },
                  G2 := { Delta := delta • (mem c).Parameters.G2.Delta } },
              PublicKey := utils.GenPublicKey lib sg delta (mem c).Hash 1,
              Hash := (mem c).Hash } } := by
  unfold ContributeInPlace
  simp only [Function.update_same, Function.update_idem, List.length_replicate]
  rw [foldl_alias_Z c _ (mem c).Parameters.G1.Z.length _ _ (by simp)]
  simp only [Function.update_same, Function.update_idem, List.length_replicate]
  rw [foldl_alias_L c _ (mem c).Parameters.G1.L.length _ _ (by simp)]
  simp only [Function.update_same, Function.update_idem]

/-- Whatever the two addresses, the call multiplies both `Delta`s of `prev` by `δ`. -/
theorem ContributeInPlace_Delta (lib : Curve Fr G₁ G₂ Gt) (delta : Fr) (sg : G₁)
    (mem : Nat → Contribution G₁ G₂) (c prev : Nat) :
    (ContributeInPlace lib delta sg mem c prev c).Parameters.G1.Delta
        = delta • (mem prev).Parameters.G1.Delta ∧
    (ContributeInPlace lib delta sg mem c prev c).Parameters.G2.Delta
        = delta • (mem prev).Parameters.G2.Delta := by
  by_cases h : c = prev
  · subst h; rw [ContributeInPlace_alias]; exact ⟨rfl, rfl⟩
  · rw [ContributeInPlace_self lib delta sg mem c prev h]; exact ⟨rfl, rfl⟩

/-! ## Sequences of calls on a memory -/

theorem reachedContribution_nil (lib : Curve Fr G₁ G₂ Gt) (mem : Nat → Contribution G₁ G₂)
    (seed : Nat) : reachedContribution lib mem seed [] = mem seed := rfl

theorem reachedContribution_cons (lib : Curve Fr G₁ G₂ Gt) (mem : Nat → Contribution G₁ G₂)
    (seed : Nat) (r : Fr × G₁ × Nat) (calls : List (Fr × G₁ × Nat)) :
    reachedContribution lib mem seed (r :: calls)
      = reachedContribution lib (ContributeInPlace lib r.1 r.2.1 mem r.2.2 seed) r.2.2 calls :=
  rfl

/-- Consistency of the two `Delta`s is kept by every sequence of calls. -/
theorem reached_delta_consistent (lib : Curve Fr G₁ G₂ Gt) (calls : List (Fr × G₁ × Nat)) :
    ∀ (mem : Nat → Contribution G₁ G₂) (seed : Nat),
      lib.e (mem seed).Parameters.G1.Delta lib.g2 = lib.e lib.g1 (mem seed).Parameters.G2.Delta →
      lib.e (reachedContribution lib mem seed calls).Parameters.G1.Delta lib.g2
        = lib.e lib.g1 (reachedContribution lib mem seed calls).Parameters.G2.Delta := by
  induction calls with
  | nil => intro mem seed h; exact h
  | cons r calls ih =>
    intro mem seed h
    rw [reachedContribution_cons]
    apply ih
    obtain ⟨h1, h2⟩ := ContributeInPlace_Delta lib r.1 r.2.1 mem r.2.2 seed
    rw [h1, h2]
    simp only [map_smul, LinearMap.smul_apply, h]

/-- Along calls with nonzero scalars and receivers other than their `prev`, the pairing of
`Z[i]` with `G2.Delta` does not change. -/
theorem reached_Z_pairing (lib : Curve Fr G₁ G₂ Gt) (i : Nat)
    (calls : List (Fr × G₁ × Nat)) :
    ∀ (mem : Nat → Contribution G₁ G₂) (seed : Nat) (z₀ : G₁),
      (∀ r ∈ calls, r.1 ≠ 0) → DistinctReceivers seed calls →
      (mem seed).Parameters.G1.Z[i]? = some z₀ →
      ∃ z, (reachedContribution lib mem seed calls).Parameters.G1.Z[i]? = some z ∧
        lib.e z (reachedContribution lib mem seed calls).Parameters.G2.Delta
          = lib.e z₀ (mem seed).Parameters.G2.Delta := by
  induction calls with
  | nil => intro mem seed z₀ _ _ h; exact ⟨z₀, h, rfl⟩
  | cons r calls ih =>
    intro mem seed z₀ hrs hdist h
    have hr : r.1 ≠ 0 := hrs r (by simp)
    have hdist : r.2.2 ≠ seed ∧ DistinctReceivers r.2.2 calls := hdist
    have hself := ContributeInPlace_self lib r.1 r.2.1 mem r.2.2 seed hdist.1
    have hstep : (ContributeInPlace lib r.1 r.2.1 mem r.2.2 seed r.2.2).Parameters.G1.Z[i]?
        = some (r.1⁻¹ • z₀) := by
      rw [hself, Contribute_Z, List.getElem?_map, h]; rfl
    obtain ⟨z, hz, he⟩ := ih _ r.2.2 _ (fun q hq => hrs q (by simp [hq])) hdist.2 hstep
    refine ⟨z, by rw [reachedContribution_cons]; exact hz, ?_⟩
    rw [reachedContribution_cons, he, hself, Contribute_G2Delta, pairing_inv_smul lib r.1 hr]

end phase2

namespace phase2
variable {Fr G₁ G₂ Gt : Type} [Field Fr] [AddCommGroup G₁] [Module Fr G₁]
  [AddCommGroup G₂] [Module Fr G₂] [AddCommGroup Gt] [Module Fr Gt]

/-! ## `Verify` after `Contribute` -/

/-- C1, as stated, fails in two ways on the seed `smallSeed`, held at address `0` of
`smallMemory`. When the sampler returns `δ = 0`, the contribution made by a receiver at
address `1` is rejected by the inverse-scaling check of `Z` (`e(c.G1.Z[0], c.G2.Delta) = 0`
and `e(prev.G1.Z[0], prev.G2.Delta) = 3`). When the receiver is `prev` itself, with
`δ = 2`, the object is rejected by the knowledge-of-exponent check: its public key was
generated on the hash before the call (`e(pk.sg, pk.xr) = 5`, `e(pk.sxg, r) = 2`). -/
theorem verify_rejects_zero_delta_or_same_object :
    Verify smallCurve (ContributeInPlace smallCurve 0 3 smallMemory 1 0 1)
        (ContributeInPlace smallCurve 0 3 smallMemory 1 0 0)
      = .error (.ErrInvalidContribution "z-inverse") ∧
    Verify smallCurve (ContributeInPlace smallCurve 2 3 smallMemory 0 0 0)
        (ContributeInPlace smallCurve 2 3 smallMemory 0 0 0)
      = .error .ErrInvalidKoE := by
  constructor
  · rw [ContributeInPlace_self smallCurve 0 3 smallMemory 1 0 (by decide),
      ContributeInPlace_other smallCurve 0 3 smallMemory 1 0 0 (by decide)]
    unfold Verify
    rw [checkKoE_Contribute, checkDeltaConsistency_Contribute _ _ _ _ _ (by decide),
      checkDeltaRatio_Contribute]
    have h4 : checkInverseScaling smallCurve
        (Contribute smallCurve 0 3 (smallMemory 1) (smallMemory 0)).Parameters.G1.Z
        (smallMemory 0).Parameters.G1.Z
        (Contribute smallCurve 0 3 (smallMemory 1) (smallMemory 0)) (smallMemory 0)
          = false := by
      rw [Contribute_Z]
      simp only [inv_zero, zero_smul]
      decide
    rw [h4]
    rfl
  · rw [ContributeInPlace_alias]
    rfl

/-- C1, amended. Let `prev` be the latest contribution of a memory in which an accepted
`PreparePhase2` left the seed and on which any number of `Contribute` calls were made, and
let `c.Contribute(prev)` be called with a receiver `c` other than `prev` and a sampled
`δ ≠ 0`. Then `c.Verify(prev)` returns no error. -/
theorem verify_accepts_contribute [DecidableEq Gt] (lib : Curve Fr G₁ G₂ Gt) (sg₀ : G₁)
    (c2 : Contribution G₁ G₂) (c1 : phase1.Contribution G₁ G₂) (qap : QAP Fr)
    (evals : Evaluations G₁ G₂) (mem : Nat → Contribution G₁ G₂) (seed : Nat)
    (h : PreparePhase2 lib sg₀ c2 c1 qap = (mem seed, .ok evals))
    (calls : List (Fr × G₁ × Nat)) (delta : Fr) (hd : delta ≠ 0) (sg : G₁) (c : Nat)
    (hne : c ≠ (contributeCalls lib mem seed calls).2) :
    Verify lib
        (ContributeInPlace lib delta sg (contributeCalls lib mem seed calls).1 c
          (contributeCalls lib mem seed calls).2 c)
        (ContributeInPlace lib delta sg (contributeCalls lib mem seed calls).1 c
          (contributeCalls lib mem seed calls).2 (contributeCalls lib mem seed calls).2)
      = .ok () := by
  obtain ⟨h1, h2⟩ := PreparePhase2_Delta lib sg₀ c2 c1 qap (mem seed) evals h
  have hcons := reached_delta_consistent lib calls mem seed (by rw [h1, h2])
  rw [ContributeInPlace_self lib delta sg _ c _ hne,
    ContributeInPlace_other lib delta sg _ c _ _ (fun e => hne e.symm)]
  exact Verify_Contribute lib delta hd sg _ _ hcons

/-- C1 on `smallMemory`: after one call with `δ = 3` and the receiver at address `1`, the
contribution made with `δ = 2` by the receiver at address `2` is accepted. -/
theorem verify_accepts_contribute_witness :
    (PreparePhase2 smallCurve 3 Contribution.zero smallSRS smallQAP
        = (smallMemory 0,
            .ok { G1 := { A := [9, 11, 13], B := [10, 8, 2], VKK := [5] },
                  G2 := { B := [10, 8, 2] } }) ∧ (2 : ZMod 17) ≠ 0 ∧
      2 ≠ (contributeCalls smallCurve smallMemory 0 [(3, 5, 1)]).2) ∧
    Verify smallCurve
        (ContributeInPlace smallCurve 2 3 (contributeCalls smallCurve smallMemory 0 [(3, 5, 1)]).1
          2 (contributeCalls smallCurve smallMemory 0 [(3, 5, 1)]).2 2)
        (ContributeInPlace smallCurve 2 3 (contributeCalls smallCurve smallMemory 0 [(3, 5, 1)]).1
          2 (contributeCalls smallCurve smallMemory 0 [(3, 5, 1)]).2
          (contributeCalls smallCurve smallMemory 0 [(3, 5, 1)]).2)
      = .ok () :=
  ⟨⟨rfl, by decide, by decide⟩,
    verify_accepts_contribute smallCurve 3 Contribution.zero smallSRS smallQAP _ smallMemory 0
      rfl [(3, 5, 1)] 2 (by decide) 3 2 (by decide)⟩

/-! ## One scalar throughout -/

/-- C2, as stated for every `prev`, fails when the receiver is `prev` itself: the call on
the object at address `0` of `smallMemory` (the seed, `Z = [3, 1]`) with `δ = 2` leaves
`Z = [0, 0]` and `L = [0, 0]`, so `c.G1.Z[i]` is not `δ⁻¹·Z[i]` of the object before the
call; and `c.G1.Delta` is not `δ` times the `G1.Delta` of the object after the call. -/
theorem contribute_on_itself_wipes_Z_and_L :
    (ContributeInPlace smallCurve 2 3 smallMemory 0 0 0).Parameters.G1.Z = [0, 0] ∧
    (ContributeInPlace smallCurve 2 3 smallMemory 0 0 0).Parameters.G1.L = [0, 0] ∧
    ¬ (∀ i, i < (smallMemory 0).Parameters.G1.Z.length →
        (ContributeInPlace smallCurve 2 3 smallMemory 0 0 0).Parameters.G1.Z[i]?
          = some ((2 : ZMod 17)⁻¹ • (smallMemory 0).Parameters.G1.Z.getD i 0)) ∧
    (ContributeInPlace smallCurve 2 3 smallMemory 0 0 0).Parameters.G1.Delta
      ≠ (2 : ZMod 17) • (ContributeInPlace smallCurve 2 3 smallMemory 0 0 0).Parameters.G1.Delta := by
  rw [ContributeInPlace_alias]
  refine ⟨by decide, by decide, ?_, by decide⟩
  intro h
  have h1 := h 1 (by decide)
  have e1 : (List.replicate (smallMemory 0).Parameters.G1.Z.length (0 : ZMod 17))[1]?
      = some 0 := by decide
  have e2 : (smallMemory 0).Parameters.G1.Z.getD 1 0 = 1 := by decide
  have h3 : (2 : ZMod 17)⁻¹ ≠ 0 := inv_ne_zero (by decide)
  rw [e1, e2, smul_eq_mul, mul_one] at h1
  exact h3 (Option.some.inj h1).symm

/-- C2, amended. For every `prev` and every receiver `c` other than `prev`, `c.Contribute(prev)`
uses one sampled scalar `δ` throughout: `c.G1.Delta = δ·prev.G1.Delta`,
`c.G2.Delta = δ·prev.G2.Delta`, `c.G1.Z` and `c.G1.L` have the lengths of those of `prev`
with `c.G1.Z[i] = δ⁻¹·prev.G1.Z[i]` and `c.G1.L[i] = δ⁻¹·prev.G1.L[i]` for every index `i`,
and `c.PublicKey = GenPublicKey(δ, prev.Hash, 1)` for that same `δ`; `prev` is the same
object before and after the call. -/
theorem contributeInPlace_uses_one_delta (lib : Curve Fr G₁ G₂ Gt) (delta : Fr) (sg : G₁)
    (mem : Nat → Contribution G₁ G₂) (c prev : Nat) (hne : c ≠ prev) :
    ContributeInPlace lib delta sg mem c prev prev = mem prev ∧
    (ContributeInPlace lib delta sg mem c prev c).Parameters.G1.Delta
      = delta • (mem prev).Parameters.G1.Delta ∧
    (ContributeInPlace lib delta sg mem c prev c).Parameters.G2.Delta
      = delta • (mem prev).Parameters.G2.Delta ∧
    (ContributeInPlace lib delta sg mem c prev c).Parameters.G1.Z.length
      = (mem prev).Parameters.G1.Z.length ∧
    (ContributeInPlace lib delta sg mem c prev c).Parameters.G1.L.length
      = (mem prev).Parameters.G1.L.length ∧
    (∀ (i : Nat) (h : i < (mem prev).Parameters.G1.Z.length),
      (ContributeInPlace lib delta sg mem c prev c).Parameters.G1.Z[i]?
        = some (delta⁻¹ • (mem prev).Parameters.G1.Z[i])) ∧
    (∀ (i : Nat) (h : i < (mem prev).Parameters.G1.L.length),
      (ContributeInPlace lib delta sg mem c prev c).Parameters.G1.L[i]?
        = some (delta⁻¹ • (mem prev).Parameters.G1.L[i])) ∧
    (ContributeInPlace lib delta sg mem c prev c).PublicKey
      = utils.GenPublicKey lib sg delta (mem prev).Hash 1 := by
  refine ⟨ContributeInPlace_other lib delta sg mem c prev prev (fun e => hne e.symm), ?_⟩
  rw [ContributeInPlace_self lib delta sg mem c prev hne]
  exact Contribute_fields lib delta sg (mem c) (mem prev)

/-- C2 on `smallMemory` with the receiver at address `1`, `prev` at address `0` and
`δ = 2`: the entry `Z[1]`. -/
theorem contributeInPlace_uses_one_delta_witness :
    (1 : Nat) ≠ 0 ∧
    (ContributeInPlace smallCurve 2 3 smallMemory 1 0 1).Parameters.G1.Z[1]?
      = some ((2 : ZMod 17)⁻¹ • (1 : ZMod 17)) :=
  ⟨by decide,
    (contributeInPlace_uses_one_delta smallCurve 2 3 smallMemory 1 0 (by decide)).2.2.2.2.2.1 1
      (by decide)⟩

/-! ## Inverse scaling -/

/-- C3, as stated, fails in two ways on the seed held at address `0` of `smallMemory`
(`Z = [3, 1]`, `G2.Delta = 1`). When the sampler returns `δ = 0`, a receiver at address `1`
gets `Z = [0, 0]` and `G2.Delta = 0`, and the pairing equality for `i = 1` reads `0 = 1`.
When the receiver is `prev` itself, with `δ = 2`, its `Z` becomes `[0, 0]`, and the pairing
equality with the object before the call reads `0 = 3` for `i = 0`. -/
theorem inverse_scaling_fails_at_zero_or_same_object :
    ¬ (∀ i, i < (smallMemory 0).Parameters.G1.Z.length →
        smallCurve.e
            ((ContributeInPlace smallCurve 0 3 smallMemory 1 0 1).Parameters.G1.Z.getD i 0)
            (ContributeInPlace smallCurve 0 3 smallMemory 1 0 1).Parameters.G2.Delta
          = smallCurve.e
              ((ContributeInPlace smallCurve 0 3 smallMemory 1 0 0).Parameters.G1.Z.getD i 0)
              (ContributeInPlace smallCurve 0 3 smallMemory 1 0 0).Parameters.G2.Delta) ∧
    ¬ (∀ i, i < (smallMemory 0).Parameters.G1.Z.length →
        smallCurve.e
            ((ContributeInPlace smallCurve 2 3 smallMemory 0 0 0).Parameters.G1.Z.getD i 0)
            (ContributeInPlace smallCurve 2 3 smallMemory 0 0 0).Parameters.G2.Delta
          = smallCurve.e ((smallMemory 0).Parameters.G1.Z.getD i 0)
              (smallMemory 0).Parameters.G2.Delta) := by
  constructor
  · intro h
    have h1 := h 1 (by decide)
    revert h1
    rw [ContributeInPlace_self smallCurve 0 3 smallMemory 1 0 (by decide),
      ContributeInPlace_other smallCurve 0 3 smallMemory 1 0 0 (by decide),
      Contribute_Z, Contribute_G2Delta]
    simp only [inv_zero, zero_smul, map_zero]
    decide
  · intro h
    have h0 := h 0 (by decide)
    revert h0
    rw [ContributeInPlace_alias]
    decide

/-- C3, amended. For every `prev`, every receiver `c` other than `prev` and every sampled
`δ ≠ 0`, after `c.Contribute(prev)` the inverse-scaling pairing equalities hold for every
index: `e(c.G1.Z[i], c.G2.Delta) = e(prev.G1.Z[i], prev.G2.Delta)` for all `i < len(Z)` and
`e(c.G1.L[i], c.G2.Delta) = e(prev.G1.L[i], prev.G2.Delta)` for all `i < len(L)`; `prev` is
the same object before and after the call. -/
theorem contributeInPlace_inverse_scaling (lib : Curve Fr G₁ G₂ Gt) (delta : Fr)
    (hd : delta ≠ 0) (sg : G₁) (mem : Nat → Contribution G₁ G₂) (c prev : Nat)
    (hne : c ≠ prev) :
    ContributeInPlace lib delta sg mem c prev prev = mem prev ∧
    (∀ (i : Nat) (h : i < (mem prev).Parameters.G1.Z.length),
      ∃ z, (ContributeInPlace lib delta sg mem c prev c).Parameters.G1.Z[i]? = some z ∧
        lib.e z (ContributeInPlace lib delta sg mem c prev c).Parameters.G2.Delta
          = lib.e (mem prev).Parameters.G1.Z[i] (mem prev).Parameters.G2.Delta) ∧
    (∀ (i : Nat) (h : i < (mem prev).Parameters.G1.L.length),
      ∃ l, (ContributeInPlace lib delta sg mem c prev c).Parameters.G1.L[i]? = some l ∧
        lib.e l (ContributeInPlace lib delta sg mem c prev c).Parameters.G2.Delta
          = lib.e (mem prev).Parameters.G1.L[i] (mem prev).Parameters.G2.Delta) := by
  refine ⟨ContributeInPlace_other lib delta sg mem c prev prev (fun e => hne e.symm), ?_⟩
  rw [ContributeInPlace_self lib delta sg mem c prev hne]
  exact Contribute_inverse_scaling lib delta hd sg (mem c) (mem prev)

/-- C3 on `smallMemory` with the receiver at address `1`, `prev` at address `0` and
`δ = 2`: the entry `Z[1]`. -/
theorem contributeInPlace_inverse_scaling_witness :
    ((2 : ZMod 17) ≠ 0 ∧ (1 : Nat) ≠ 0) ∧
    ∃ z, (ContributeInPlace smallCurve 2 3 smallMemory 1 0 1).Parameters.G1.Z[1]? = some z ∧
      smallCurve.e z (ContributeInPlace smallCurve 2 3 smallMemory 1 0 1).Parameters.G2.Delta
        = smallCurve.e 1 (smallMemory 0).Parameters.G2.Delta :=
  ⟨⟨by decide, by decide⟩,
    (contributeInPlace_inverse_scaling smallCurve 2 (by decide) 3 smallMemory 1 0
      (by decide)).2.1 1 (by decide)⟩

/-! ## Soundness over `Z` along the calls -/

/-- C4, as stated, fails in two ways from the seed of `smallSRS` and `smallQAP` (`n = 2`),
held at address `0` of `smallMemory`, where `e(Tau[2] − Tau[0], [1]₂) = 3`. One call with
`δ = 0` by a receiver at address `1` gives `e(Z[0], G2.Delta) = 0`; and so does one call
with `δ = 2` whose receiver is the seed itself, which leaves `Z = [0, 0]`. -/
theorem z_soundness_fails_at_zero_or_same_object :
    ¬ (∀ i, i + 1 < smallSRS.Parameters.G1.AlphaTau.length →
        smallCurve.e
          ((reachedContribution smallCurve smallMemory 0 [(0, 3, 1)]).Parameters.G1.Z.getD i 0)
          (reachedContribution smallCurve smallMemory 0 [(0, 3, 1)]).Parameters.G2.Delta
        = smallCurve.e
          (smallSRS.Parameters.G1.Tau.getD (i + smallSRS.Parameters.G1.AlphaTau.length) 0
            - smallSRS.Parameters.G1.Tau.getD i 0) smallCurve.g2) ∧
    ¬ (∀ i, i + 1 < smallSRS.Parameters.G1.AlphaTau.length →
        smallCurve.e
          ((reachedContribution smallCurve smallMemory 0 [(2, 3, 0)]).Parameters.G1.Z.getD i 0)
          (reachedContribution smallCurve smallMemory 0 [(2, 3, 0)]).Parameters.G2.Delta
        = smallCurve.e
          (smallSRS.Parameters.G1.Tau.getD (i + smallSRS.Parameters.G1.AlphaTau.length) 0
            - smallSRS.Parameters.G1.Tau.getD i 0) smallCurve.g2) := by
  constructor
  · intro h
    have h0 := h 0 (by decide)
    revert h0
    rw [reachedContribution_cons, reachedContribution_nil,
      (ContributeInPlace_Delta smallCurve 0 3 smallMemory 1 0).2]
    simp only [zero_smul, map_zero]
    decide
  · intro h
    have h0 := h 0 (by decide)
    revert h0
    rw [reachedContribution_cons, reachedContribution_nil, ContributeInPlace_alias]
    decide

/-- C4, amended. On an accepted `PreparePhase2(c1, qap)` with `n = len(c1.G1.AlphaTau)`,
for every contribution reached from the seed by `k ≥ 0` `Contribute` calls, each with a
nonzero sampled scalar and a receiver other than its `prev`,
`e(c.G1.Z[i], c.G2.Delta) = e(c1.G1.Tau[i+n] − c1.G1.Tau[i], [1]₂)` for every `i < n − 1`. -/
theorem z_soundness_along_calls (lib : Curve Fr G₁ G₂ Gt) (sg : G₁)
    (c2 : Contribution G₁ G₂) (c1 : phase1.Contribution G₁ G₂) (qap : QAP Fr)
    (evals : Evaluations G₁ G₂) (mem : Nat → Contribution G₁ G₂) (seed : Nat)
    (h : PreparePhase2 lib sg c2 c1 qap = (mem seed, .ok evals))
    (calls : List (Fr × G₁ × Nat)) (hrs : ∀ r ∈ calls, r.1 ≠ 0)
    (hdist : DistinctReceivers seed calls) :
    ∀ i, i + 1 < c1.Parameters.G1.AlphaTau.length →
      ∃ z a b, (reachedContribution lib mem seed calls).Parameters.G1.Z[i]? = some z ∧
        c1.Parameters.G1.Tau[i + c1.Parameters.G1.AlphaTau.length]? = some a ∧
        c1.Parameters.G1.Tau[i]? = some b ∧
        lib.e z (reachedContribution lib mem seed calls).Parameters.G2.Delta
          = lib.e (a - b) lib.g2 := by
  intro i hi
  obtain ⟨a, b, ha, hb, hz⟩ := PreparePhase2_Z lib sg c2 c1 qap (mem seed) evals h i hi
  obtain ⟨_, h2⟩ := PreparePhase2_Delta lib sg c2 c1 qap (mem seed) evals h
  obtain ⟨z, hz', he⟩ := reached_Z_pairing lib i calls mem seed (a - b) hrs hdist hz
  exact ⟨z, a, b, hz', ha, hb, by rw [he, h2]⟩

/-- C4 on `smallMemory` after two calls, with `δ = 2` by the receiver at address `1` and
with `δ = 3` by the receiver at address `0`, for `i = 0`. -/
theorem z_soundness_along_calls_witness :
    (PreparePhase2 smallCurve 3 Contribution.zero smallSRS smallQAP
        = (smallMemory 0,
            .ok { G1 := { A := [9, 11, 13], B := [10, 8, 2], VKK := [5] },
                  G2 := { B := [10, 8, 2] } }) ∧
      (∀ r ∈ ([(2, 3, 1), (3, 5, 0)] : List (ZMod 17 × ZMod 17 × Nat)), r.1 ≠ 0) ∧
      DistinctReceivers 0 ([(2, 3, 1), (3, 5, 0)] : List (ZMod 17 × ZMod 17 × Nat))) ∧
    ∃ z a b, (reachedContribution smallCurve smallMemory 0
          [(2, 3, 1), (3, 5, 0)]).Parameters.G1.Z[0]? = some z ∧
      smallSRS.Parameters.G1.Tau[0 + smallSRS.Parameters.G1.AlphaTau.length]? = some a ∧
      smallSRS.Parameters.G1.Tau[0]? = some b ∧
      smallCurve.e z (reachedContribution smallCurve smallMemory 0
          [(2, 3, 1), (3, 5, 0)]).Parameters.G2.Delta
        = smallCurve.e (a - b) smallCurve.g2 :=
  ⟨⟨rfl, by decide, by decide⟩,
    z_soundness_along_calls smallCurve 3 Contribution.zero smallSRS smallQAP _ smallMemory 0 rfl
      [(2, 3, 1), (3, 5, 0)] (by decide) (by decide) 0 (by decide)⟩

end phase2

end Setup
